import Mathlib

/-!
# STEPPE plant-community simulator: resource partitioning, growth, mortality

A shallow embedding of the yearly engine of the STEPPE model
(`ST_resgroups_prop.c`, `ST_mortality.c`, `ST_structs.h`) and theorems about it.

Conventions of the embedding.

* `RealF` quantities are exact rationals (`ℚ`): the theorems are about the
  arithmetic the code writes down, not about binary rounding.
* Where C divides by a quantity that the theorem does not exclude from being
  zero, the definition says what IEEE arithmetic yields (see `_add_annuals`);
  everywhere else the theorems carry the hypothesis that the divisor is non-zero.
* `IntUS` counters wrap at `2 ^ 16`.
* Global arrays (`RGroup[]`, `Species[]`) are lists inside a `State`; the linked
  list of a species' individuals is a list; a pointer to an individual is the
  pair (species index, position in the species' list).
* Library and collaborator functions that are not part of the translated files
  (`exp`, `pow`, the random stream, `SXW_GetResource`, the comparison tolerance)
  are fields of a `Ctx` argument.
-/

namespace Steppe

/-! ## Enumerations and records (`ST_structs.h`) -/

/-- The year's precipitation class, `Env.wet_dry`. -/
inductive PPTClass where
  | Ppt_Wet
  | Ppt_Norm
  | Ppt_Dry
deriving DecidableEq, Repr, Inhabited

/-- Temperature class of a species. -/
inductive TempClass where
  | NoSeason
  | CoolSeason
  | WarmSeason
deriving DecidableEq, Repr, Inhabited

/-- Disturbance-sensitivity class of a species. -/
inductive DisturbClass where
  | VerySensitive
  | Sensitive
  | Insensitive
  | VeryInsensitive
deriving DecidableEq, Repr, Inhabited

/-- Record `struct indiv_st`: one perennial individual. -/
structure IndivType where
  age : Nat
  slow_yrs : Nat
  myspecies : Nat
  killed : Bool
  relsize : ℚ
  grp_res_prop : ℚ
  res_required : ℚ
  res_avail : ℚ
  res_extra : ℚ
  pr : ℚ
  growthrate : ℚ
  prob_veggrow : ℚ
deriving DecidableEq, Repr, Inhabited

/-- Record `struct species_st` (the fields the yearly engine reads or writes). -/
structure SpeciesType where
  est_count : Nat
  kills : List Nat
  estabs : Nat
  relsize : ℚ
  seedprod : List ℚ
  extragrowth : ℚ
  IndvHead : List IndivType
  max_age : Nat
  viable_yrs : Nat
  max_seed_estab : Nat
  max_vegunits : Nat
  max_slow : Nat
  sp_num : Nat
  res_grp : Nat
  max_rate : ℚ
  intrin_rate : ℚ
  relseedlingsize : ℚ
  mature_biomass : ℚ
  seedling_estab_prob_old : ℚ
  seedling_estab_prob : ℚ
  cohort_surv : ℚ
  exp_decay : ℚ
  tempclass : TempClass
  disturbclass : DisturbClass
  isclonal : Bool
  use_me : Bool
deriving Repr, Inhabited

/-- Record `struct resourcegroup_st`. The arrays `est_spp` and `species` are lists;
`est_count` and `max_spp` say how many leading entries are in use. -/
structure GroupType where
  kills : List Nat
  estabs : Nat
  killyr : Nat
  yrs_neg_pr : Nat
  res_required : ℚ
  res_avail : ℚ
  res_extra : ℚ
  pr : ℚ
  relsize : ℚ
  est_count : Nat
  est_spp : List Nat
  extirpated : Bool
  regen_ok : Bool
  max_stretch : Nat
  max_spp : Nat
  max_age : Nat
  startyr : Nat
  killfreq : Nat
  extirp : Nat
  species : List Nat
  min_res_req : ℚ
  max_density : ℚ
  xgrow : ℚ
  slowrate : ℚ
  ppt_slope : PPTClass → ℚ
  ppt_intcpt : PPTClass → ℚ
  succulent : Bool
  use_extra_res : Bool
  use_me : Bool
  use_mort : Bool
deriving Inhabited

/-- Record `struct environs_st`. -/
structure EnvType where
  wet_dry : PPTClass
  ppt : Int
  temp_reduction : TempClass → ℚ

/-- What the translated files take from outside: the tolerance of the comparison
macros, the C library functions `exp` and `pow`, the random-number routines (as
streams indexed by the number of draws made so far) and the soil-water
collaborator's `SXW_GetResource` (group index to baseline and actual resource). -/
structure Ctx where
  delta : ℚ
  exp : ℚ → ℚ
  pow : ℚ → ℚ → ℚ
  RandUni : Nat → ℚ
  RandUniRange : Nat → Int → Int → Int
  SXW_GetResource : Nat → ℚ × ℚ

/-- The mutable program state: the global arrays, the environment of the year, the
run-time switch `UseSoilwat` and the number of random draws made so far. -/
structure State where
  RGroup : List GroupType
  Species : List SpeciesType
  Env : EnvType
  UseSoilwat : Bool
  draws : Nat

/-! ## Comparison macros and small helpers -/

/-- Modelled from the spec: the near-zero macro `ZRO` of `generic.h` (absent), an
epsilon-tolerant test `-delta < x < delta`. -/
def ZRO (d x : ℚ) : Prop := -d < x ∧ x < d

/-- Modelled from the spec: the tolerant equality macro `EQ` of `generic.h` (absent),
`b - delta < a < b + delta`. -/
def EQ (d a b : ℚ) : Prop := b - d < a ∧ a < b + d

/-- Modelled from the spec: the greater-than macro `GT` of `generic.h` (absent),
`a > b` and not tolerantly equal. With tolerance 0 it is plain `a > b`. -/
def GT (d a b : ℚ) : Prop := b < a ∧ ¬ EQ d a b

/-- Modelled from the spec: the less-than macro `LT` of `generic.h` (absent),
`a < b` and not tolerantly equal. -/
def LT (d a b : ℚ) : Prop := a < b ∧ ¬ EQ d a b

instance (d x : ℚ) : Decidable (ZRO d x) := by unfold ZRO; infer_instance
instance (d a b : ℚ) : Decidable (EQ d a b) := by unfold EQ; infer_instance
instance (d a b : ℚ) : Decidable (GT d a b) := by unfold GT; infer_instance
instance (d a b : ℚ) : Decidable (LT d a b) := by unfold LT; infer_instance

/-- C conversion of a real to an integer type: truncation toward zero. -/
def truncToInt (x : ℚ) : Int := if 0 ≤ x then ⌊x⌋ else ⌈x⌉

/-- Increment of an `IntUS` (unsigned 16-bit) counter. -/
def incrIntUS (n : Nat) : Nat := (n + 1) % 65536

/-! ## Growth (`rgroup_Grow`) -/

/-- The constant `OPT_SLOPE` of `rgroup_Grow`. -/
def OPT_SLOPE : ℚ := 5 / 100

/-- Resource modifier of `rgroup_Grow`:
`gmod = 1.0 - OPT_SLOPE * min(1.0, pr); if (GT(pr, 1.0)) gmod /= pr;`. -/
def gmod_res (d pr : ℚ) : ℚ :=
  let gmod := 1 - OPT_SLOPE * min 1 pr
  if GT d pr 1 then gmod / pr else gmod

/-- The normal-growth branch of the body of `ForEachIndiv` in `rgroup_Grow`:
`rate1 = gmod * intrin_rate * (1 - relsize)` with `gmod` already multiplied by
`tgmod`, and `growth1 = rate1 * relsize`. Returns `(rate1, growth1)`. -/
def normal_growth (d tgmod intrin_rate : ℚ) (ndv : IndivType) : ℚ × ℚ :=
  let gmod := gmod_res d ndv.pr * tgmod
  let rate1 := gmod * intrin_rate * (1 - ndv.relsize)
  (rate1, rate1 * ndv.relsize)

/-- Body of `ForEachIndiv` in `rgroup_Grow` for one individual of species `s`, with
temperature modifier `tgmod`, when `n` random draws have been made. Returns the
updated individual, its `growth1` and the new number of draws. `RandUni` is only
drawn when the individual is marked killed (C's short-circuit `&&`). -/
def grow_indiv (c : Ctx) (s : SpeciesType) (tgmod : ℚ) (ndv : IndivType) (n : Nat) :
    IndivType × ℚ × Nat :=
  if ndv.killed then
    if c.RandUni n < ndv.prob_veggrow then
      let growth1 := s.relseedlingsize * (c.RandUniRange (n + 1) 1 s.max_vegunits : ℚ)
      let rate1 := growth1 / ndv.relsize
      ({ ndv with killed := false, relsize := ndv.relsize + growth1, growthrate := rate1 },
        growth1, n + 2)
    else
      let rg := normal_growth c.delta tgmod s.intrin_rate ndv
      ({ ndv with relsize := ndv.relsize + rg.2, growthrate := rg.1 }, rg.2, n + 1)
  else
    let rg := normal_growth c.delta tgmod s.intrin_rate ndv
    ({ ndv with relsize := ndv.relsize + rg.2, growthrate := rg.1 }, rg.2, n)


/-! ## Access to the global arrays -/

/-- Pointer to an individual: index of its species and position in the species' list. -/
structure IndivRef where
  sp : Nat
  pos : Nat
deriving DecidableEq, Repr

/-- Modelled from the spec: the sort codes `SORT_0`, `SORT_A`, `SORT_D` of `ST_defines.h`
(absent): no sort, ascending and descending. -/
inductive SortKind where
  | SORT_0
  | SORT_A
  | SORT_D
deriving DecidableEq, Repr

/-- The group `RGroup[rg]`. -/
def State.group (s : State) (rg : Nat) : GroupType := s.RGroup.getD rg default

/-- The species `Species[sp]`. -/
def State.species (s : State) (sp : Nat) : SpeciesType := s.Species.getD sp default

/-- Assignment through the pointer `RGroup[rg]`. -/
def State.modGroup (s : State) (rg : Nat) (f : GroupType → GroupType) : State :=
  { s with RGroup := s.RGroup.modify f rg }

/-- Assignment through the pointer `Species[sp]`. -/
def State.modSpecies (s : State) (sp : Nat) (f : SpeciesType → SpeciesType) : State :=
  { s with Species := s.Species.modify f sp }

/-- Assignment through a pointer to an individual. -/
def State.setIndiv (s : State) (r : IndivRef) (ndv : IndivType) : State :=
  s.modSpecies r.sp (fun sp => { sp with IndvHead := sp.IndvHead.set r.pos ndv })

/-- Modelled from the spec: the iteration macro `ForEachGroup` of `ST_defines.h` (absent):
the group indices `0 .. grpCount - 1` in order. -/
def ForEachGroup (s : State) : List Nat := List.range s.RGroup.length

/-- Modelled from the spec: the iteration macro `ForEachEstSpp` of `ST_defines.h` (absent):
the first `est_count` entries of `est_spp`. -/
def ForEachEstSpp (g : GroupType) : List Nat := g.est_spp.take g.est_count

/-- Modelled from the spec: the iteration macro `ForEachGroupSpp` of `ST_defines.h`
(absent): the first `max_spp` entries of `species`. -/
def ForEachGroupSpp (g : GroupType) : List Nat := g.species.take g.max_spp

/-- Modelled from the spec: `Indiv_SortSize` of `ST_indivs.c` (absent) sorts an array of
pointers to individuals by relative size, ascending for `SORT_A`, descending for `SORT_D`,
and leaves it alone for `SORT_0`. The order it gives to individuals of equal size is not
specified; no theorem depends on it. -/
def Indiv_SortSize (sort : SortKind) (l : List (IndivRef × IndivType)) :
    List (IndivRef × IndivType) :=
  match sort with
  | SortKind.SORT_0 => l
  | SortKind.SORT_A => l.insertionSort (fun a b => a.2.relsize ≤ b.2.relsize)
  | SortKind.SORT_D => l.insertionSort (fun a b => b.2.relsize ≤ a.2.relsize)

/-! The two orders of `Indiv_SortSize` are total preorders. -/

instance sizeLe_total : IsTotal (IndivRef × IndivType) (fun a b => a.2.relsize ≤ b.2.relsize) :=
  ⟨fun a b => le_total a.2.relsize b.2.relsize⟩

instance sizeLe_trans : IsTrans (IndivRef × IndivType) (fun a b => a.2.relsize ≤ b.2.relsize) :=
  ⟨fun _ _ _ h1 h2 => le_trans h1 h2⟩

instance sizeGe_total : IsTotal (IndivRef × IndivType) (fun a b => b.2.relsize ≤ a.2.relsize) :=
  ⟨fun a b => le_total b.2.relsize a.2.relsize⟩

instance sizeGe_trans : IsTrans (IndivRef × IndivType) (fun a b => b.2.relsize ≤ a.2.relsize) :=
  ⟨fun _ _ _ h1 h2 => le_trans h2 h1⟩

/-- Function `RGroup_GetIndivs`: all individuals of the established species of group `rg`,
each with its pointer, optionally sorted. `*num` is the length of the result. -/
def RGroup_GetIndivs (s : State) (rg : Nat) (sort : SortKind) : List (IndivRef × IndivType) :=
  let nlist := (ForEachEstSpp (s.group rg)).flatMap (fun sp =>
    (s.species sp).IndvHead.enum.map (fun p => (({ sp := sp, pos := p.1 } : IndivRef), p.2)))
  if 0 < nlist.length ∧ sort ≠ SortKind.SORT_0 then Indiv_SortSize sort nlist else nlist

/-! ## Resource-stress mortality (`mort_Main`, `_no_resources`) -/

/-- The part of the body of `ForEachGroup` in `mort_Main` that decides on resource-stress
mortality. Returns the group with its updated `yrs_neg_pr` and whether `_no_resources(rg)`
is called. The rest of the body (the loop over the established species) and
`_no_resources` itself write neither `yrs_neg_pr` nor `pr` nor `max_stretch`. -/
def mort_Main_group (d : ℚ) (g : GroupType) : GroupType × Bool :=
  if g.est_count = 0 then (g, false)
  else if g.max_age = 1 then (g, false)
  else if GT d g.pr 1 then
    let y := incrIntUS g.yrs_neg_pr
    ({ g with yrs_neg_pr := y }, decide (g.max_stretch ≤ y))
  else ({ g with yrs_neg_pr := 0 }, false)

/-- A year as `mort_Main` finds it: the group's PR and its number of established species,
both written by the earlier steps of the year. -/
structure YearInput where
  pr : ℚ
  est_count : Nat

/-- Consecutive yearly calls of `mort_Main` seen from one group: before each call the
year's PR and established count are in place; the result is the group after the last
call and, for each year in order, whether `_no_resources` was called. -/
def mort_Main_years (d : ℚ) : GroupType → List YearInput → GroupType × List Bool
  | g, [] => (g, [])
  | g, y :: ys =>
    let r := mort_Main_group d { g with pr := y.pr, est_count := y.est_count }
    let rest := mort_Main_years d r.1 ys
    (rest.1, r.2 :: rest.2)

/-- The quota `nk` of `_no_resources` (EQN 7):
`nk = (IntS) ((n * (1.0 - 1.0/pr)) + .5)`. -/
def no_resources_nk (pr : ℚ) (n : Nat) : Int :=
  truncToInt ((n : ℚ) * (1 - 1 / pr) + 1 / 2)

/-- The quota loop of `_no_resources`: the individuals handed to `indiv_Kill_Complete`,
`indv_list[0 .. nk-1]` of the list sorted with `SORT_A`, and the remaining ones
(`indv_list[nk .. n-1]`, passed on to `_stretched_clonal`). -/
def _no_resources (s : State) (rg : Nat) :
    List (IndivRef × IndivType) × List (IndivRef × IndivType) :=
  let indv_list := RGroup_GetIndivs s rg SortKind.SORT_A
  let nk := no_resources_nk (s.group rg).pr indv_list.length
  (indv_list.take nk.toNat, indv_list.drop nk.toNat)

/-! ## Apportionment to individuals (`rgroup_ResPartIndiv`) -/

/-- First loop of `rgroup_ResPartIndiv` over the sorted array: sets `res_required` and
`res_avail` of each individual, threading `base_rem`. Returns the array and the final
`base_rem`. -/
def resPart_base (d : ℚ) (g : GroupType) : ℚ → List IndivType → List IndivType × ℚ
  | base_rem, [] => ([], base_rem)
  | base_rem, ndv :: rest =>
    let req := (ndv.relsize / (g.max_spp : ℚ)) / g.max_density
    if GT d g.pr 1 then
      let avail := min req base_rem
      let r := resPart_base d g (max (base_rem - avail) 0) rest
      ({ ndv with res_required := req, res_avail := avail } :: r.1, r.2)
    else
      let r := resPart_base d g base_rem rest
      ({ ndv with res_required := req, res_avail := ndv.grp_res_prop * g.res_avail } :: r.1, r.2)

/-- Body of the second loop of `rgroup_ResPartIndiv`: leftover and extra resource, then
the PR of the individual (100 when nothing is available). -/
def resPart_extra (d : ℚ) (g : GroupType) (base_rem : ℚ) (ndv : IndivType) : IndivType :=
  let ndv1 : IndivType :=
    if g.use_extra_res then
      let a1 := ndv.res_avail + (if ZRO d base_rem then 0 else ndv.grp_res_prop * base_rem)
      if GT d g.res_extra 0 then
        let x := 1 - ndv.relsize
        { ndv with res_extra := (1 - x) * ndv.grp_res_prop * g.res_extra,
                   res_avail := a1 + x * ndv.grp_res_prop * g.res_extra }
      else { ndv with res_avail := a1 }
    else ndv
  { ndv1 with pr := if GT d ndv1.res_avail 0 then ndv1.res_required / ndv1.res_avail else 100 }

/-- Body of `ForEachGroup` in `rgroup_ResPartIndiv` for one group, on the array `indivs`
that `RGroup_GetIndivs(rg, SORT_D, ..)` returned: the individuals after both loops, in the
order of the array. -/
def resPartIndiv_group (d : ℚ) (g : GroupType) (indivs : List IndivType) : List IndivType :=
  let r := resPart_base d g g.res_avail indivs
  let base_rem := r.2 + min 0 (g.res_avail - 1)
  r.1.map (resPart_extra d g base_rem)

/-- The array of the individuals of group `rg` as `rgroup_ResPartIndiv` leaves them. -/
def resPartIndiv_array (c : Ctx) (s : State) (rg : Nat) : List IndivType :=
  resPartIndiv_group c.delta (s.group rg)
    ((RGroup_GetIndivs s rg SortKind.SORT_D).map Prod.snd)

/-- Function `rgroup_ResPartIndiv`: for every perennial group with established species,
apportion the group's resource to its individuals; the results are stored through the
pointers of the array. -/
def rgroup_ResPartIndiv (c : Ctx) (s : State) : State :=
  (ForEachGroup s).foldl (fun st rg =>
    let g := st.group rg
    if g.max_age = 1 then st
    else if g.est_count = 0 then st
    else
      let refs := (RGroup_GetIndivs st rg SortKind.SORT_D).map Prod.fst
      (refs.zip (resPartIndiv_array c st rg)).foldl (fun st2 p => st2.setIndiv p.1 p.2) st) s


/-! ## Group sizes and annuals (`RGroup_Update_Newsize`, `_add_annuals`) -/

/-- Function `rgroup_AddSpecies`: `sp` is appended to the established species of group
`rg` unless it is already among them (`est_spp[est_count++] = sp`). -/
def rgroup_AddSpecies (st : State) (rg sp : Nat) : State :=
  st.modGroup rg (fun g =>
    if sp ∈ ForEachEstSpp g then g
    else { g with est_spp := g.est_spp.take g.est_count ++ [sp] ++ g.est_spp.drop (g.est_count + 1),
                  est_count := g.est_count + 1 })

/-- Function `RGroup_Update_Newsize`: the group's relative size is the sum of its
established species' sizes over `max_spp`; for a perennial group every individual's
`grp_res_prop` is its size over that sum; a size within the local `ZERO` tolerance
(20 times the tolerance of the comparison macros) is stored as 0. The C test
`est_count < 0` cannot hold for the natural number used here. -/
def RGroup_Update_Newsize (c : Ctx) (st : State) (rg : Nat) : State :=
  let sumsize := ((ForEachEstSpp (st.group rg)).map (fun sp => (st.species sp).relsize)).sum
  let st1 := st.modGroup rg (fun g => { g with relsize := sumsize / (g.max_spp : ℚ) })
  let st2 :=
    if (st1.group rg).max_age ≠ 1 then
      (RGroup_GetIndivs st1 rg SortKind.SORT_0).foldl
        (fun s2 p => s2.setIndiv p.1 { p.2 with grp_res_prop := p.2.relsize / sumsize }) st1
    else st1
  st2.modGroup rg (fun g => if ZRO (20 * c.delta) g.relsize then { g with relsize := 0 } else g)

/-- Modelled from the spec: `Species_Update_Newsize` of `ST_species.c` (absent) records a
change of size of a species: the species' relative size accumulates `newsize` and the
size of its group is recomputed by `RGroup_Update_Newsize`. -/
def Species_Update_Newsize (c : Ctx) (st : State) (sp : Nat) (newsize : ℚ) : State :=
  let st1 := st.modSpecies sp (fun s => { s with relsize := s.relsize + newsize })
  RGroup_Update_Newsize c st1 (st1.species sp).res_grp

/-- Function `_get_annual_maxestab`: the seed bank weighted by age,
`sum over i = 1 .. viable_yrs of seedprod[i-1] / pow(i, exp_decay)`. -/
def _get_annual_maxestab (c : Ctx) (s : SpeciesType) : ℚ :=
  ((List.range s.viable_yrs).map
    (fun k => s.seedprod.getD k 0 / c.pow ((k + 1 : Nat) : ℚ) s.exp_decay)).sum

/-- Function `_add_annual_seedprod`: `for (i = viable_yrs - 1; i > 0; i--)
seedprod[i] = seedprod[i-1];` then `seedprod[0]` is 0 for a negative `pr` and
`max_seed_estab * exp(-pr)` otherwise. (For `viable_yrs = 0` the C loop index wraps around;
the translation then only writes entry 0.) -/
def _add_annual_seedprod (c : Ctx) (st : State) (sp : Nat) (pr : ℚ) : State :=
  st.modSpecies sp (fun s =>
    let shifted := ((List.range (s.viable_yrs - 1)).reverse.map (fun k => k + 1)).foldl
      (fun l i => l.set i (l.getD (i - 1) 0)) s.seedprod
    { s with seedprod :=
        shifted.set 0 (if LT c.delta pr 0 then 0 else (s.max_seed_estab : ℚ) * c.exp (-pr)) })

/-- The constant `PR_0_est` of `_add_annuals`: the PR at which no seeds can establish. -/
def PR_0_est : ℚ := 20

/-- Body of `ForEachGroupSpp` in `_add_annuals` for species `sp` of group `rg`; the
accumulator is the state and `sumsize`. `RandUni` is drawn only when `add_seeds` is
false. `fmin(1.0 / g_pr, estabs)` is `estabs` when `g_pr` is 0 (the quotient is then
`+inf`). -/
def _add_annuals_spp (c : Ctx) (rg : Nat) (g_pr : ℚ) (add_seeds : Bool)
    (acc : State × ℚ) (sp : Nat) : State × ℚ :=
  let st := acc.1
  let forced : Bool :=
    !add_seeds && decide (c.RandUni st.draws ≤ (st.species sp).seedling_estab_prob)
  let st1 : State :=
    if add_seeds then st
    else
      let std : State := { st with draws := st.draws + 1 }
      if forced then
        _add_annual_seedprod c std sp (if (std.group rg).regen_ok then g_pr else -1)
      else std
  let x : ℚ := if (st1.group rg).regen_ok then _get_annual_maxestab c (st1.species sp) else 0
  let estabs : ℚ := (x - (x / PR_0_est * g_pr)) * c.exp (-g_pr)
  let newsize : ℚ :=
    if GT c.delta x 0 then (if g_pr = 0 then estabs else min (1 / g_pr) estabs) else 0
  let st2 : State :=
    if GT c.delta x 0 ∧ add_seeds = true then
      Species_Update_Newsize c (rgroup_AddSpecies st1 rg sp) sp newsize
    else st1
  let st3 : State :=
    if add_seeds && !forced then
      _add_annual_seedprod c st2 sp (if ZRO c.delta x then -1 else (st2.group rg).pr)
    else st2
  (st3, acc.2 + newsize)

/-- Function `_add_annuals`: returns the (temporary) relative size of annual group `rg`
and the state after the call. -/
def _add_annuals (c : Ctx) (st : State) (rg : Nat) (g_pr : ℚ) (add_seeds : Bool) :
    ℚ × State :=
  if (st.group rg).use_me = false then (0, st)
  else
    let r := (ForEachGroupSpp (st.group rg)).foldl (_add_annuals_spp c rg g_pr add_seeds) (st, 0)
    (r.2 / ((r.1.group rg).max_spp : ℚ), r.1)

/-! ## Partition among groups (`rgroup_PartResources`) -/

/-- Function `_ppt2resource`: the resource index of group `g` for the year. -/
def _ppt2resource (env : EnvType) (g : GroupType) : ℚ :=
  (env.ppt : ℚ) * g.ppt_slope env.wet_dry + g.ppt_intcpt env.wet_dry

/-- Body of the second `ForEachGroup` loop of `_res_part_extra` for one group, with
`sz = size[rg]`. -/
def res_part_extra_group (d : ℚ) (useSoilwat isextra : Bool) (extra sum_size sz : ℚ)
    (g : GroupType) : GroupType :=
  if ZRO d g.relsize then g
  else if isextra = true ∧ g.use_extra_res = false then g
  else
    let space : ℚ := if useSoilwat then 1 else g.min_res_req
    let req_prop := sz / sum_size
    if isextra = true ∧ g.use_extra_res = true ∧ GT d g.xgrow 0 then
      { g with res_extra := req_prop * extra / space }
    else { g with res_avail := g.res_avail + req_prop * extra / space }

/-- Function `_res_part_extra`: redistributes the pool `extra` in proportion to `size[]`. -/
def _res_part_extra (c : Ctx) (st : State) (isextra : Bool) (extra : ℚ) (size : List ℚ) :
    State :=
  let sum_size := ((ForEachGroup st).map (fun rg => size.getD rg 0)).sum
  (ForEachGroup st).foldl (fun s rg =>
    s.modGroup rg
      (res_part_extra_group c.delta s.UseSoilwat isextra extra sum_size (size.getD rg 0))) st

/-- The local variables of `rgroup_PartResources` that the first loop accumulates. -/
structure PartAcc where
  xtra_base : ℚ
  xtra_obase : ℚ
  size_base : List ℚ
  size_obase : List ℚ
  noplants : Bool

/-- Body of the first `ForEachGroup` loop of `rgroup_PartResources` (basic allocation),
with the `STEPWAT` by-mm branch under the run-time switch `UseSoilwat`. -/
def partres_pass1 (c : Ctx) (acc : State × PartAcc) (rg : Nat) : State × PartAcc :=
  let st0 := acc.1
  let st1 : State :=
    if (st0.group rg).max_age = 1 then
      let r := _add_annuals c st0 rg 1 false
      r.2.modGroup rg (fun g => { g with relsize := r.1 })
    else st0
  let g := st1.group rg
  let baseline := (c.SXW_GetResource rg).1
  let actual := (c.SXW_GetResource rg).2
  let resource := _ppt2resource st1.Env g
  let req : ℚ :=
    if st1.UseSoilwat then (g.relsize / g.max_density) * baseline else g.relsize / g.max_density
  let avail : ℚ := if st1.UseSoilwat then min req baseline else min 1 (min req resource)
  let xb : ℚ :=
    if st1.UseSoilwat then max 0 (min baseline actual - avail)
    else max 0 (min 1 resource - avail) * g.min_res_req
  let xo : ℚ :=
    if st1.UseSoilwat then max 0 (actual - baseline) else max 0 (resource - 1) * g.min_res_req
  let st2 := st1.modGroup rg (fun g => { g with res_required := req, res_avail := avail })
  let sb := g.relsize * g.min_res_req
  (st2,
    { xtra_base := acc.2.xtra_base + xb
      xtra_obase := acc.2.xtra_obase + xo
      size_base := acc.2.size_base ++ [sb]
      size_obase := acc.2.size_obase ++ [if g.use_extra_res then sb else 0]
      noplants := if GT c.delta g.relsize 0 then false else acc.2.noplants })

/-- The first loop of `rgroup_PartResources` over all groups. -/
def partres_base (c : Ctx) (st : State) : State × PartAcc :=
  (ForEachGroup st).foldl (partres_pass1 c)
    (st, { xtra_base := 0, xtra_obase := 0, size_base := [], size_obase := [],
           noplants := true })

/-- Body of the last `ForEachGroup` loop of `rgroup_PartResources`: the group's PR, and
for an annual group its true relative size (second pass of `_add_annuals`). -/
def partres_pr (c : Ctx) (st : State) (rg : Nat) : State :=
  let st1 := st.modGroup rg (fun g =>
    { g with pr := if ZRO c.delta g.res_avail then 0 else g.res_required / g.res_avail })
  if (st1.group rg).max_age = 1 then
    let r := _add_annuals c st1 rg (st1.group rg).pr true
    r.2.modGroup rg (fun g => { g with relsize := r.1 })
  else st1

/-- Function `rgroup_PartResources`. -/
def rgroup_PartResources (c : Ctx) (st : State) : State :=
  let r := partres_base c st
  if r.2.noplants then r.1
  else
    let st1 := _res_part_extra c r.1 false r.2.xtra_base r.2.size_base
    let st2 := _res_part_extra c st1 true r.2.xtra_obase r.2.size_obase
    let st3 := (ForEachGroup st2).foldl (partres_pr c) st2
    rgroup_ResPartIndiv c st3


/-! ## Seed bank, killing of species, extirpation -/

/-- The array operations of `_add_annual_seedprod` on a seed history `l` of a species with
`v = viable_yrs`: entries `v-1` down to 1 take the value of the entry before them, then
entry 0 becomes `new`. `_add_annual_seedprod` is this applied to `seedprod`. -/
def seedprod_push (v : Nat) (new : ℚ) (l : List ℚ) : List ℚ :=
  (((List.range (v - 1)).reverse.map (fun k => k + 1)).foldl
    (fun l i => l.set i (l.getD (i - 1) 0)) l).set 0 new

/-- Function `rgroup_DropSpecies`: the first occurrence of `sp` among the established
species of its group is removed, the entries after it move up and `est_count` decreases.
(Entries at and beyond `est_count` are dead; the list simply gets shorter.) -/
def rgroup_DropSpecies (st : State) (sp : Nat) : State :=
  st.modGroup (st.species sp).res_grp (fun g =>
    if sp ∈ ForEachEstSpp g then
      { g with est_spp := g.est_spp.eraseIdx ((ForEachEstSpp g).indexOf sp),
               est_count := g.est_count - 1 }
    else g)

/-- Modelled from the spec: the destruction of an individual of species `sp` at age `age`
is recorded in the age-indexed kill histograms of the species and of its group
(`ST_structs.h`: "# indivs killed by age. index=age"; the counters are `IntUS`). An age
beyond the histogram is not recorded. -/
def species_Update_Kills (st : State) (sp age : Nat) : State :=
  (st.modSpecies sp (fun s => { s with kills := s.kills.modify incrIntUS age })).modGroup
    (st.species sp).res_grp (fun g => { g with kills := g.kills.modify incrIntUS age })

/-- Modelled from the spec: the part of `Species_Kill` that removes the plants: the list
of individuals becomes empty and the established count 0, their size is removed from the
species (and, through `Species_Update_Newsize`, from its group), and the species is
dropped from the established species of its group. The seed bank is not touched (annuals
are killed at every year end and regenerate from it). -/
def Species_Kill_remove (c : Ctx) (st : State) (sp : Nat) : State :=
  let st1 := st.modSpecies sp (fun s => { s with IndvHead := [], est_count := 0 })
  let st2 := Species_Update_Newsize c st1 sp (-(st1.species sp).relsize)
  rgroup_DropSpecies st2 sp

/-- Modelled from the spec: `Species_Kill` of `ST_species.c` (absent) kills all individuals
of a species: every individual is destroyed, which is recorded in the kill histograms
(`species_Update_Kills`), and the plants are removed (`Species_Kill_remove`). -/
def Species_Kill (c : Ctx) (st : State) (sp : Nat) : State :=
  Species_Kill_remove c
    ((st.species sp).IndvHead.foldl (fun s ndv => species_Update_Kills s sp ndv.age) st) sp

/-- Function `rgroup_Extirpate`: every member species of the group is killed and its
`seedling_estab_prob` set to 0; the group is flagged extirpated. -/
def rgroup_Extirpate (c : Ctx) (st : State) (rg : Nat) : State :=
  let st1 := (ForEachGroupSpp (st.group rg)).foldl
    (fun s sp => (Species_Kill c s sp).modSpecies sp
      (fun x => { x with seedling_estab_prob := 0 })) st
  st1.modGroup rg (fun g => { g with extirpated := true })

/-- The loop `ForEachEstSpp(sp, rg, i) body(est_spp[i])` when the body may change the
established list: `i` runs while `i < est_count`, both read from the current state. The
fuel bounds the number of passes (the bodies used here never lengthen the list). -/
def forEachEstSpp_dyn (body : State → Nat → State) (rg : Nat) : Nat → Nat → State → State
  | 0, _, st => st
  | fuel + 1, i, st =>
    if i < (st.group rg).est_count then
      forEachEstSpp_dyn body rg fuel (i + 1) (body st ((st.group rg).est_spp.getD i 0))
    else st

/-- Function `RGroup_Kill`: `ForEachEstSpp(x, rg, i) Species_Kill(est_spp[i])`. -/
def RGroup_Kill (c : Ctx) (st : State) (rg : Nat) : State :=
  forEachEstSpp_dyn (Species_Kill c) rg (st.group rg).est_count 0 st

/-- Function `_kill_annuals`: kill the established species of every annual group. -/
def _kill_annuals (c : Ctx) (st : State) : State :=
  (ForEachGroup st).foldl (fun s rg =>
    if (s.group rg).max_age = 1 then
      forEachEstSpp_dyn (Species_Kill c) rg (s.group rg).est_count 0 s
    else s) st

/-- Function `_kill_extra_growth`: remove the extra growth of the established species of
every group that uses extra resource. -/
def _kill_extra_growth (c : Ctx) (st : State) : State :=
  (ForEachGroup st).foldl (fun s rg =>
    if (s.group rg).use_extra_res = false then s
    else
      forEachEstSpp_dyn (fun s2 sp =>
        if ZRO c.delta (s2.species sp).extragrowth then s2
        else
          (Species_Update_Newsize c s2 sp (-(s2.species sp).extragrowth)).modSpecies sp
            (fun x => { x with extragrowth := 0 })) rg (s.group rg).est_count 0 s) st

/-- Body of `ForEachGroup` in `mort_EndOfYear` in year `currYear`: the kill-frequency rule
sets `killyr`; then the group is extirpated in its extirpation year, or else killed in its
kill year. `(currYear - startyr) % (IntU) killfreq` is computed on unsigned 32-bit
integers. -/
def mort_EndOfYear_group (c : Ctx) (currYear : Nat) (st : State) (rg : Nat) : State :=
  let g := st.group rg
  let st1 : State :=
    if GT c.delta (g.killfreq : ℚ) 0 then
      if LT c.delta (g.killfreq : ℚ) 1 then
        let std : State := { st with draws := st.draws + 1 }
        if c.RandUni st.draws ≤ (g.killfreq : ℚ) then
          std.modGroup rg (fun x => { x with killyr := currYear })
        else std
      else if ((((currYear : Int) - (g.startyr : Int)) % 4294967296).toNat % g.killfreq) = 0 then
        st.modGroup rg (fun x => { x with killyr := currYear })
      else st
    else st
  if currYear = (st1.group rg).extirp then rgroup_Extirpate c st1 rg
  else if currYear = (st1.group rg).killyr then RGroup_Kill c st1 rg
  else st1

/-- Function `mort_EndOfYear` in year `currYear`. -/
def mort_EndOfYear (c : Ctx) (currYear : Nat) (st : State) : State :=
  _kill_annuals c (_kill_extra_growth c
    ((ForEachGroup st).foldl (mort_EndOfYear_group c currYear) st))

/-! ## Establishment (`rgroup_Establish`) -/

/-- The functions of `ST_species.c` (absent) that the perennial branch of
`rgroup_Establish` calls, taken as parameters: `Species_NumEstablish(sp)` (the number of
individuals to establish, kept in the `IntS` variable `num_est`, and the state after its
random draws), `Species_Add_Indiv(sp, n)` and `species_Update_Estabs(sp, n)`. -/
structure EstabOps where
  Species_NumEstablish : State → Nat → Int × State
  Species_Add_Indiv : State → Nat → Int → State
  species_Update_Estabs : State → Nat → Int → State

/-- Body of `ForEachGroupSpp` in the perennial branch of `rgroup_Establish`. -/
def establish_species (ops : EstabOps) (st : State) (sp : Nat) : State :=
  if (st.species sp).use_me = false then st
  else
    let r := ops.Species_NumEstablish st sp
    if r.1 = 0 then r.2
    else ops.species_Update_Estabs (ops.Species_Add_Indiv r.2 sp r.1) sp r.1

/-- Body of the second `ForEachGroup` loop of `rgroup_Establish` in year `currYear`:
before the start year an annual group gets `regen_ok = FALSE` and a perennial group is
skipped; from the start year on, the flag `regen_ok` of an annual group is set and cleared
again by the kill-frequency rule, and the member species of a perennial group
establish. -/
def establish_group (ops : EstabOps) (c : Ctx) (currYear : Nat) (st : State) (rg : Nat) :
    State :=
  let g := st.group rg
  if g.use_me = false then st
  else if currYear < g.startyr then
    if g.max_age = 1 then st.modGroup rg (fun x => { x with regen_ok := false }) else st
  else if g.max_age = 1 then
    let st1 := st.modGroup rg (fun x => { x with regen_ok := true })
    if GT c.delta (g.killfreq : ℚ) 0 then
      if LT c.delta (g.killfreq : ℚ) 1 then
        let std : State := { st1 with draws := st1.draws + 1 }
        if c.RandUni st1.draws ≤ (g.killfreq : ℚ) then
          std.modGroup rg (fun x => { x with regen_ok := false })
        else std
      else if ((((currYear : Int) - (g.startyr : Int)) % 4294967296).toNat % g.killfreq) = 0 then
        st1.modGroup rg (fun x => { x with regen_ok := false })
      else st1
    else st1
  else (ForEachGroupSpp g).foldl (establish_species ops) st

/-- Function `rgroup_Establish` in year `currYear` with `disturbed = Plot.disturbed`: first
every annual group gets `regen_ok = (Plot.disturbed > 0) ? FALSE : TRUE`, then, unless the
plot is disturbed, the groups are visited. -/
def rgroup_Establish (ops : EstabOps) (c : Ctx) (disturbed currYear : Nat) (st : State) :
    State :=
  let st1 := (ForEachGroup st).foldl (fun s rg =>
    if (s.group rg).max_age = 1 then
      s.modGroup rg (fun x => { x with regen_ok := decide (¬ 0 < disturbed) })
    else s) st
  if 0 < disturbed then st1
  else (ForEachGroup st1).foldl (establish_group ops c currYear) st1

/-! ## Plot reset (`Plot_Initialize`) -/

/-- The call `Mem_Set(kills, 0, sizeof(IntUS) * max_age)`: the first `max_age` entries of
a kill histogram become 0 (an empty list stands for the null pointer). -/
def clear_kills (max_age : Nat) (kills : List Nat) : List Nat :=
  (kills.take max_age).map (fun _ => 0) ++ kills.drop max_age

/-- Body of `ForEachSpecies` in `Plot_Initialize`. -/
def plotInit_species (c : Ctx) (st : State) (sp : Nat) : State :=
  if (st.species sp).use_me = false then st
  else
    let st1 : State :=
      if (st.group (st.species sp).res_grp).extirpated then
        st.modSpecies sp (fun s => { s with seedling_estab_prob := s.seedling_estab_prob_old })
      else st
    let st2 := st1.modSpecies sp (fun s => { s with kills := clear_kills s.max_age s.kills })
    let st3 := Species_Kill c st2 sp
    let st4 : State :=
      if ZRO c.delta (st3.species sp).relsize then st3
      else st3.modSpecies sp (fun s => { s with relsize := 0 })
    if (st4.species sp).est_count = 0 then st4
    else st4.modSpecies sp (fun s => { s with est_count := 0 })

/-- Body of `ForEachGroup` in `Plot_Initialize`. -/
def plotInit_group (st : State) (rg : Nat) : State :=
  if (st.group rg).use_me = false then st
  else
    st.modGroup rg (fun g =>
      { g with kills := clear_kills g.max_age g.kills, est_count := 0, yrs_neg_pr := 0,
               extirpated := false })

/-- Function `Plot_Initialize`. The call `SXW_InitPlot()` under `UseSoilwat` acts on the
soil-water collaborator, which is not part of `State`. -/
def Plot_Initialize (c : Ctx) (st : State) : State :=
  let st1 := (List.range st.Species.length).foldl (plotInit_species c) st
  (ForEachGroup st1).foldl plotInit_group st1

/-! ## Stretched clonal plants (`_stretched_clonal`) -/

/-- What `_stretched_clonal` does to the plants: the individuals handed to
`indiv_Kill_Complete`, the calls `indiv_Kill_Partial(NoResources, ndv, amount)`, the number
of random draws made so far, and whether it set `_SomeKillage`. -/
structure ClonalResult where
  kills : List (IndivRef × IndivType)
  reduced : List ((IndivRef × IndivType) × ℚ)
  draws : Nat
  someKillage : Bool

/-- Function `_stretched_clonal(rg, start, last, nlist)` on `rest = nlist[start .. last]`.
Modelled from the spec: `LogError` with `LOGFATAL` (absent) aborts the run with a
diagnostic; this is the `error` result. The C test `total_reduction > 1.0` on
`1.0 / pr` also holds for `pr = 0` (the quotient is `+inf`). -/
def _stretched_clonal (c : Ctx) (s : State) (rg : Nat) (rest : List (IndivRef × IndivType)) :
    Except String ClonalResult :=
  let clist := rest.filter (fun p => (s.species p.2.myspecies).isclonal)
  if clist.length = 0 then
    Except.ok { kills := [], reduced := [], draws := s.draws, someKillage := false }
  else
    let y := (s.group rg).yrs_neg_pr
    if (s.group rg).max_stretch ≤ y then
      let pm : ℚ := 4 / 100 * (y : ℚ) * (y : ℚ)
      if c.RandUni s.draws ≤ pm then
        let nk : Int := min ⌊(clist.length : ℚ) * (9 / 10)⌋ (clist.length : Int)
        Except.ok { kills := clist.take nk.toNat, reduced := [], draws := s.draws + 1,
                    someKillage := decide (0 ≤ nk) }
      else
        let pr := (s.group rg).pr
        if pr = 0 ∨ 1 < 1 / pr then Except.error "PR too large in Mort_StretchClonal()"
        else
          let total_size := (clist.map (fun p => p.2.relsize)).sum
          let total_reduction := 1 / pr * (8 / 10)
          Except.ok
            { kills := []
              reduced := clist.map (fun p => (p, p.2.relsize / total_size * total_reduction))
              draws := s.draws + 1
              someKillage := true }
    else Except.ok { kills := [], reduced := [], draws := s.draws, someKillage := false }

/-- Resource-stress mortality of group `rg` as `mort_Main` runs it: the counter is
updated, and when `_no_resources(rg)` is called the result is that of `_stretched_clonal`
on the individuals that the quota loop left. `none` means `_no_resources` is not called. -/
def mort_Main_stress (c : Ctx) (s : State) (rg : Nat) : Option (Except String ClonalResult) :=
  let r := mort_Main_group c.delta (s.group rg)
  let s1 := s.modGroup rg (fun _ => r.1)
  if r.2 then some (_stretched_clonal c s1 rg (_no_resources s1 rg).2) else none


/-! ## Relations used in the proofs about `Plot_Initialize` -/

/-- The record `b` of a species is the record `a` except for the content of its
individuals: the number of individuals and every other field agree. This is what
assignments through pointers to individuals can change. -/
def sameButIndivs (a b : SpeciesType) : Prop :=
  b.IndvHead.length = a.IndvHead.length ∧ { b with IndvHead := [] } = { a with IndvHead := [] }

/-- The record `b` of a group is the record `a` except for the relative size and the
established species: every other field agrees. -/
def sameButEst (a b : GroupType) : Prop :=
  { b with relsize := 0, est_spp := [], est_count := 0 }
    = { a with relsize := 0, est_spp := [], est_count := 0 }

/-- The record `b` of a group is the record `a` except for the relative size, the
established species and the counts in the kill histogram (which keeps its length). -/
def sameButEstKills (a b : GroupType) : Prop :=
  { b with relsize := 0, est_spp := [], est_count := 0, kills := b.kills.map (fun _ => 0) }
    = { a with relsize := 0, est_spp := [], est_count := 0, kills := a.kills.map (fun _ => 0) }

/-- Invariant of the species loop of `Plot_Initialize` started in `st`, before species `k`
is visited: the arrays keep their lengths, the static fields of the species are those of
`st`, the groups differ from those of `st` at most in relative size, established species
and the counts in the kill histogram, and every species in use visited so far has no
individuals, no established count and size 0. -/
def plotInv (st : State) (k : Nat) (s : State) : Prop :=
  s.Species.length = st.Species.length ∧ s.RGroup.length = st.RGroup.length ∧
  (∀ j, (s.species j).use_me = (st.species j).use_me ∧
    (s.species j).res_grp = (st.species j).res_grp ∧
    (s.species j).max_age = (st.species j).max_age) ∧
  (∀ G, sameButEstKills (st.group G) (s.group G)) ∧
  (∀ j, j < k → j < st.Species.length → (st.species j).use_me = true →
    (s.species j).IndvHead = [] ∧ (s.species j).est_count = 0 ∧ (s.species j).relsize = 0)

/-- Second invariant of the species loop of `Plot_Initialize`: the established species of
every group are species in use that belong to the group, and a group one of whose
species in use has been visited has relative size 0 as soon as all its established
species have size 0. -/
def plotInvEst (st : State) (k : Nat) (s : State) : Prop :=
  (∀ G, G < st.RGroup.length → ∀ e ∈ ForEachEstSpp (s.group G),
    e < st.Species.length ∧ (st.species e).use_me = true ∧ (st.species e).res_grp = G) ∧
  (∀ G, G < st.RGroup.length →
    (∃ j, j < k ∧ j < st.Species.length ∧ (st.species j).use_me = true ∧
      (st.species j).res_grp = G) →
    (∀ e ∈ ForEachEstSpp (s.group G), (s.species e).relsize = 0) → (s.group G).relsize = 0)

/-- The assignments of the body of `ForEachGroup` in `Plot_Initialize` on the record of one
group (`plotInit_group` stores this through `RGroup[rg]`). -/
def resetGroup (g : GroupType) : GroupType :=
  if g.use_me = false then g
  else
    { g with kills := clear_kills g.max_age g.kills, est_count := 0, yrs_neg_pr := 0,
             extirpated := false }

/-! ## Disturbance mortality (`_pat`, `_mound`, `_burrow`) -/

/-- What a disturbance routine does to species `sp`: whether it called `Species_Kill(sp)`,
the individuals it handed to `indiv_Kill_Complete` (in that order), and whether it set
`_SomeKillage`. -/
structure DisturbResult where
  speciesKill : Bool
  kills : List IndivType
  someKillage : Bool

/-- Function `_pat` with `pat_removed = Plot.pat_removed`: when the pat was removed, the
individuals of age 1 and, for a very sensitive species, all individuals are put on the
kill list (`_SomeKillage` when the list is not empty, `k >= 0`); otherwise a very
sensitive or sensitive species is killed. -/
def _pat (pat_removed : Bool) (st : State) (sp : Nat) : DisturbResult :=
  if pat_removed then
    let kills := (st.species sp).IndvHead.filter (fun p =>
      decide (p.age = 1) || decide ((st.species sp).disturbclass = DisturbClass.VerySensitive))
    { speciesKill := false, kills := kills, someKillage := decide (0 < kills.length) }
  else
    match (st.species sp).disturbclass with
    | DisturbClass.VerySensitive => { speciesKill := true, kills := [], someKillage := true }
    | DisturbClass.Sensitive => { speciesKill := true, kills := [], someKillage := true }
    | DisturbClass.Insensitive => { speciesKill := false, kills := [], someKillage := false }
    | DisturbClass.VeryInsensitive => { speciesKill := false, kills := [], someKillage := false }

/-- Function `_mound`: every species but a very insensitive one is killed. -/
def _mound (st : State) (sp : Nat) : DisturbResult :=
  match (st.species sp).disturbclass with
  | DisturbClass.VerySensitive => { speciesKill := true, kills := [], someKillage := true }
  | DisturbClass.Sensitive => { speciesKill := true, kills := [], someKillage := true }
  | DisturbClass.Insensitive => { speciesKill := true, kills := [], someKillage := true }
  | DisturbClass.VeryInsensitive => { speciesKill := false, kills := [], someKillage := false }

/-- Function `_burrow`: the species is killed, whatever its class. -/
def _burrow (st : State) (sp : Nat) : DisturbResult :=
  match (st.species sp).disturbclass with
  | DisturbClass.VerySensitive => { speciesKill := true, kills := [], someKillage := true }
  | DisturbClass.Sensitive => { speciesKill := true, kills := [], someKillage := true }
  | DisturbClass.Insensitive => { speciesKill := true, kills := [], someKillage := true }
  | DisturbClass.VeryInsensitive => { speciesKill := true, kills := [], someKillage := true }

/-- Modelled from the spec: the order of the sensitivity classes (the enumeration is
declared in `ST_defines.h`, absent): very sensitive, sensitive, insensitive, very
insensitive; a smaller rank is a more sensitive class. -/
def sensitivityRank : DisturbClass → Nat
  | DisturbClass.VerySensitive => 0
  | DisturbClass.Sensitive => 1
  | DisturbClass.Insensitive => 2
  | DisturbClass.VeryInsensitive => 3

/-! ## Slow-growth mortality (`_slow_growth`) -/

/-- Body of `ForEachIndiv` in `_slow_growth` for one individual, with
`slowrate = RGroup[res_grp]->slowrate * max_rate`, when `n` random draws have been made:
the updated individual, whether it was put on the kill list, and the new number of
draws. `RandUni` is drawn only when `slow_yrs >= max_slow` holds (C's short-circuit `&&`);
`pm = 0.368`; `max(slow_yrs - 1, 0)` is computed on `int`. -/
def slow_growth_indiv (c : Ctx) (slowrate : ℚ) (max_slow : Nat) (ndv : IndivType) (n : Nat) :
    IndivType × Bool × Nat :=
  if ndv.age = 1 then (ndv, false, n)
  else if ndv.growthrate ≤ slowrate then
    let ndv1 : IndivType := { ndv with slow_yrs := incrIntUS ndv.slow_yrs }
    if max_slow ≤ ndv1.slow_yrs then
      (ndv1, decide (c.RandUni n ≤ 368 / 1000), n + 1)
    else (ndv1, false, n)
  else ({ ndv with slow_yrs := (max ((ndv.slow_yrs : Int) - 1) 0).toNat }, false, n)

/-- What `_slow_growth` does to a species: its individuals with their updated counters,
the individuals handed to `indiv_Kill_Complete` (in that order), the number of random
draws made so far, and whether it set `_SomeKillage`. -/
structure SlowResult where
  indivs : List IndivType
  kills : List IndivType
  draws : Nat
  someKillage : Bool

/-- The loop `ForEachIndiv` of `_slow_growth` over the individuals `l`. -/
def slow_growth_loop (c : Ctx) (slowrate : ℚ) (max_slow : Nat) :
    List IndivType → Nat → List IndivType × List IndivType × Nat
  | [], n => ([], [], n)
  | ndv :: rest, n =>
    let r := slow_growth_indiv c slowrate max_slow ndv n
    let r2 := slow_growth_loop c slowrate max_slow rest r.2.2
    (r.1 :: r2.1, (if r.2.1 then r.1 :: r2.2.1 else r2.2.1), r2.2.2)

/-- Function `_slow_growth(sp)`; `_SomeKillage` is set when the kill list is not empty
(`k >= 0`). -/
def _slow_growth (c : Ctx) (st : State) (sp : Nat) : SlowResult :=
  let s := st.species sp
  let slowrate := (st.group s.res_grp).slowrate * s.max_rate
  let r := slow_growth_loop c slowrate s.max_slow s.IndvHead st.draws
  { indivs := r.1, kills := r.2.1, draws := r.2.2, someKillage := decide (0 < r.2.1.length) }

/-! ## Ageing (`rgroup_IncrAges`) -/

/-- Body of `ForEachEstSpp` in `rgroup_IncrAges` for species `sp`: `ndv->age++` (an
`IntUS`) for every individual; an individual whose new age exceeds the `max_age` of
`Species[ndv->myspecies]` is reported by `LogError(logfp, LOGWARN, ...)`, recorded here as
(species, age, max_age). The accumulator is the state and the warnings so far. -/
def incrAges_species (acc : State × List (Nat × Nat × Nat)) (sp : Nat) :
    State × List (Nat × Nat × Nat) :=
  let st := acc.1
  let aged := (st.species sp).IndvHead.map (fun x => { x with age := incrIntUS x.age })
  let warns := (aged.filter (fun x => decide ((st.species x.myspecies).max_age < x.age))).map
    (fun x => (x.myspecies, x.age, (st.species x.myspecies).max_age))
  (st.modSpecies sp (fun s => { s with IndvHead := aged }), acc.2 ++ warns)

/-- Function `rgroup_IncrAges`: the state after the call and the warnings it logged. -/
def rgroup_IncrAges (st : State) : State × List (Nat × Nat × Nat) :=
  (ForEachGroup st).foldl (fun acc rg =>
    if (acc.1.group rg).max_age = 1 then acc
    else (ForEachEstSpp (acc.1.group rg)).foldl incrAges_species acc) (st, [])

/-- The species indices `rgroup_IncrAges` visits, in order: the established species of the
perennial groups. -/
def incrAges_visits (st : State) : List Nat :=
  (ForEachGroup st).flatMap (fun rg =>
    if (st.group rg).max_age = 1 then [] else ForEachEstSpp (st.group rg))

/-- The record of a species after `k` increments of the age of each of its individuals. -/
def agedBy (k : Nat) (s : SpeciesType) : SpeciesType :=
  { s with IndvHead := s.IndvHead.map (fun x => { x with age := incrIntUS^[k] x.age }) }

/-! ## Accounting of `_res_part_extra` -/

/-- Whether `_res_part_extra` hands resource to group `g`: its relative size is not
(within tolerance) zero and, in the pass above 1.0 (`isextra`), it uses extra resource. -/
def receivesExtra (d : ℚ) (isextra : Bool) (g : GroupType) : Bool :=
  decide (¬ ZRO d g.relsize) && !(isextra && !g.use_extra_res)

/-- The amount `_res_part_extra` handed to a group, read off the records before (`g`) and
after (`g2`) the call: the `res_extra` assigned or the increase of `res_avail`; 0 for a
group that receives nothing. -/
def handedOut (d : ℚ) (isextra : Bool) (g g2 : GroupType) : ℚ :=
  if receivesExtra d isextra g = true then
    if isextra = true ∧ g.use_extra_res = true ∧ GT d g.xgrow 0 then g2.res_extra
    else g2.res_avail - g.res_avail
  else 0

/-- Loop `ForEachIndiv` of `rgroup_Grow` over the individuals of species `s`, started with
the sum `sppgrowth` and `n` random draws made: the grown individuals, the final
`sppgrowth` and the number of draws. -/
def grow_indivs (c : Ctx) (s : SpeciesType) (tgmod : ℚ) :
    List IndivType → ℚ → Nat → List IndivType × ℚ × Nat
  | [], sppgrowth, n => ([], sppgrowth, n)
  | ndv :: t, sppgrowth, n =>
    let r := grow_indiv c s tgmod ndv n
    let rest := grow_indivs c s tgmod t (sppgrowth + r.2.1) r.2.2
    (r.1 :: rest.1, rest.2.1, rest.2.2)

/-- Body of `ForEachEstSpp` in `rgroup_Grow`. The accumulator carries the state and the
local variable `tgmod`, which is assigned only for a species with a temperature class
(`if (s->tempclass != NoSeason) tgmod = Env.temp_reduction[s->tempclass];`) and otherwise
keeps the value it had. -/
def grow_species (c : Ctx) (acc : State × ℚ) (sp : Nat) : State × ℚ :=
  let s := acc.1.species sp
  let tgmod :=
    if s.tempclass ≠ TempClass.NoSeason then acc.1.Env.temp_reduction s.tempclass else acc.2
  let r := grow_indivs c s tgmod s.IndvHead 0 acc.1.draws
  let st1 : State :=
    { acc.1.modSpecies sp (fun x => { x with IndvHead := r.1 }) with draws := r.2.2 }
  (Species_Update_Newsize c st1 sp r.2.1, tgmod)

/-- Body of `ForEachEstSpp` in `_extra_growth(rg)`: every individual adds
`res_extra * min_res_req * Env.ppt * xgrow / mature_biomass` to the species' accumulator
`extragrowth`, then `Species_Update_Newsize(s->sp_num, s->extragrowth)` is called. -/
def extra_growth_species (c : Ctx) (rg : Nat) (st : State) (sp : Nat) : State :=
  let g := st.group rg
  let s := st.species sp
  let indivpergram := 1 / s.mature_biomass
  let xg := s.IndvHead.foldl (fun acc ndv =>
    acc + ndv.res_extra * g.min_res_req * (st.Env.ppt : ℚ) * g.xgrow * indivpergram)
    s.extragrowth
  let st1 := st.modSpecies sp (fun x => { x with extragrowth := xg })
  Species_Update_Newsize c st1 (st1.species sp).sp_num (st1.species sp).extragrowth

/-- Function `_extra_growth`: nothing for an annual group, a group with `xgrow` zero or a
group that does not use extra resource; otherwise the loop over the established
species. -/
def _extra_growth (c : Ctx) (st : State) (rg : Nat) : State :=
  if (st.group rg).max_age = 1 then st
  else if ZRO c.delta (st.group rg).xgrow then st
  else if (st.group rg).use_extra_res = false then st
  else (ForEachEstSpp (st.group rg)).foldl (extra_growth_species c rg) st

/-- Body of `ForEachGroup` in `rgroup_Grow`: annual groups, groups without established
species and succulents in a wet year are skipped; otherwise the established species grow
and `_extra_growth(rg)` is called. -/
def grow_group (c : Ctx) (acc : State × ℚ) (rg : Nat) : State × ℚ :=
  let g := acc.1.group rg
  if g.max_age = 1 then acc
  else if g.est_count = 0 then acc
  else if g.succulent = true ∧ acc.1.Env.wet_dry = PPTClass.Ppt_Wet then acc
  else
    let r := (ForEachEstSpp g).foldl (grow_species c) acc
    (_extra_growth c r.1 rg, r.2)

/-- Function `rgroup_Grow`. `tgmod0` is the value the uninitialised local `tgmod` holds
before its first assignment. -/
def rgroup_Grow (c : Ctx) (tgmod0 : ℚ) (st : State) : State :=
  ((ForEachGroup st).foldl (grow_group c) (st, tgmod0)).1

/-- Whether the body of `rgroup_Grow` for a group `g` reaches the loop of
`_extra_growth`. -/
def getsExtraGrowth (d : ℚ) (wet_dry : PPTClass) (g : GroupType) : Prop :=
  g.max_age ≠ 1 ∧ g.est_count ≠ 0 ∧ ¬ (g.succulent = true ∧ wet_dry = PPTClass.Ppt_Wet) ∧
    ¬ ZRO d g.xgrow ∧ g.use_extra_res = true

instance (d : ℚ) (w : PPTClass) (g : GroupType) : Decidable (getsExtraGrowth d w g) := by
  unfold getsExtraGrowth; infer_instance

/-- Sum of the relative sizes of the individuals of a species. -/
def indivSum (s : SpeciesType) : ℚ := (s.IndvHead.map (fun ndv => ndv.relsize)).sum

/-- Frame of the growth loop, from a state `st` to a later state `s`: the arrays keep their
lengths, the environment is the same, the groups differ at most in relative size, and the
species keep their index number and their group. -/
def growFrame (st s : State) : Prop :=
  s.Species.length = st.Species.length ∧ s.RGroup.length = st.RGroup.length ∧
  s.Env = st.Env ∧
  (∀ G, sameButEst (st.group G) (s.group G) ∧ (s.group G).est_spp = (st.group G).est_spp ∧
    (s.group G).est_count = (st.group G).est_count) ∧
  (∀ j, (s.species j).sp_num = (st.species j).sp_num ∧
    (s.species j).res_grp = (st.species j).res_grp)

/-- A step from `st` to `s` within the frame of the growth loop that changes neither the
difference between a species' size and the sum of its individuals' sizes nor a species'
`extragrowth`. -/
def quietStep (st s : State) : Prop :=
  growFrame st s ∧
  ∀ j, (s.species j).relsize - indivSum (s.species j)
        = (st.species j).relsize - indivSum (st.species j) ∧
      (s.species j).extragrowth = (st.species j).extragrowth

/-- Invariant of `rgroup_Grow` started in `st`, where `V` holds of the species that
`_extra_growth` may have visited so far: within the frame of the loop, a species' size
minus the sum of its individuals' sizes has grown by the species' `extragrowth`, and only
visited species of a group that gets extra growth have a non-zero `extragrowth`. -/
def growInv (d : ℚ) (st : State) (V : Nat → Prop) (s : State) : Prop :=
  growFrame st s ∧
  ∀ j, (s.species j).relsize - indivSum (s.species j)
        = (st.species j).relsize - indivSum (st.species j) + (s.species j).extragrowth ∧
      ((s.species j).extragrowth ≠ 0 →
        V j ∧ getsExtraGrowth d st.Env.wet_dry (st.group (st.species j).res_grp))

/-- The individual a pointer refers to. -/
def State.indivAt (s : State) (r : IndivRef) : IndivType :=
  (s.species r.sp).IndvHead.getD r.pos default

/-- The individuals of group `rg` in the state that `rgroup_ResPartIndiv` returns, read
through the pointers of the array `RGroup_GetIndivs(rg, SORT_D, ..)`, in the order of that
array (largest first). -/
def resPartIndiv_result (c : Ctx) (s : State) (rg : Nat) : List IndivType :=
  (RGroup_GetIndivs s rg SortKind.SORT_D).map
    (fun p => (rgroup_ResPartIndiv c s).indivAt p.1)

/-- Body of `ForEachGroup` in `rgroup_ResPartIndiv` (the function is the loop of this body
over all groups). -/
def resPartIndiv_body (c : Ctx) (st : State) (rg : Nat) : State :=
  let g := st.group rg
  if g.max_age = 1 then st
  else if g.est_count = 0 then st
  else
    let refs := (RGroup_GetIndivs st rg SortKind.SORT_D).map Prod.fst
    (refs.zip (resPartIndiv_array c st rg)).foldl (fun st2 p => st2.setIndiv p.1 p.2) st

/-! ## Projections used in the frame lemmas -/

/-- The resource fields of a group: required, available, extra and PR. -/
def resFields (g : GroupType) : ℚ × ℚ × ℚ × ℚ :=
  (g.res_required, g.res_avail, g.res_extra, g.pr)

/-- The assignment `g->pr = ZRO(g->res_avail) ? 0. : g->res_required / g->res_avail`
seen on the resource fields. -/
def setPR (d : ℚ) (t : ℚ × ℚ × ℚ × ℚ) : ℚ × ℚ × ℚ × ℚ :=
  (t.1, t.2.1, t.2.2.1, if ZRO d t.2.1 then 0 else t.1 / t.2.1)

/-! ## Concrete data used to evaluate the definitions -/

/-- A context with tolerance one millionth, the polynomial `1 + x + x^2/2` standing
in for `exp`, integer powers standing in for `pow`, and constant random streams. -/
def exCtx : Ctx :=
  { delta := 1 / 1000000
    exp := fun x => 1 + x + x ^ 2 / 2
    pow := fun b e => b ^ (⌊e⌋).toNat
    RandUni := fun _ => 1 / 2
    RandUniRange := fun _ lo _ => lo
    SXW_GetResource := fun _ => (1, 1) }

/-- A living half-grown individual whose resources are ample (`pr = 1/2`). -/
def exIndiv : IndivType :=
  { age := 2, slow_yrs := 0, myspecies := 0, killed := false, relsize := 1 / 2,
    grp_res_prop := 1, res_required := 1 / 2, res_avail := 1, res_extra := 0,
    pr := 1 / 2, growthrate := 0, prob_veggrow := 0 }

/-- A non-clonal perennial species with intrinsic rate 1 holding `exIndiv`. -/
def exSpecies : SpeciesType :=
  { est_count := 1, kills := [0, 0, 0, 0, 0], estabs := 1, relsize := 1 / 2, seedprod := [],
    extragrowth := 0,
    IndvHead := [exIndiv], max_age := 5, viable_yrs := 0, max_seed_estab := 0,
    max_vegunits := 0, max_slow := 2, sp_num := 0, res_grp := 0, max_rate := 1,
    intrin_rate := 1, relseedlingsize := 1 / 100, mature_biomass := 1,
    seedling_estab_prob_old := 1 / 2, seedling_estab_prob := 1 / 2, cohort_surv := 1 / 2,
    exp_decay := 1, tempclass := TempClass.WarmSeason,
    disturbclass := DisturbClass.Insensitive, isclonal := false, use_me := true }

/-- The individual `exIndiv` in a scarce year (`pr = 3`). -/
def exIndivScarce : IndivType := { exIndiv with pr := 3, res_avail := 1 / 6 }

/-- A perennial group of one species in a scarce year (`pr = 2`), in its third
consecutive stretched year. -/
def exGroup : GroupType :=
  { kills := [0, 0, 0, 0, 0], estabs := 2, killyr := 0, yrs_neg_pr := 3, res_required := 1,
    res_avail := 1 / 2,
    res_extra := 0, pr := 2, relsize := 1, est_count := 1, est_spp := [0],
    extirpated := false, regen_ok := false, max_stretch := 2, max_spp := 1, max_age := 5,
    startyr := 0, killfreq := 0, extirp := 0, species := [0], min_res_req := 1,
    max_density := 1, xgrow := 0, slowrate := 1 / 10,
    ppt_slope := fun _ => 1 / 400, ppt_intcpt := fun _ => 0,
    succulent := false, use_extra_res := false, use_me := true, use_mort := true }

/-- A small individual (relative size 1/4). -/
def exSmall : IndivType := { exIndiv with relsize := 1 / 4, grp_res_prop := 1 / 4 }

/-- A large individual (relative size 3/4). -/
def exBig : IndivType := { exIndiv with relsize := 3 / 4, grp_res_prop := 3 / 4 }

/-- A plot with the group `exGroup`, whose species holds `exSmall` and `exBig`. -/
def exState : State :=
  { RGroup := [exGroup]
    Species := [{ exSpecies with est_count := 2, relsize := 1, IndvHead := [exSmall, exBig] }]
    Env := { wet_dry := PPTClass.Ppt_Norm, ppt := 200, temp_reduction := fun _ => 1 }
    UseSoilwat := false
    draws := 0 }

/-- A plot with one perennial group of relative size 1/2 (one individual, `exIndiv`) in a
year of average precipitation (resource index 1). -/
def exHalf : State :=
  { RGroup := [{ exGroup with relsize := 1 / 2, pr := 0, res_required := 0, res_avail := 0 }]
    Species := [exSpecies]
    Env := { wet_dry := PPTClass.Ppt_Norm, ppt := 400, temp_reduction := fun _ => 1 }
    UseSoilwat := false
    draws := 0 }

/-- The plot `exState` with a second perennial group that has no plants. -/
def exTwo : State :=
  { exState with
    RGroup := [exGroup, { exGroup with relsize := 0, est_count := 0, est_spp := [],
                                       species := [1], pr := 7 }]
    Species := exState.Species ++
      [{ exSpecies with est_count := 0, relsize := 0, IndvHead := [], res_grp := 1 }] }

/-- The context `exCtx` with a random stream that always draws 0. -/
def exCtxZero : Ctx := { exCtx with RandUni := fun _ => 0 }

/-- A clonal variant of `exState`: the species is clonal, the group is in its third
stretched year with `max_stretch = 2` and PR 2. -/
def exClonal : State :=
  { exState with
    Species := [{ exSpecies with est_count := 2, relsize := 1, isclonal := true,
                                 IndvHead := [exSmall, exBig] }] }

/-- An annual species with a seed bank of two years (`seedprod = [5, 3]`), at most 10
seedlings a year, which never receives propagules from outside. -/
def exAnnualSpecies : SpeciesType :=
  { exSpecies with est_count := 0, relsize := 0, IndvHead := [], max_age := 1, viable_yrs := 2,
                   seedprod := [5, 3], max_seed_estab := 10, seedling_estab_prob := 0,
                   seedling_estab_prob_old := 0, kills := [0] }

/-- An annual group holding `exAnnualSpecies`, allowed to regenerate. -/
def exAnnualGroup : GroupType :=
  { exGroup with max_age := 1, relsize := 0, est_count := 0, est_spp := [], regen_ok := true,
                 pr := 0, res_required := 0, res_avail := 0, yrs_neg_pr := 0, kills := [0] }

/-- A plot with the annual group `exAnnualGroup` in a year of average precipitation. -/
def exAnnual : State :=
  { RGroup := [exAnnualGroup]
    Species := [exAnnualSpecies]
    Env := { wet_dry := PPTClass.Ppt_Norm, ppt := 400, temp_reduction := fun _ => 1 }
    UseSoilwat := false
    draws := 0 }

/-- The context `exCtx` with `1 / (1 - x + x^2/2)` standing in for `exp` (positive
everywhere, 1 at 0, small for very negative arguments). -/
def exCtxDecay : Ctx := { exCtx with exp := fun x => 1 / (1 - x + x ^ 2 / 2) }

/-- The plot `exAnnual` in a very dry year (4 mm, resource index 1/100). -/
def exAnnualDry : State :=
  { exAnnual with Env := { wet_dry := PPTClass.Ppt_Dry, ppt := 4, temp_reduction := fun _ => 1 } }

/-- The plot `exState` in a year without precipitation (resource index 0). -/
def exDrought : State :=
  { exState with Env := { wet_dry := PPTClass.Ppt_Dry, ppt := 0, temp_reduction := fun _ => 1 } }

/-- The plot `exState` after an ample partition: the group requires 1 and has 2
(`pr = 1/2`). -/
def exAmple : State :=
  { exState with RGroup := [{ exGroup with res_avail := 2, pr := 1 / 2 }] }

/-- A plot whose only group has lost all its plants (relative size 0, nothing
established) and still carries the resource fields of the year before. -/
def exBare : State :=
  { exState with
    RGroup := [{ exGroup with relsize := 0, est_count := 0, est_spp := [] }]
    Species := [{ exSpecies with est_count := 0, relsize := 0, IndvHead := [] }] }

/-- The plot `exAnnual` whose group is to be extirpated in year 3. -/
def exAnnualExtirp : State :=
  { exAnnual with
    RGroup := [{ exAnnualGroup with extirp := 3 }]
    Species := [{ exAnnualSpecies with seedling_estab_prob := 1 / 4,
                                       seedling_estab_prob_old := 1 / 4 }] }

/-- Stand-ins for the establishment functions of `ST_species.c`: every species in use
establishes one seedling of age 1 (one random draw). -/
def exOps : EstabOps :=
  { Species_NumEstablish := fun s _ => (1, { s with draws := s.draws + 1 })
    Species_Add_Indiv := fun s sp n => s.modSpecies sp (fun x =>
      { x with IndvHead := (x.IndvHead ++ List.replicate n.toNat
                 { exIndiv with age := 1, myspecies := sp, relsize := x.relseedlingsize })
               est_count := x.est_count + n.toNat })
    species_Update_Estabs := fun s sp n =>
      s.modSpecies sp (fun x => { x with estabs := x.estabs + n.toNat }) }

/-- Year 3 of `exAnnualExtirp` after `rgroup_Establish` and `rgroup_PartResources`: the
annual species is established. -/
def exYear3 : State := rgroup_PartResources exCtx (rgroup_Establish exOps exCtx 0 3 exAnnualExtirp)

/-- The end of year 3: `mort_EndOfYear` extirpates the group. -/
def exYear3End : State := mort_EndOfYear exCtx 3 exYear3

/-- Year 4 after `rgroup_Establish` and `rgroup_PartResources`. -/
def exYear4 : State := rgroup_PartResources exCtx (rgroup_Establish exOps exCtx 0 4 exYear3End)

/-- The plot `exState` as a year may leave it: the group has a kill year and extra
resource; the species has a seed history, extra growth and a kill histogram. -/
def exDirty : State :=
  { exState with
    RGroup := [{ exGroup with kills := [1, 2, 0, 0, 4], killyr := 7,
                              res_extra := 1 / 3, extirpated := true }]
    Species := [{ exSpecies with est_count := 2, relsize := 1, IndvHead := [exSmall, exBig],
                                 kills := [3, 0, 0, 1, 0], seedprod := [5, 3],
                                 extragrowth := 1 / 5, seedling_estab_prob := 0 }] }

/-- A plot with two small clonal plants (sizes 1/10 and 1/5) in a group with PR 6/5 that is
about to reach its first stretched year. -/
def exClonalSmall : State :=
  { exState with
    RGroup := [{ exGroup with pr := 6 / 5, yrs_neg_pr := 0, max_stretch := 1, relsize := 3 / 10,
                              res_required := 3 / 10, res_avail := 1 / 4 }]
    Species := [{ exSpecies with est_count := 2, relsize := 3 / 10, isclonal := true,
                                 IndvHead := [{ exIndiv with relsize := 1 / 10, grp_res_prop := 1 / 3 },
                                              { exIndiv with relsize := 1 / 5, grp_res_prop := 2 / 3 }] }] }

/-- The plot `exAnnual` with seed history `[7, 3]` and an establishment probability of 1/2,
which the constant draw 1/2 of `exCtx` meets: the first pass of `_add_annuals` forces the
addition of propagules. -/
def exAnnualForced : State :=
  { exAnnual with
    Species := [{ exAnnualSpecies with seedprod := [7, 3], seedling_estab_prob := 1 / 2,
                                       seedling_estab_prob_old := 1 / 2 }] }

/-- The plot `exState` with a group that uses extra resource, in a year of average
precipitation (400 mm, resource index 1). -/
def exExtraAmple : State :=
  { exState with
    RGroup := [{ exGroup with use_extra_res := true }]
    Env := { wet_dry := PPTClass.Ppt_Norm, ppt := 400, temp_reduction := fun _ => 1 } }

/-- The plot `exState` (200 mm, resource index 1/2) with a group that uses extra
resource. -/
def exExtraScarce : State :=
  { exState with RGroup := [{ exGroup with use_extra_res := true }] }

/-- A plot whose species (`max_slow = 2`) holds one individual of age 2 that has grown
slowly for one year and does not grow this year either. -/
def exSlow : State :=
  { exState with
    Species := [{ exSpecies with IndvHead := [{ exIndiv with slow_yrs := 1, growthrate := 0 }] }] }

/-- A plot whose species (`max_age = 5`) holds one individual of age 5. -/
def exOld : State :=
  { exState with Species := [{ exSpecies with IndvHead := [{ exIndiv with age := 5 }] }] }

/-- A plot in a year of average precipitation with a perennial group of relative size 1/2
and an annual group whose seed bank `[1/500000, 0]` gives it, in the first loop of
`rgroup_PartResources`, a relative size of 19/20000000, within the tolerance of zero. -/
def exTiny : State :=
  { RGroup := [{ exGroup with relsize := 1 / 2, pr := 0, res_required := 0, res_avail := 0 },
               { exAnnualGroup with species := [1] }]
    Species := [exSpecies,
                { exAnnualSpecies with res_grp := 1, seedprod := [1 / 500000, 0] }]
    Env := { wet_dry := PPTClass.Ppt_Norm, ppt := 400, temp_reduction := fun _ => 1 }
    UseSoilwat := false
    draws := 0 }

/-- The plot `exState` in a year of 400 mm: the group uses extra resource with
`xgrow = 1/1000` and the small individual holds extra resource 1/10. The species' size 1
is the sum of the sizes 1/4 and 3/4 of its individuals and its `extragrowth` is 0. -/
def exGrow : State :=
  { exState with
    RGroup := [{ exGroup with use_extra_res := true, xgrow := 1 / 1000 }]
    Species := [{ exSpecies with est_count := 2, relsize := 1,
                                 IndvHead := [{ exSmall with res_extra := 1 / 10 }, exBig] }]
    Env := { wet_dry := PPTClass.Ppt_Norm, ppt := 400, temp_reduction := fun _ => 1 } }

/-- A plot with three groups: the perennial group `exGroup` (started), an annual group and
a second perennial group that both start in year 5. Species 0, 1 and 2 belong to them in
this order; species 2 holds one individual. -/
def exThree : State :=
  { exState with
    RGroup := [exGroup,
               { exAnnualGroup with species := [1], startyr := 5, regen_ok := true },
               { exGroup with species := [2], est_spp := [2], startyr := 5 }]
    Species := exState.Species ++
      [{ exAnnualSpecies with res_grp := 1 }, { exSpecies with res_grp := 2, sp_num := 2 }] }

/-- The plot `exState` with a group whose PR 2000001/2000000 is above 1 but within the
tolerance of `GT(g->pr, 1.)`: it requires 1 and has 2000000/2000001. -/
def exBand : State :=
  { exState with
    RGroup := [{ exGroup with res_required := 1, res_avail := 2000000 / 2000001,
                              pr := 2000001 / 2000000 }] }

/-! ## Theorems -/

theorem GT_mono_left {d a b t : ℚ} (h : GT d a t) (hab : a ≤ b) : GT d b t := by
  unfold GT EQ at *
  obtain ⟨h1, h2⟩ := h
  refine ⟨lt_of_lt_of_le h1 hab, ?_⟩
  rintro ⟨h3, h4⟩
  apply h2
  constructor <;> linarith

theorem gmod_res_antitone (d : ℚ) {p1 p2 : ℚ} (h0 : 0 ≤ p1) (h : p1 ≤ p2) :
    gmod_res d p2 ≤ gmod_res d p1 := by
  unfold gmod_res OPT_SLOPE
  by_cases g1 : GT d p1 1
  · have g2 : GT d p2 1 := GT_mono_left g1 h
    have h1 : 1 < p1 := g1.1
    have h2 : 1 < p2 := g2.1
    simp only [g1, g2, if_true]
    rw [min_eq_left h1.le, min_eq_left h2.le]
    apply div_le_div_of_nonneg_left <;> linarith
  · by_cases g2 : GT d p2 1
    · have h2 : 1 < p2 := g2.1
      simp only [g1, g2, if_true, if_false]
      rw [min_eq_left h2.le]
      have : min 1 p1 ≤ 1 := min_le_left _ _
      rw [div_le_iff₀ (by linarith)]
      nlinarith
    · simp only [g1, g2, if_false]
      have : min 1 p1 ≤ min 1 p2 := min_le_min le_rfl h
      linarith

theorem gmod_res_nonneg (d : ℚ) {p : ℚ} (h0 : 0 ≤ p) : 0 ≤ gmod_res d p := by
  unfold gmod_res OPT_SLOPE
  have h1 : min 1 p ≤ 1 := min_le_left _ _
  have h2 : 0 ≤ 1 - 5 / 100 * min 1 p := by linarith
  by_cases g : GT d p 1
  · simp only [g, if_true]; exact div_nonneg h2 h0
  · simp only [g, if_false]; exact h2

theorem gmod_res_le_one (d : ℚ) {p : ℚ} (h0 : 0 ≤ p) : gmod_res d p ≤ 1 := by
  unfold gmod_res OPT_SLOPE
  have h1 : 0 ≤ min 1 p := le_min zero_le_one h0
  by_cases g : GT d p 1
  · simp only [g, if_true]
    have : 1 < p := g.1
    rw [div_le_iff₀ (by linarith)]
    linarith
  · simp only [g, if_false]; linarith

theorem grow_indiv_not_killed (c : Ctx) (s : SpeciesType) (tgmod : ℚ) (ndv : IndivType)
    (n : Nat) (hk : ndv.killed = false) :
    grow_indiv c s tgmod ndv n =
      ({ ndv with relsize := ndv.relsize + (normal_growth c.delta tgmod s.intrin_rate ndv).2,
                  growthrate := (normal_growth c.delta tgmod s.intrin_rate ndv).1 },
        (normal_growth c.delta tgmod s.intrin_rate ndv).2, n) := by
  unfold grow_indiv
  simp [hk]

/-- C6. Growth is monotone in PR: two living individuals of equal relative size in
[0,1], same species (intrinsic rate >= 0) and same temperature modifier >= 0, with
`0 <= PR1 <= PR2`: the growth increment `growth1` of the one with the larger PR is not
larger. No assumption separates the two sides of the PR = 1 boundary. -/
theorem growth_increment_antitone_in_pr (c : Ctx) (s : SpeciesType) (tgmod : ℚ)
    (ndv1 ndv2 : IndivType) (n1 n2 : Nat)
    (hk1 : ndv1.killed = false) (hk2 : ndv2.killed = false)
    (hsize : ndv2.relsize = ndv1.relsize)
    (ht : 0 ≤ tgmod) (hi : 0 ≤ s.intrin_rate)
    (hr0 : 0 ≤ ndv1.relsize) (hr1 : ndv1.relsize ≤ 1)
    (hp0 : 0 ≤ ndv1.pr) (hp : ndv1.pr ≤ ndv2.pr) :
    (grow_indiv c s tgmod ndv2 n2).2.1 ≤ (grow_indiv c s tgmod ndv1 n1).2.1 := by
  rw [grow_indiv_not_killed c s tgmod ndv1 n1 hk1, grow_indiv_not_killed c s tgmod ndv2 n2 hk2]
  simp only [normal_growth, hsize]
  have hg := gmod_res_antitone c.delta hp0 hp
  have h1 : 0 ≤ 1 - ndv1.relsize := by linarith
  have hA : gmod_res c.delta ndv2.pr * tgmod ≤ gmod_res c.delta ndv1.pr * tgmod :=
    mul_le_mul_of_nonneg_right hg ht
  have hB := mul_le_mul_of_nonneg_right hA hi
  have hC := mul_le_mul_of_nonneg_right hB h1
  exact mul_le_mul_of_nonneg_right hC hr0

theorem grow_indiv_normal (c : Ctx) (s : SpeciesType) (tgmod : ℚ) (ndv : IndivType)
    (n : Nat) (hb : ¬ (ndv.killed = true ∧ c.RandUni n < ndv.prob_veggrow)) :
    (grow_indiv c s tgmod ndv n).1 =
        { ndv with relsize := ndv.relsize + (normal_growth c.delta tgmod s.intrin_rate ndv).2,
                   growthrate := (normal_growth c.delta tgmod s.intrin_rate ndv).1 } ∧
      (grow_indiv c s tgmod ndv n).2.1 = (normal_growth c.delta tgmod s.intrin_rate ndv).2 := by
  unfold grow_indiv
  by_cases hk : ndv.killed = true
  · have hd : ¬ c.RandUni n < ndv.prob_veggrow := fun h => hb ⟨hk, h⟩
    simp [hk, hd]
  · simp [hk]

/-- C7, refuted as stated: a living individual of relative size 1/2 with PR 1/2, intrinsic
rate 1 and temperature modifier 1 grows by 39/160, whereas resource modifier times
temperature modifier times intrinsic rate times (1 - relative size) is 39/80. -/
theorem growth_increment_formula_counterexample :
    exIndiv.killed = false ∧
      (grow_indiv exCtx exSpecies 1 exIndiv 0).2.1 = 39 / 160 ∧
      (1 - 5 / 100 * min 1 exIndiv.pr) * 1 * exSpecies.intrin_rate * (1 - exIndiv.relsize)
        = 39 / 80 := by
  refine ⟨rfl, ?_, ?_⟩
  · rw [grow_indiv_not_killed _ _ _ _ _ rfl]
    norm_num [normal_growth, gmod_res, OPT_SLOPE, GT, EQ, exIndiv, exSpecies, exCtx]
  · norm_num [exIndiv, exSpecies]

/-- C7, amended: for every individual that undergoes normal growth, the recorded growth
rate is resource modifier * temperature modifier * intrinsic rate * (1 - relative size),
with resource modifier `1 - 0.05 * min(1, PR)` divided by PR again when PR > 1; the
increment is that rate times the relative size, and it is added to the relative size. -/
theorem growth_increment_formula (c : Ctx) (s : SpeciesType) (tgmod : ℚ) (ndv : IndivType)
    (n : Nat) (hb : ¬ (ndv.killed = true ∧ c.RandUni n < ndv.prob_veggrow)) :
    (grow_indiv c s tgmod ndv n).1.growthrate =
        (if GT c.delta ndv.pr 1 then (1 - 5 / 100 * min 1 ndv.pr) / ndv.pr
          else 1 - 5 / 100 * min 1 ndv.pr) * tgmod * s.intrin_rate * (1 - ndv.relsize) ∧
      (grow_indiv c s tgmod ndv n).2.1 =
        (grow_indiv c s tgmod ndv n).1.growthrate * ndv.relsize ∧
      (grow_indiv c s tgmod ndv n).1.relsize =
        ndv.relsize + (grow_indiv c s tgmod ndv n).2.1 := by
  obtain ⟨h1, h2⟩ := grow_indiv_normal c s tgmod ndv n hb
  rw [h1, h2]
  exact ⟨rfl, rfl, rfl⟩

/-- Witness of `growth_increment_formula` at `exIndiv`. -/
theorem growth_increment_formula_witness :
    (grow_indiv exCtx exSpecies 1 exIndiv 0).1.growthrate =
        (if GT exCtx.delta exIndiv.pr 1 then (1 - 5 / 100 * min 1 exIndiv.pr) / exIndiv.pr
          else 1 - 5 / 100 * min 1 exIndiv.pr) * 1 * exSpecies.intrin_rate
          * (1 - exIndiv.relsize) ∧
      (grow_indiv exCtx exSpecies 1 exIndiv 0).2.1 =
        (grow_indiv exCtx exSpecies 1 exIndiv 0).1.growthrate * exIndiv.relsize ∧
      (grow_indiv exCtx exSpecies 1 exIndiv 0).1.relsize =
        exIndiv.relsize + (grow_indiv exCtx exSpecies 1 exIndiv 0).2.1 :=
  growth_increment_formula exCtx exSpecies 1 exIndiv 0 (by simp [exIndiv])

/-- C8. One growth step of an individual not marked killed, with relative size in (0,1],
PR >= 0, temperature modifier and intrinsic rate in [0,1], yields a relative size that is
at least the old one and at most 1. -/
theorem grow_size_monotone_bounded (c : Ctx) (s : SpeciesType) (tgmod : ℚ) (ndv : IndivType)
    (n : Nat) (hk : ndv.killed = false)
    (hr0 : 0 < ndv.relsize) (hr1 : ndv.relsize ≤ 1) (hp0 : 0 ≤ ndv.pr)
    (ht0 : 0 ≤ tgmod) (ht1 : tgmod ≤ 1) (hi0 : 0 ≤ s.intrin_rate) (hi1 : s.intrin_rate ≤ 1) :
    ndv.relsize ≤ (grow_indiv c s tgmod ndv n).1.relsize ∧
      (grow_indiv c s tgmod ndv n).1.relsize ≤ 1 := by
  rw [grow_indiv_not_killed c s tgmod ndv n hk]
  simp only [normal_growth]
  have hg0 := gmod_res_nonneg c.delta hp0
  have hg1 := gmod_res_le_one c.delta hp0
  set g := gmod_res c.delta ndv.pr with hgdef
  set r := ndv.relsize with hrdef
  have hk0 : 0 ≤ g * tgmod * s.intrin_rate := mul_nonneg (mul_nonneg hg0 ht0) hi0
  have hk1 : g * tgmod * s.intrin_rate ≤ 1 := by
    have : g * tgmod ≤ 1 := mul_le_one₀ hg1 ht0 ht1
    exact mul_le_one₀ this hi0 hi1
  have h1r : 0 ≤ 1 - r := by linarith
  constructor
  · have : 0 ≤ g * tgmod * s.intrin_rate * (1 - r) * r :=
      mul_nonneg (mul_nonneg hk0 h1r) hr0.le
    linarith
  · have hkr : g * tgmod * s.intrin_rate * r ≤ 1 := mul_le_one₀ hk1 hr0.le hr1
    have : g * tgmod * s.intrin_rate * (1 - r) * r ≤ 1 - r := by
      have := mul_le_mul_of_nonneg_right hkr h1r
      nlinarith
    linarith

/-- Witness of `growth_increment_antitone_in_pr`: `exIndiv` (PR 1/2) against
`exIndivScarce` (PR 3), across the PR = 1 boundary. -/
theorem growth_increment_antitone_in_pr_witness :
    (grow_indiv exCtx exSpecies 1 exIndivScarce 0).2.1
      ≤ (grow_indiv exCtx exSpecies 1 exIndiv 0).2.1 :=
  growth_increment_antitone_in_pr exCtx exSpecies 1 exIndiv exIndivScarce 0 0 rfl rfl rfl
    (by norm_num) (by norm_num [exSpecies]) (by norm_num [exIndiv]) (by norm_num [exIndiv])
    (by norm_num [exIndiv]) (by norm_num [exIndiv, exIndivScarce])

/-- Witness of `grow_size_monotone_bounded` at `exIndiv`. -/
theorem grow_size_monotone_bounded_witness :
    exIndiv.relsize ≤ (grow_indiv exCtx exSpecies 1 exIndiv 0).1.relsize ∧
      (grow_indiv exCtx exSpecies 1 exIndiv 0).1.relsize ≤ 1 :=
  grow_size_monotone_bounded exCtx exSpecies 1 exIndiv 0 rfl (by norm_num [exIndiv])
    (by norm_num [exIndiv]) (by norm_num [exIndiv]) (by norm_num) (by norm_num)
    (by norm_num [exSpecies]) (by norm_num [exSpecies])


/-! ### Resource-stress mortality -/

theorem not_GT_of_le {d a b : ℚ} (h : a ≤ b) : ¬ GT d a b := fun hg => absurd hg.1 (not_lt.mpr h)

theorem mort_Main_group_stretched (d : ℚ) (g : GroupType) (he : g.est_count ≠ 0)
    (hper : g.max_age ≠ 1) (hpr : GT d g.pr 1) :
    mort_Main_group d g =
      ({ g with yrs_neg_pr := incrIntUS g.yrs_neg_pr },
        decide (g.max_stretch ≤ incrIntUS g.yrs_neg_pr)) := by
  unfold mort_Main_group
  simp [he, hper, hpr]

theorem mort_Main_years_aux (d : ℚ) (ys : List YearInput) :
    ∀ (g : GroupType) (a : Nat), g.max_age ≠ 1 → g.yrs_neg_pr = a →
      (∀ y ∈ ys, GT d y.pr 1 ∧ y.est_count ≠ 0) → a + ys.length < 65536 →
      (mort_Main_years d g ys).2 =
          (List.range ys.length).map (fun j => decide (g.max_stretch ≤ a + j + 1)) ∧
        (mort_Main_years d g ys).1.yrs_neg_pr = a + ys.length := by
  induction ys with
  | nil => intro g a _ ha _ _; simp [mort_Main_years, ha]
  | cons y ys ih =>
    intro g a hper ha hys hlen
    have hy := hys y (List.mem_cons_self _ _)
    have hlen2 : a + (ys.length + 1) < 65536 := by simpa using hlen
    have hstep := mort_Main_group_stretched d { g with pr := y.pr, est_count := y.est_count }
      hy.2 hper hy.1
    have hinc : incrIntUS g.yrs_neg_pr = a + 1 := by
      unfold incrIntUS
      rw [ha]
      exact Nat.mod_eq_of_lt (by omega)
    simp only [mort_Main_years, hstep]
    have ih2 := ih { g with pr := y.pr, est_count := y.est_count,
                            yrs_neg_pr := incrIntUS g.yrs_neg_pr } (a + 1) hper hinc
      (fun z hz => hys z (List.mem_cons_of_mem _ hz)) (by omega)
    constructor
    · rw [ih2.1, List.length_cons, List.range_succ_eq_map, List.map_cons, List.map_map]
      simp only [hinc, Nat.zero_add, Nat.add_zero]
      congr 1
      apply List.map_congr_left
      intro j _
      simp only [Function.comp]
      congr 2
      omega
    · rw [ih2.2, List.length_cons]; omega

/-- C2, refuted as stated: a perennial group with `max_stretch = 1`, counter 0 and
established species, in a year whose PR 1 + 1/2000000 is above 1 but within the tolerance
of the test `GT(g->pr, 1.0)`: `mort_Main` does not call `_no_resources` in this first
year and resets the counter to 0. -/
theorem stretched_trigger_counterexample :
    ({ exGroup with yrs_neg_pr := 0, max_stretch := 1 } : GroupType).max_age ≠ 1 ∧
      (1 : ℚ) < 1 + 1 / 2000000 ∧
      (mort_Main_years exCtx.delta { exGroup with yrs_neg_pr := 0, max_stretch := 1 }
        [⟨1 + 1 / 2000000, 1⟩]).2 = [false] ∧
      (mort_Main_years exCtx.delta { exGroup with yrs_neg_pr := 0, max_stretch := 1 }
        [⟨1 + 1 / 2000000, 1⟩]).1.yrs_neg_pr = 0 := by
  refine ⟨by decide!, by decide!, by decide!, by decide!⟩

/-- C2, amended. A perennial group whose counter `yrs_neg_pr` starts at 0 and which, in
each of `k` consecutive calls of `mort_Main` (k within the range of the 16-bit counter),
has established species and a PR above 1 by more than the tolerance (the test
`GT(g->pr, 1.0)`): `_no_resources` is performed in the j-th call exactly when
`j >= max_stretch`, for every `j = 1 .. k`. -/
theorem stretched_trigger (d : ℚ) (g : GroupType) (ys : List YearInput)
    (hper : g.max_age ≠ 1) (h0 : g.yrs_neg_pr = 0)
    (hys : ∀ y ∈ ys, GT d y.pr 1 ∧ y.est_count ≠ 0) (hlen : ys.length < 65536) :
    (mort_Main_years d g ys).2 =
      (List.range ys.length).map (fun j => decide (g.max_stretch ≤ j + 1)) := by
  have h := (mort_Main_years_aux d ys g 0 hper h0 hys (by omega)).1
  simpa using h

/-- Witness of `stretched_trigger`: `max_stretch = 2`, three years at PR 3. -/
theorem stretched_trigger_witness :
    (mort_Main_years exCtx.delta { exGroup with yrs_neg_pr := 0 }
        [⟨3, 1⟩, ⟨3, 1⟩, ⟨3, 1⟩]).2 = [false, true, true] :=
  stretched_trigger exCtx.delta { exGroup with yrs_neg_pr := 0 } [⟨3, 1⟩, ⟨3, 1⟩, ⟨3, 1⟩]
    (by simp [exGroup]) rfl
    (by
      intro y hy
      simp only [List.mem_cons, List.mem_singleton, List.not_mem_nil, or_false, or_self] at hy
      subst hy
      norm_num [GT, EQ, exCtx])
    (by simp)

/-- C3, refuted as stated: a perennial group without established species, with PR 1/2
and three stretched years on its counter, still has 3 on the counter after `mort_Main`. -/
theorem good_year_reset_counterexample :
    ({ exGroup with est_count := 0, est_spp := [], pr := 1 / 2 } : GroupType).max_age ≠ 1 ∧
      ({ exGroup with est_count := 0, est_spp := [], pr := 1 / 2 } : GroupType).pr ≤ 1 ∧
      ({ exGroup with est_count := 0, est_spp := [], pr := 1 / 2 } : GroupType).yrs_neg_pr = 3 ∧
      (mort_Main_group exCtx.delta
        { exGroup with est_count := 0, est_spp := [], pr := 1 / 2 }).1.yrs_neg_pr = 3 := by
  refine ⟨by simp [exGroup], by norm_num [exGroup], rfl, ?_⟩
  simp [mort_Main_group, exGroup]

/-- C3, amended: for every perennial group with at least one established species, a year
in which the PR is <= 1 leaves `yrs_neg_pr = 0` after `mort_Main`, whatever its previous
value (and `_no_resources` is not called). -/
theorem good_year_reset (d : ℚ) (g : GroupType) (he : g.est_count ≠ 0)
    (hper : g.max_age ≠ 1) (hpr : g.pr ≤ 1) :
    (mort_Main_group d g).1.yrs_neg_pr = 0 ∧ (mort_Main_group d g).2 = false := by
  unfold mort_Main_group
  simp [he, hper, not_GT_of_le hpr]

/-- Witness of `good_year_reset`: `exGroup` in a year with PR 1/2. -/
theorem good_year_reset_witness :
    (mort_Main_group exCtx.delta { exGroup with pr := 1 / 2 }).1.yrs_neg_pr = 0 ∧
      (mort_Main_group exCtx.delta { exGroup with pr := 1 / 2 }).2 = false :=
  good_year_reset exCtx.delta { exGroup with pr := 1 / 2 } (by simp [exGroup])
    (by simp [exGroup]) (by norm_num [exGroup])


theorem no_resources_nk_eq_floor {pr : ℚ} (n : Nat) (hpr : 1 < pr) :
    no_resources_nk pr n = ⌊(n : ℚ) * (1 - 1 / pr) + 1 / 2⌋ ∧
      0 ≤ no_resources_nk pr n ∧ no_resources_nk pr n ≤ n := by
  have hpos : (0 : ℚ) < pr := by linarith
  have hinv1 : 1 / pr < 1 := by rw [div_lt_one hpos]; exact hpr
  have hinv0 : 0 < 1 / pr := by positivity
  have hn : (0 : ℚ) ≤ n := Nat.cast_nonneg n
  have hx0 : (0 : ℚ) ≤ (n : ℚ) * (1 - 1 / pr) + 1 / 2 := by
    have : 0 ≤ (n : ℚ) * (1 - 1 / pr) := mul_nonneg hn (by linarith)
    linarith
  have hx1 : (n : ℚ) * (1 - 1 / pr) + 1 / 2 < ((n : ℤ) : ℚ) + 1 := by
    have : (n : ℚ) * (1 - 1 / pr) ≤ n := by nlinarith
    push_cast
    linarith
  have heq : no_resources_nk pr n = ⌊(n : ℚ) * (1 - 1 / pr) + 1 / 2⌋ := by
    unfold no_resources_nk truncToInt
    rw [if_pos hx0]
  refine ⟨heq, ?_, ?_⟩
  · rw [heq]; exact Int.floor_nonneg.mpr hx0
  · rw [heq]
    have : ⌊(n : ℚ) * (1 - 1 / pr) + 1 / 2⌋ < (n : ℤ) + 1 := by
      rw [Int.floor_lt]; push_cast; push_cast at hx1; exact hx1
    omega

/-- C4. For a group with `n` individuals and PR > 1, the quota `nk` of `_no_resources` is
`floor(n * (1 - 1/PR) + 1/2)`, it lies between 0 and `n`, and the quota loop hands exactly
`nk` individuals to `indiv_Kill_Complete`; for PR = 3 it is `floor(2n/3 + 1/2)`. -/
theorem no_resources_quota (s : State) (rg : Nat) (hpr : 1 < (s.group rg).pr) :
    no_resources_nk (s.group rg).pr (RGroup_GetIndivs s rg SortKind.SORT_A).length =
        ⌊((RGroup_GetIndivs s rg SortKind.SORT_A).length : ℚ) * (1 - 1 / (s.group rg).pr)
          + 1 / 2⌋ ∧
      0 ≤ no_resources_nk (s.group rg).pr (RGroup_GetIndivs s rg SortKind.SORT_A).length ∧
      no_resources_nk (s.group rg).pr (RGroup_GetIndivs s rg SortKind.SORT_A).length
        ≤ (RGroup_GetIndivs s rg SortKind.SORT_A).length ∧
      (((_no_resources s rg).1.length : ℕ) : ℤ) =
        no_resources_nk (s.group rg).pr (RGroup_GetIndivs s rg SortKind.SORT_A).length ∧
      ((s.group rg).pr = 3 →
        (((_no_resources s rg).1.length : ℕ) : ℤ) =
          ⌊2 * ((RGroup_GetIndivs s rg SortKind.SORT_A).length : ℚ) / 3 + 1 / 2⌋) := by
  obtain ⟨h1, h2, h3⟩ :=
    no_resources_nk_eq_floor (RGroup_GetIndivs s rg SortKind.SORT_A).length hpr
  have hlen : (((_no_resources s rg).1.length : ℕ) : ℤ) =
      no_resources_nk (s.group rg).pr (RGroup_GetIndivs s rg SortKind.SORT_A).length := by
    simp only [_no_resources, List.length_take]
    omega
  refine ⟨h1, h2, h3, hlen, ?_⟩
  intro h3pr
  rw [hlen, h1, h3pr]
  congr 1
  ring

/-- Witness of `no_resources_quota`: `exState` has two individuals and PR 2, one is killed. -/
theorem no_resources_quota_witness :
    (((_no_resources exState 0).1.length : ℕ) : ℤ) =
      no_resources_nk (exState.group 0).pr (RGroup_GetIndivs exState 0 SortKind.SORT_A).length :=
  (no_resources_quota exState 0 (by norm_num [exState, State.group, exGroup])).2.2.2.1

theorem RGroup_GetIndivs_perm (s : State) (rg : Nat) (sort : SortKind) :
    (RGroup_GetIndivs s rg sort).Perm (RGroup_GetIndivs s rg SortKind.SORT_0) := by
  unfold RGroup_GetIndivs
  simp only [ne_eq, not_true_eq_false, and_false, if_false]
  split_ifs with h
  · cases sort with
    | SORT_0 => exact absurd rfl h.2
    | SORT_A => exact List.perm_insertionSort _ _
    | SORT_D => exact List.perm_insertionSort _ _
  · exact List.Perm.refl _

theorem RGroup_GetIndivs_sorted_A (s : State) (rg : Nat) :
    (RGroup_GetIndivs s rg SortKind.SORT_A).Pairwise (fun a b => a.2.relsize ≤ b.2.relsize) := by
  simp only [RGroup_GetIndivs]
  split_ifs with h
  · exact List.sorted_insertionSort _ _
  · have hnil : ∀ l : List (IndivRef × IndivType), ¬ (0 < l.length ∧
        SortKind.SORT_A ≠ SortKind.SORT_0) → l = [] := by
      intro l hl
      cases l with
      | nil => rfl
      | cons a t => exact absurd ⟨by simp, by decide⟩ hl
    rw [hnil _ h]
    exact List.Pairwise.nil

theorem RGroup_GetIndivs_sorted_D (s : State) (rg : Nat) :
    (RGroup_GetIndivs s rg SortKind.SORT_D).Pairwise (fun a b => b.2.relsize ≤ a.2.relsize) := by
  simp only [RGroup_GetIndivs]
  split_ifs with h
  · exact List.sorted_insertionSort _ _
  · have hnil : ∀ l : List (IndivRef × IndivType), ¬ (0 < l.length ∧
        SortKind.SORT_D ≠ SortKind.SORT_0) → l = [] := by
      intro l hl
      cases l with
      | nil => rfl
      | cons a t => exact absurd ⟨by simp, by decide⟩ hl
    rw [hnil _ h]
    exact List.Pairwise.nil

/-- C5, refuted as stated: in `exState` (sizes 1/4 and 3/4, PR 2) the quota kill takes the
individual of size 1/4 and spares the one of size 3/4, which is strictly larger. -/
theorem quota_kill_largest_first_counterexample :
    (_no_resources exState 0).1 = [(⟨0, 0⟩, exSmall)] ∧
      (_no_resources exState 0).2 = [(⟨0, 1⟩, exBig)] ∧
      exSmall.relsize < exBig.relsize := by
  have hl : RGroup_GetIndivs exState 0 SortKind.SORT_A
      = [(⟨0, 0⟩, exSmall), (⟨0, 1⟩, exBig)] := by
    simp [RGroup_GetIndivs, Indiv_SortSize, ForEachEstSpp, State.group, State.species, exState,
      exGroup, List.enum, List.enumFrom, exSpecies]
    norm_num [exSmall, exBig, exIndiv]
  have hnk : no_resources_nk (exState.group 0).pr 2 = 1 := by
    norm_num [no_resources_nk, truncToInt, State.group, exState, exGroup, Int.floor_eq_iff]
  refine ⟨?_, ?_, by norm_num [exSmall, exBig, exIndiv]⟩
  · simp [_no_resources, hl, hnk]
  · simp [_no_resources, hl, hnk]

/-- C5, amended: the individuals that `_no_resources` kills by quota are taken
smallest-first (the list is sorted ascending): killed and surviving individuals together
are the individuals of the group, and no individual that survives the quota kill is
strictly smaller than one that was killed by it. -/
theorem quota_kill_smallest_first (s : State) (rg : Nat) :
    ((_no_resources s rg).1 ++ (_no_resources s rg).2).Perm
        (RGroup_GetIndivs s rg SortKind.SORT_0) ∧
      ∀ k ∈ (_no_resources s rg).1, ∀ v ∈ (_no_resources s rg).2,
        k.2.relsize ≤ v.2.relsize := by
  simp only [_no_resources]
  constructor
  · rw [List.take_append_drop]
    exact RGroup_GetIndivs_perm s rg SortKind.SORT_A
  · have h := RGroup_GetIndivs_sorted_A s rg
    rw [← List.take_append_drop
      (no_resources_nk (s.group rg).pr (RGroup_GetIndivs s rg SortKind.SORT_A).length).toNat
      (RGroup_GetIndivs s rg SortKind.SORT_A)] at h
    exact (List.pairwise_append.mp h).2.2


/-! ### Apportionment to individuals -/

theorem resPart_base_cup_cons (d : ℚ) (g : GroupType) (hg : GT d g.pr 1) (rem : ℚ)
    (ndv : IndivType) (rest : List IndivType) :
    (resPart_base d g rem (ndv :: rest)).1 =
      { ndv with res_required := (ndv.relsize / (g.max_spp : ℚ)) / g.max_density,
                 res_avail := min ((ndv.relsize / (g.max_spp : ℚ)) / g.max_density) rem } ::
        (resPart_base d g
          (max (rem - min ((ndv.relsize / (g.max_spp : ℚ)) / g.max_density) rem) 0) rest).1 := by
  simp [resPart_base, hg]

theorem resPart_base_length (d : ℚ) (g : GroupType) (l : List IndivType) :
    ∀ rem, (resPart_base d g rem l).1.length = l.length := by
  induction l with
  | nil => intro rem; simp [resPart_base]
  | cons a t ih =>
    intro rem
    by_cases hg : GT d g.pr 1
    · simp [resPart_base, hg, ih]
    · simp [resPart_base, hg, ih]

theorem resPart_base_relsize (d : ℚ) (g : GroupType) (l : List IndivType) :
    ∀ rem, (resPart_base d g rem l).1.map (fun x => x.relsize) = l.map (fun x => x.relsize) := by
  induction l with
  | nil => intro rem; simp [resPart_base]
  | cons a t ih =>
    intro rem
    by_cases hg : GT d g.pr 1
    · simp [resPart_base, hg, ih]
    · simp [resPart_base, hg, ih]

theorem resPart_base_required (d : ℚ) (g : GroupType) (l : List IndivType) :
    ∀ rem, ∀ x ∈ (resPart_base d g rem l).1,
      x.res_required = (x.relsize / (g.max_spp : ℚ)) / g.max_density := by
  induction l with
  | nil => intro rem x hx; simp [resPart_base] at hx
  | cons a t ih =>
    intro rem x hx
    by_cases hg : GT d g.pr 1
    · simp only [resPart_base, hg, if_true, List.mem_cons] at hx
      rcases hx with hx | hx
      · rw [hx]
      · exact ih _ x hx
    · simp only [resPart_base, hg, if_false, List.mem_cons] at hx
      rcases hx with hx | hx
      · rw [hx]
      · exact ih _ x hx

theorem req_nonneg (g : GroupType) (hden : 0 < g.max_density) {r : ℚ} (hr : 0 ≤ r) :
    0 ≤ (r / (g.max_spp : ℚ)) / g.max_density :=
  div_nonneg (div_nonneg hr (Nat.cast_nonneg _)) hden.le

theorem cup_avail_bounds (d : ℚ) (g : GroupType) (hg : GT d g.pr 1)
    (hden : 0 < g.max_density) (l : List IndivType) (hl : ∀ x ∈ l, 0 ≤ x.relsize) :
    ∀ rem, 0 ≤ rem → ∀ x ∈ (resPart_base d g rem l).1,
      0 ≤ x.res_avail ∧ x.res_avail ≤ x.res_required := by
  induction l with
  | nil => intro rem _ x hx; simp [resPart_base] at hx
  | cons a t ih =>
    intro rem hrem x hx
    rw [resPart_base_cup_cons d g hg] at hx
    have hreq := req_nonneg g hden (hl a (List.mem_cons_self _ _))
    rcases List.mem_cons.mp hx with hx | hx
    · rw [hx]
      exact ⟨le_min hreq hrem, min_le_left _ _⟩
    · exact ih (fun y hy => hl y (List.mem_cons_of_mem _ hy)) _ (le_max_right _ _) x hx

theorem cup_sum (d : ℚ) (g : GroupType) (hg : GT d g.pr 1)
    (hden : 0 < g.max_density) (l : List IndivType) (hl : ∀ x ∈ l, 0 ≤ x.relsize) :
    ∀ rem, 0 ≤ rem →
      ((resPart_base d g rem l).1.map (fun x => x.res_avail)).sum =
        min rem ((resPart_base d g rem l).1.map (fun x => x.res_required)).sum := by
  induction l with
  | nil => intro rem hrem; simp [resPart_base, hrem]
  | cons a t ih =>
    intro rem hrem
    rw [resPart_base_cup_cons d g hg]
    have hreq := req_nonneg g hden (hl a (List.mem_cons_self _ _))
    have ih2 := ih (fun y hy => hl y (List.mem_cons_of_mem _ hy))
      (max (rem - min ((a.relsize / (g.max_spp : ℚ)) / g.max_density) rem) 0) (le_max_right _ _)
    simp only [List.map_cons, List.sum_cons]
    rw [ih2]
    have hS : 0 ≤ ((resPart_base d g
        (max (rem - min ((a.relsize / (g.max_spp : ℚ)) / g.max_density) rem) 0) t).1.map
          (fun x => x.res_required)).sum := by
      apply List.sum_nonneg
      intro q hq
      obtain ⟨x, hx, rfl⟩ := List.mem_map.mp hq
      rw [resPart_base_required d g t _ x hx]
      have hxr : x.relsize ∈ t.map (fun x => x.relsize) := by
        rw [← resPart_base_relsize d g t]
        exact List.mem_map_of_mem _ hx
      obtain ⟨y, hy, hyx⟩ := List.mem_map.mp hxr
      have := hl y (List.mem_cons_of_mem _ hy)
      rw [hyx] at this
      exact req_nonneg g hden this
    set r := (a.relsize / (g.max_spp : ℚ)) / g.max_density
    set S := ((resPart_base d g (max (rem - min r rem) 0) t).1.map (fun x => x.res_required)).sum
    rcases le_total r rem with h | h
    · rw [min_eq_left h, max_eq_left (by linarith)]
      rcases le_total (rem - r) S with h2 | h2
      · rw [min_eq_left h2, min_eq_left (by linarith)]; ring
      · rw [min_eq_right h2, min_eq_right (by linarith)]
    · rw [min_eq_right h, sub_self, max_self, min_eq_left hS, min_eq_left (by linarith)]
      ring

theorem cup_zero (d : ℚ) (g : GroupType) (hg : GT d g.pr 1)
    (hden : 0 < g.max_density) (l : List IndivType) (hl : ∀ x ∈ l, 0 ≤ x.relsize) :
    ∀ x ∈ (resPart_base d g 0 l).1, x.res_avail = 0 := by
  induction l with
  | nil => intro x hx; simp [resPart_base] at hx
  | cons a t ih =>
    intro x hx
    rw [resPart_base_cup_cons d g hg] at hx
    have hreq := req_nonneg g hden (hl a (List.mem_cons_self _ _))
    rw [min_eq_right hreq, sub_self, max_self] at hx
    rcases List.mem_cons.mp hx with hx | hx
    · rw [hx]
    · exact ih (fun y hy => hl y (List.mem_cons_of_mem _ hy)) x hx

theorem cup_indexed (d : ℚ) (g : GroupType) (hg : GT d g.pr 1)
    (hden : 0 < g.max_density) (l : List IndivType) (hl : ∀ x ∈ l, 0 ≤ x.relsize) :
    ∀ rem, 0 ≤ rem → ∀ i (h : i < (resPart_base d g rem l).1.length),
      ((resPart_base d g rem l).1[i]).res_avail =
        min ((resPart_base d g rem l).1[i]).res_required
          (rem - (((resPart_base d g rem l).1.take i).map (fun x => x.res_avail)).sum) := by
  induction l with
  | nil => intro rem _ i h; simp [resPart_base] at h
  | cons a t ih =>
    intro rem hrem i h
    have hreq := req_nonneg g hden (hl a (List.mem_cons_self _ _))
    have hcons := resPart_base_cup_cons d g hg rem a t
    cases i with
    | zero => simp [hcons]
    | succ i =>
      have hmax : max (rem - min ((a.relsize / (g.max_spp : ℚ)) / g.max_density) rem) 0
          = rem - min ((a.relsize / (g.max_spp : ℚ)) / g.max_density) rem :=
        max_eq_left (sub_nonneg.mpr (min_le_right _ _))
      have hlen : i < (resPart_base d g
          (max (rem - min ((a.relsize / (g.max_spp : ℚ)) / g.max_density) rem) 0) t).1.length := by
        rw [resPart_base_length]
        rw [resPart_base_length] at h
        simpa using h
      have ih2 := ih (fun y hy => hl y (List.mem_cons_of_mem _ hy)) _ (le_max_right _ _) i hlen
      simp only [hcons, List.getElem_cons_succ, List.take_succ_cons, List.map_cons,
        List.sum_cons]
      rw [ih2]
      congr 1
      linarith [hmax]

theorem cup_shortfall (d : ℚ) (g : GroupType) (hg : GT d g.pr 1)
    (hden : 0 < g.max_density) (l : List IndivType) (hl : ∀ x ∈ l, 0 ≤ x.relsize) :
    ∀ rem, 0 ≤ rem → ∀ i j (_ : i < j) (hj : j < (resPart_base d g rem l).1.length),
      ((resPart_base d g rem l).1[i]).res_avail < ((resPart_base d g rem l).1[i]).res_required →
      ((resPart_base d g rem l).1[j]).res_avail = 0 := by
  induction l with
  | nil => intro rem _ i j _ hj; simp [resPart_base] at hj
  | cons a t ih =>
    intro rem hrem i j hij hj hlt
    have hreq := req_nonneg g hden (hl a (List.mem_cons_self _ _))
    have hcons := resPart_base_cup_cons d g hg rem a t
    have ht : ∀ y ∈ t, 0 ≤ y.relsize := fun y hy => hl y (List.mem_cons_of_mem _ hy)
    cases j with
    | zero => omega
    | succ j =>
      cases i with
      | zero =>
        simp only [hcons, List.getElem_cons_zero, List.getElem_cons_succ] at hlt ⊢
        have hrem_lt : rem < (a.relsize / (g.max_spp : ℚ)) / g.max_density := by
          by_contra hcon
          rw [min_eq_left (not_lt.mp hcon)] at hlt
          exact lt_irrefl _ hlt
        have hz : max (rem - min ((a.relsize / (g.max_spp : ℚ)) / g.max_density) rem) 0 = 0 := by
          rw [min_eq_right hrem_lt.le, sub_self, max_self]
        have key : ∀ (r : ℚ) (hr : r = 0) (hh : j < (resPart_base d g r t).1.length),
            ((resPart_base d g r t).1[j]).res_avail = 0 := by
          intro r hr hh
          subst hr
          exact cup_zero d g hg hden t ht _ (List.getElem_mem _)
        exact key _ hz _
      | succ i =>
        simp only [hcons, List.getElem_cons_succ] at hlt ⊢
        exact ih ht _ (le_max_right _ _) i j (by omega) _ hlt


theorem resPart_extra_no_extra (d : ℚ) (g : GroupType) (hx : g.use_extra_res = false)
    (b : ℚ) (ndv : IndivType) :
    (resPart_extra d g b ndv).res_avail = ndv.res_avail ∧
      (resPart_extra d g b ndv).res_required = ndv.res_required ∧
      (resPart_extra d g b ndv).relsize = ndv.relsize := by
  simp [resPart_extra, hx]

theorem resPart_extra_relsize (d : ℚ) (g : GroupType) (b : ℚ) (ndv : IndivType) :
    (resPart_extra d g b ndv).relsize = ndv.relsize := by
  unfold resPart_extra
  split_ifs <;> rfl

theorem resPartIndiv_group_relsize (d : ℚ) (g : GroupType) (l : List IndivType) :
    (resPartIndiv_group d g l).map (fun x => x.relsize) = l.map (fun x => x.relsize) := by
  unfold resPartIndiv_group
  rw [List.map_map, ← resPart_base_relsize d g l g.res_avail]
  apply List.map_congr_left
  intro x _
  exact resPart_extra_relsize d g _ x

theorem cup_method_group (d : ℚ) (g : GroupType) (hg : GT d g.pr 1)
    (hx : g.use_extra_res = false) (hA : 0 ≤ g.res_avail) (hden : 0 < g.max_density)
    (l : List IndivType) (hl : ∀ x ∈ l, 0 ≤ x.relsize) :
    (∀ i (h : i < (resPartIndiv_group d g l).length),
        ((resPartIndiv_group d g l)[i]).res_required =
          (((resPartIndiv_group d g l)[i]).relsize / (g.max_spp : ℚ)) / g.max_density ∧
        ((resPartIndiv_group d g l)[i]).res_avail =
          min ((resPartIndiv_group d g l)[i]).res_required
            (g.res_avail -
              (((resPartIndiv_group d g l).take i).map (fun x => x.res_avail)).sum)) ∧
      (∀ x ∈ resPartIndiv_group d g l, 0 ≤ x.res_avail ∧ x.res_avail ≤ x.res_required) ∧
      ((resPartIndiv_group d g l).map (fun x => x.res_avail)).sum =
        min g.res_avail ((resPartIndiv_group d g l).map (fun x => x.res_required)).sum ∧
      (∀ i j (_ : i < j) (hj : j < (resPartIndiv_group d g l).length),
        ((resPartIndiv_group d g l)[i]).res_avail
            < ((resPartIndiv_group d g l)[i]).res_required →
          ((resPartIndiv_group d g l)[j]).res_avail = 0) := by
  have hav : ∀ b (l2 : List IndivType), List.map (fun x => x.res_avail)
      (List.map (resPart_extra d g b) l2) = List.map (fun x => x.res_avail) l2 := by
    intro b l2
    rw [List.map_map]
    apply List.map_congr_left
    intro x _
    exact (resPart_extra_no_extra d g hx b x).1
  have hrq : ∀ b (l2 : List IndivType), List.map (fun x => x.res_required)
      (List.map (resPart_extra d g b) l2) = List.map (fun x => x.res_required) l2 := by
    intro b l2
    rw [List.map_map]
    apply List.map_congr_left
    intro x _
    exact (resPart_extra_no_extra d g hx b x).2.1
  refine ⟨?_, ?_, ?_, ?_⟩
  · intro i h
    have h2 : i < (resPart_base d g g.res_avail l).1.length := by
      simpa [resPartIndiv_group] using h
    have hmem := resPart_base_required d g l g.res_avail _ (List.getElem_mem h2)
    have hidx := cup_indexed d g hg hden l hl g.res_avail hA i h2
    simp only [resPartIndiv_group, List.getElem_map, ← List.map_take, hav]
    rw [(resPart_extra_no_extra d g hx _ _).1, (resPart_extra_no_extra d g hx _ _).2.1,
      (resPart_extra_no_extra d g hx _ _).2.2]
    exact ⟨hmem, hidx⟩
  · intro x hxm
    simp only [resPartIndiv_group, List.mem_map] at hxm
    obtain ⟨y, hy, rfl⟩ := hxm
    rw [(resPart_extra_no_extra d g hx _ _).1, (resPart_extra_no_extra d g hx _ _).2.1]
    exact cup_avail_bounds d g hg hden l hl g.res_avail hA y hy
  · simp only [resPartIndiv_group, hav, hrq]
    exact cup_sum d g hg hden l hl g.res_avail hA
  · intro i j hij hj hlt
    have hj2 : j < (resPart_base d g g.res_avail l).1.length := by
      simpa [resPartIndiv_group] using hj
    simp only [resPartIndiv_group, List.getElem_map] at hlt ⊢
    rw [(resPart_extra_no_extra d g hx _ _).1] at hlt ⊢
    rw [(resPart_extra_no_extra d g hx _ _).2.1] at hlt
    exact cup_shortfall d g hg hden l hl g.res_avail hA i j hij hj2 hlt

/-- The cup method on the array that `rgroup_ResPartIndiv` builds for a group with
`GT(g->pr, 1.)`, `use_extra_res` false, `res_avail >= 0`, positive `max_density` and
`max_spp` and individuals of non-negative size: the array is in descending size order;
each individual requires `(relsize / max_spp) / max_density` and receives the minimum of
that and what remains of the group's `res_avail` after the individuals before it. -/
theorem cup_method_array (c : Ctx) (s : State) (rg : Nat)
    (hpr : GT c.delta (s.group rg).pr 1) (hx : (s.group rg).use_extra_res = false)
    (hA : 0 ≤ (s.group rg).res_avail) (hden : 0 < (s.group rg).max_density)
    (_hspp : 0 < (s.group rg).max_spp)
    (hsz : ∀ p ∈ RGroup_GetIndivs s rg SortKind.SORT_0, 0 ≤ p.2.relsize) :
    (resPartIndiv_array c s rg).Pairwise (fun a b => b.relsize ≤ a.relsize) ∧
      ((resPartIndiv_array c s rg).map (fun x => x.relsize)).Perm
        ((RGroup_GetIndivs s rg SortKind.SORT_0).map (fun p => p.2.relsize)) ∧
      (∀ i (h : i < (resPartIndiv_array c s rg).length),
        ((resPartIndiv_array c s rg)[i]).res_required =
          (((resPartIndiv_array c s rg)[i]).relsize / ((s.group rg).max_spp : ℚ))
            / (s.group rg).max_density ∧
        ((resPartIndiv_array c s rg)[i]).res_avail =
          min ((resPartIndiv_array c s rg)[i]).res_required
            ((s.group rg).res_avail -
              (((resPartIndiv_array c s rg).take i).map (fun x => x.res_avail)).sum)) ∧
      (∀ x ∈ resPartIndiv_array c s rg, 0 ≤ x.res_avail ∧ x.res_avail ≤ x.res_required) ∧
      ((resPartIndiv_array c s rg).map (fun x => x.res_avail)).sum =
        min (s.group rg).res_avail
          ((resPartIndiv_array c s rg).map (fun x => x.res_required)).sum ∧
      (∀ i j (_ : i < j) (hj : j < (resPartIndiv_array c s rg).length),
        ((resPartIndiv_array c s rg)[i]).res_avail
            < ((resPartIndiv_array c s rg)[i]).res_required →
          ((resPartIndiv_array c s rg)[j]).res_avail = 0) := by
  have hl : ∀ x ∈ (RGroup_GetIndivs s rg SortKind.SORT_D).map Prod.snd, 0 ≤ x.relsize := by
    intro x hxm
    obtain ⟨p, hp, rfl⟩ := List.mem_map.mp hxm
    exact hsz p ((RGroup_GetIndivs_perm s rg SortKind.SORT_D).mem_iff.mp hp)
  have hrel : (resPartIndiv_array c s rg).map (fun x => x.relsize)
      = (RGroup_GetIndivs s rg SortKind.SORT_D).map (fun p => p.2.relsize) := by
    unfold resPartIndiv_array
    rw [resPartIndiv_group_relsize, List.map_map]
    rfl
  obtain ⟨h1, h2, h3, h4⟩ := cup_method_group c.delta (s.group rg) hpr hx hA hden _ hl
  refine ⟨?_, ?_, h1, h2, h3, h4⟩
  · have hs := RGroup_GetIndivs_sorted_D s rg
    have hs2 : ((RGroup_GetIndivs s rg SortKind.SORT_D).map (fun p => p.2.relsize)).Pairwise
        (fun a b => b ≤ a) := List.pairwise_map.mpr hs
    rw [← hrel] at hs2
    exact List.pairwise_map.mp hs2
  · rw [hrel]
    exact (RGroup_GetIndivs_perm s rg SortKind.SORT_D).map _

/-! ### Frame lemmas for the partition among groups -/

theorem foldl_invariant {α β : Type} (P : β → Prop) (f : β → α → β)
    (h : ∀ b a, P b → P (f b a)) (l : List α) : ∀ b, P b → P (l.foldl f b) := by
  induction l with
  | nil => intro b hb; exact hb
  | cons a t ih => intro b hb; exact ih _ (h b a hb)

theorem modify_map_comm {α β : Type} (proj : α → β) (f : α → α) (h : β → β)
    (hf : ∀ a, proj (f a) = h (proj a)) (l : List α) :
    ∀ n, (l.modify f n).map proj = (l.map proj).modify h n := by
  induction l with
  | nil => intro n; simp
  | cons a t ih =>
    intro n
    cases n with
    | zero => simp [hf]
    | succ n => simp [ih n]

theorem modify_map_id {α β : Type} (proj : α → β) (f : α → α)
    (hf : ∀ a, proj (f a) = proj a) (l : List α) :
    ∀ n, (l.modify f n).map proj = l.map proj := by
  induction l with
  | nil => intro n; simp
  | cons a t ih =>
    intro n
    cases n with
    | zero => simp [hf]
    | succ n => simp [ih n]

theorem foldl_modify_range_getElem? {β : Type} (h : β → β) (l : List β) :
    ∀ n m, ((List.range n).foldl (fun acc j => acc.modify h j) l)[m]?
      = (l[m]?).map (fun a => if m < n then h a else a) := by
  intro n
  induction n with
  | zero => intro m; simp
  | succ n ih =>
    intro m
    rw [List.range_succ, List.foldl_append]
    simp only [List.foldl_cons, List.foldl_nil]
    rw [List.getElem?_modify, ih m]
    cases l[m]? with
    | none => rfl
    | some a =>
      simp only [Option.map_some', Option.map_eq_map]
      congr 1
      by_cases hnm : n = m
      · subst hnm; simp
      · by_cases hlt : m < n
        · simp [hnm, hlt, Nat.lt_succ_of_lt hlt]
        · have : ¬ m < n + 1 := by omega
          simp [hnm, hlt, this]

theorem foldl_modify_range {β : Type} (h : β → β) (l : List β) :
    (List.range l.length).foldl (fun acc j => acc.modify h j) l = l.map h := by
  apply List.ext_getElem?
  intro m
  rw [foldl_modify_range_getElem?, List.getElem?_map]
  by_cases hm : m < l.length
  · simp [List.getElem?_eq_getElem hm, hm]
  · simp [List.getElem?_eq_none (not_lt.mp hm)]


theorem modGroup_resFields (st : State) (rg : Nat) (f : GroupType → GroupType)
    (hf : ∀ g, resFields (f g) = resFields g) :
    (st.modGroup rg f).RGroup.map resFields = st.RGroup.map resFields :=
  modify_map_id resFields f hf st.RGroup rg

theorem foldl_setIndiv_RGroup {α : Type} (l : List α) (r : α → IndivRef) (v : α → IndivType)
    (st : State) :
    (l.foldl (fun s2 p => s2.setIndiv (r p) (v p)) st).RGroup = st.RGroup ∧
      (l.foldl (fun s2 p => s2.setIndiv (r p) (v p)) st).Env = st.Env ∧
      (l.foldl (fun s2 p => s2.setIndiv (r p) (v p)) st).UseSoilwat = st.UseSoilwat :=
  foldl_invariant
    (fun s => s.RGroup = st.RGroup ∧ s.Env = st.Env ∧ s.UseSoilwat = st.UseSoilwat)
    (fun s2 p => s2.setIndiv (r p) (v p)) (fun _ _ hb => hb) l st ⟨rfl, rfl, rfl⟩

theorem RGroup_Update_Newsize_frame (c : Ctx) (st : State) (rg : Nat) :
    (RGroup_Update_Newsize c st rg).RGroup.map resFields = st.RGroup.map resFields ∧
      (RGroup_Update_Newsize c st rg).Env = st.Env ∧
      (RGroup_Update_Newsize c st rg).UseSoilwat = st.UseSoilwat := by
  simp only [RGroup_Update_Newsize]
  split_ifs with h
  · refine ⟨?_, ?_, ?_⟩
    · rw [modGroup_resFields _ _ _ (by intro g; split_ifs <;> rfl),
        (foldl_setIndiv_RGroup _ _ _ _).1]
      exact modGroup_resFields _ _ _ (fun _ => rfl)
    · exact (foldl_setIndiv_RGroup _ _ _ _).2.1
    · exact (foldl_setIndiv_RGroup _ _ _ _).2.2
  · refine ⟨?_, rfl, rfl⟩
    rw [modGroup_resFields _ _ _ (by intro g; split_ifs <;> rfl)]
    exact modGroup_resFields _ _ _ (fun _ => rfl)

theorem rgroup_AddSpecies_frame (st : State) (rg sp : Nat) :
    (rgroup_AddSpecies st rg sp).RGroup.map resFields = st.RGroup.map resFields ∧
      (rgroup_AddSpecies st rg sp).Env = st.Env ∧
      (rgroup_AddSpecies st rg sp).UseSoilwat = st.UseSoilwat :=
  ⟨modGroup_resFields _ _ _ (by intro g; split_ifs <;> rfl), rfl, rfl⟩

theorem Species_Update_Newsize_frame (c : Ctx) (st : State) (sp : Nat) (newsize : ℚ) :
    (Species_Update_Newsize c st sp newsize).RGroup.map resFields = st.RGroup.map resFields ∧
      (Species_Update_Newsize c st sp newsize).Env = st.Env ∧
      (Species_Update_Newsize c st sp newsize).UseSoilwat = st.UseSoilwat := by
  simp only [Species_Update_Newsize]
  exact RGroup_Update_Newsize_frame c _ _

theorem _add_annuals_spp_frame (c : Ctx) (rg : Nat) (g_pr : ℚ) (add_seeds : Bool)
    (acc : State × ℚ) (sp : Nat) :
    (_add_annuals_spp c rg g_pr add_seeds acc sp).1.RGroup.map resFields
        = acc.1.RGroup.map resFields ∧
      (_add_annuals_spp c rg g_pr add_seeds acc sp).1.Env = acc.1.Env ∧
      (_add_annuals_spp c rg g_pr add_seeds acc sp).1.UseSoilwat = acc.1.UseSoilwat := by
  cases add_seeds with
  | false =>
    simp only [_add_annuals_spp, Bool.not_false, Bool.true_and, Bool.false_eq_true,
      if_false, and_false, Bool.false_and]
    split_ifs <;> exact ⟨rfl, rfl, rfl⟩
  | true =>
    simp only [_add_annuals_spp, Bool.not_true, Bool.false_and, if_true, and_true,
      Bool.not_false, Bool.true_and, Bool.and_self]
    split_ifs <;>
      first
      | exact ⟨rfl, rfl, rfl⟩
      | exact ⟨(Species_Update_Newsize_frame c _ sp _).1.trans
            (rgroup_AddSpecies_frame acc.1 rg sp).1,
          (Species_Update_Newsize_frame c _ sp _).2.1.trans
            (rgroup_AddSpecies_frame acc.1 rg sp).2.1,
          (Species_Update_Newsize_frame c _ sp _).2.2.trans
            (rgroup_AddSpecies_frame acc.1 rg sp).2.2⟩

theorem _add_annuals_frame (c : Ctx) (st : State) (rg : Nat) (g_pr : ℚ) (add_seeds : Bool) :
    (_add_annuals c st rg g_pr add_seeds).2.RGroup.map resFields = st.RGroup.map resFields ∧
      (_add_annuals c st rg g_pr add_seeds).2.Env = st.Env ∧
      (_add_annuals c st rg g_pr add_seeds).2.UseSoilwat = st.UseSoilwat := by
  simp only [_add_annuals]
  split_ifs
  · exact ⟨rfl, rfl, rfl⟩
  · exact foldl_invariant
      (fun (a : State × ℚ) => a.1.RGroup.map resFields = st.RGroup.map resFields ∧
        a.1.Env = st.Env ∧ a.1.UseSoilwat = st.UseSoilwat)
      (_add_annuals_spp c rg g_pr add_seeds)
      (fun b a hb =>
        ⟨(_add_annuals_spp_frame c rg g_pr add_seeds b a).1.trans hb.1,
          (_add_annuals_spp_frame c rg g_pr add_seeds b a).2.1.trans hb.2.1,
          (_add_annuals_spp_frame c rg g_pr add_seeds b a).2.2.trans hb.2.2⟩)
      _ (st, 0) ⟨rfl, rfl, rfl⟩

theorem _add_annuals_spp_no_seeds (c : Ctx) (rg : Nat) (g_pr : ℚ) (acc : State × ℚ) (sp : Nat) :
    (_add_annuals_spp c rg g_pr false acc sp).1.RGroup = acc.1.RGroup := by
  simp only [_add_annuals_spp, Bool.not_false, Bool.true_and, Bool.false_eq_true,
    if_false, and_false, Bool.false_and]
  split_ifs <;> rfl

theorem _add_annuals_no_seeds (c : Ctx) (st : State) (rg : Nat) (g_pr : ℚ) :
    (_add_annuals c st rg g_pr false).2.RGroup = st.RGroup := by
  simp only [_add_annuals]
  split_ifs
  · rfl
  · exact foldl_invariant (fun (a : State × ℚ) => a.1.RGroup = st.RGroup)
      (_add_annuals_spp c rg g_pr false)
      (fun b a hb => (_add_annuals_spp_no_seeds c rg g_pr b a).trans hb) _ (st, 0) rfl

theorem rgroup_ResPartIndiv_frame (c : Ctx) (st : State) :
    (rgroup_ResPartIndiv c st).RGroup = st.RGroup := by
  unfold rgroup_ResPartIndiv
  apply foldl_invariant (fun (s : State) => s.RGroup = st.RGroup)
  · intro b rg hb
    simp only
    split_ifs
    · exact hb
    · exact hb
    · rw [(foldl_setIndiv_RGroup _ _ _ _).1]; exact hb
  · rfl

theorem partres_pr_frame (c : Ctx) (st : State) (rg : Nat) :
    (partres_pr c st rg).RGroup.map resFields
      = (st.RGroup.map resFields).modify (setPR c.delta) rg := by
  have h1 : (st.modGroup rg (fun g =>
      { g with pr := if ZRO c.delta g.res_avail then 0 else g.res_required / g.res_avail })
        ).RGroup.map resFields = (st.RGroup.map resFields).modify (setPR c.delta) rg :=
    modify_map_comm resFields (fun g =>
      { g with pr := if ZRO c.delta g.res_avail then 0 else g.res_required / g.res_avail })
      (setPR c.delta) (fun _ => rfl) st.RGroup rg
  simp only [partres_pr]
  split_ifs
  · refine Eq.trans (modGroup_resFields _ rg _ ?_)
      (((_add_annuals_frame c _ rg _ true).1).trans h1)
    intro g
    rfl
  · exact h1

theorem partres_pr_fold (c : Ctx) (n : Nat) : ∀ st : State,
    ((List.range n).foldl (partres_pr c) st).RGroup.map resFields
      = (List.range n).foldl (fun acc j => acc.modify (setPR c.delta) j)
          (st.RGroup.map resFields) := by
  induction n with
  | zero => intro st; simp
  | succ n ih =>
    intro st
    rw [List.range_succ, List.foldl_append, List.foldl_append]
    simp only [List.foldl_cons, List.foldl_nil]
    rw [partres_pr_frame, ih]

theorem rgroup_PartResources_resFields (c : Ctx) (st : State)
    (hp : (partres_base c st).2.noplants = false) :
    (rgroup_PartResources c st).RGroup.map resFields =
      ((_res_part_extra c
          (_res_part_extra c (partres_base c st).1 false (partres_base c st).2.xtra_base
            (partres_base c st).2.size_base)
          true (partres_base c st).2.xtra_obase (partres_base c st).2.size_obase).RGroup.map
        resFields).map (setPR c.delta) := by
  simp only [rgroup_PartResources, hp, Bool.false_eq_true, if_false, ForEachGroup]
  rw [rgroup_ResPartIndiv_frame, partres_pr_fold]
  rw [← List.length_map _ resFields]
  exact foldl_modify_range _ _


theorem partres_base_single (c : Ctx) (st : State) (g : GroupType) (hst : st.RGroup = [g])
    (hsw : st.UseSoilwat = false) :
    ∃ rs : ℚ, (g.max_age ≠ 1 → rs = g.relsize) ∧
      (partres_base c st).1.RGroup =
        [{ g with relsize := rs, res_required := rs / g.max_density,
                  res_avail := min 1 (min (rs / g.max_density) (_ppt2resource st.Env g)) }] ∧
      (partres_base c st).1.UseSoilwat = false ∧
      (partres_base c st).2.xtra_base =
        max 0 (min 1 (_ppt2resource st.Env g)
          - min 1 (min (rs / g.max_density) (_ppt2resource st.Env g))) * g.min_res_req ∧
      (partres_base c st).2.size_base = [rs * g.min_res_req] ∧
      (partres_base c st).2.size_obase = [if g.use_extra_res then rs * g.min_res_req else 0] ∧
      ((partres_base c st).2.noplants = false ↔ GT c.delta rs 0) := by
  have hg0 : st.group 0 = g := by simp [State.group, hst]
  have hrange : ForEachGroup st = [0] := by simp [ForEachGroup, hst, List.range_succ]
  by_cases hann : g.max_age = 1
  · have hR := _add_annuals_no_seeds c st 0 1
    have hF := _add_annuals_frame c st 0 1 false
    refine ⟨(_add_annuals c st 0 1 false).1, fun h => absurd hann h, ?_⟩
    simp only [partres_base, hrange, List.foldl_cons, List.foldl_nil, partres_pass1, hg0, hann,
      if_true]
    simp [State.group, State.modGroup, hR, hst, hF.2.1, hF.2.2, hsw, _ppt2resource, hann]
  · refine ⟨g.relsize, fun _ => rfl, ?_⟩
    simp only [partres_base, hrange, List.foldl_cons, List.foldl_nil, partres_pass1, hg0, hann,
      if_false]
    simp [State.group, State.modGroup, hst, hsw, _ppt2resource]


theorem _res_part_extra_single (c : Ctx) (st : State) (g : GroupType) (hst : st.RGroup = [g])
    (isextra : Bool) (extra sz : ℚ) :
    (_res_part_extra c st isextra extra [sz]).RGroup =
        [res_part_extra_group c.delta st.UseSoilwat isextra extra sz sz g] ∧
      (_res_part_extra c st isextra extra [sz]).UseSoilwat = st.UseSoilwat := by
  have hrange : ForEachGroup st = [0] := by simp [ForEachGroup, hst, List.range_succ]
  simp [_res_part_extra, hrange, State.modGroup, hst]

theorem GT_zero_not_ZRO {d x : ℚ} (h : GT d x 0) : ¬ ZRO d x := by
  intro hz
  apply h.2
  unfold EQ
  unfold ZRO at hz
  constructor <;> linarith [hz.1, hz.2]

theorem single_group_final (c : Ctx) (st : State) (g : GroupType) (hst : st.RGroup = [g])
    (hsw : st.UseSoilwat = false) (hx : g.use_extra_res = false) (hmrr : g.min_res_req ≠ 0) :
    ∃ rs : ℚ, (g.max_age ≠ 1 → rs = g.relsize) ∧
      (rgroup_PartResources c st).RGroup.map (fun g2 => (g2.res_required, g2.res_avail)) =
        [(rs / g.max_density,
          if GT c.delta rs 0 then min 1 (_ppt2resource st.Env g)
          else min 1 (min (rs / g.max_density) (_ppt2resource st.Env g)))] := by
  obtain ⟨rs, hrs, hR, hU, hxb, hsb, hso, hnp⟩ := partres_base_single c st g hst hsw
  refine ⟨rs, hrs, ?_⟩
  by_cases hgt : GT c.delta rs 0
  · have hnp2 : (partres_base c st).2.noplants = false := hnp.mpr hgt
    have hfin := rgroup_PartResources_resFields c st hnp2
    rw [hsb, hso, hxb] at hfin
    obtain ⟨h1, h1u⟩ := _res_part_extra_single c (partres_base c st).1 _ hR false
      (max 0 (min 1 (_ppt2resource st.Env g)
        - min 1 (min (rs / g.max_density) (_ppt2resource st.Env g))) * g.min_res_req)
      (rs * g.min_res_req)
    obtain ⟨h2, _⟩ := _res_part_extra_single c _ _ h1 true (partres_base c st).2.xtra_obase
      (if g.use_extra_res then rs * g.min_res_req else 0)
    rw [h2] at hfin
    have hnz : ¬ ZRO c.delta rs := GT_zero_not_ZRO hgt
    have hrs0 : rs * g.min_res_req ≠ 0 := mul_ne_zero (ne_of_gt hgt.1) hmrr
    have hmap : ∀ l : List GroupType,
        l.map (fun g2 => (g2.res_required, g2.res_avail))
          = (l.map resFields).map (fun t => (t.1, t.2.1)) := by
      intro l; rw [List.map_map]; rfl
    rw [hmap, hfin]
    simp only [res_part_extra_group, hU, hx, hnz, hgt, if_true, if_false, List.map_cons,
      List.map_nil, resFields, setPR, Bool.false_eq_true, false_and, true_and, and_true,
      and_self, and_false]
    have hle : min 1 (min (rs / g.max_density) (_ppt2resource st.Env g))
        ≤ min 1 (_ppt2resource st.Env g) := min_le_min le_rfl (min_le_right _ _)
    rw [max_eq_right (sub_nonneg.mpr hle)]
    congr 2
    field_simp
  · have hnp2 : (partres_base c st).2.noplants = true := by
      cases h : (partres_base c st).2.noplants with
      | true => rfl
      | false => exact absurd (hnp.mp h) hgt
    simp only [rgroup_PartResources, hnp2, if_true, hR, List.map_cons, List.map_nil, hgt,
      if_false]


/-! ### Partition among groups -/

/-- C1, refuted as stated: a single perennial group of relative size 1/2 and density 1,
without extra resource, in a year with resource index 1: `res_required` is 1/2 and after
`rgroup_PartResources` `res_avail` is 1, more than `min(1, 1/2, 1) = 1/2`. -/
theorem single_group_res_avail_counterexample :
    exHalf.RGroup.map (fun g => (g.use_extra_res, exHalf.UseSoilwat)) = [(false, false)] ∧
      (rgroup_PartResources exCtx exHalf).RGroup.map
          (fun g => (g.res_required, _ppt2resource exHalf.Env g, g.res_avail))
        = [(1 / 2, 1, 1)] ∧
      min (1 : ℚ) (min (1 / 2) 1) < 1 := by
  refine ⟨by decide!, by decide!, by norm_num⟩

/-- C1, amended: for a single resource group in isolation with `use_extra_res = false` on
the proportional (non-SOILWAT) path, after `rgroup_PartResources` the group's `res_avail`
never exceeds `min(1, resource index)`, the resource index being
`ppt * ppt_slope[class] + ppt_intcpt[class]`; for a perennial group with plants it equals
`min(1, resource index)` whatever `res_required = relsize / max_density` is. -/
theorem single_group_res_avail (c : Ctx) (st : State) (g : GroupType)
    (hst : st.RGroup = [g]) (hsw : st.UseSoilwat = false) (hx : g.use_extra_res = false)
    (hmrr : g.min_res_req ≠ 0) (_hden : g.max_density ≠ 0) :
    (rgroup_PartResources c st).RGroup.length = 1 ∧
      (∀ g2 ∈ (rgroup_PartResources c st).RGroup,
        g2.res_avail ≤
          min 1 ((st.Env.ppt : ℚ) * g.ppt_slope st.Env.wet_dry + g.ppt_intcpt st.Env.wet_dry)) ∧
      (g.max_age ≠ 1 → GT c.delta g.relsize 0 →
        ∀ g2 ∈ (rgroup_PartResources c st).RGroup,
          g2.res_required = g.relsize / g.max_density ∧
          g2.res_avail =
            min 1 ((st.Env.ppt : ℚ) * g.ppt_slope st.Env.wet_dry
              + g.ppt_intcpt st.Env.wet_dry)) := by
  obtain ⟨rs, hrs, hfin⟩ := single_group_final c st g hst hsw hx hmrr
  have hres : _ppt2resource st.Env g
      = (st.Env.ppt : ℚ) * g.ppt_slope st.Env.wet_dry + g.ppt_intcpt st.Env.wet_dry := rfl
  rw [hres] at hfin
  have hmem : ∀ g2 ∈ (rgroup_PartResources c st).RGroup,
      (g2.res_required, g2.res_avail) = (rs / g.max_density,
        if GT c.delta rs 0 then
          min 1 ((st.Env.ppt : ℚ) * g.ppt_slope st.Env.wet_dry + g.ppt_intcpt st.Env.wet_dry)
        else min 1 (min (rs / g.max_density)
          ((st.Env.ppt : ℚ) * g.ppt_slope st.Env.wet_dry + g.ppt_intcpt st.Env.wet_dry))) := by
    intro g2 hg2
    have := List.mem_map_of_mem (fun g2 : GroupType => (g2.res_required, g2.res_avail)) hg2
    rw [hfin] at this
    simpa using this
  refine ⟨?_, ?_, ?_⟩
  · have := congrArg List.length hfin
    simpa using this
  · intro g2 hg2
    have h := congrArg Prod.snd (hmem g2 hg2)
    simp only at h
    rw [h]
    split_ifs
    · exact le_rfl
    · exact min_le_min le_rfl (min_le_right _ _)
  · intro hper hgt g2 hg2
    have hrs2 := hrs hper
    have h := hmem g2 hg2
    rw [hrs2, if_pos hgt] at h
    exact ⟨congrArg Prod.fst h, congrArg Prod.snd h⟩

/-- Witness of `single_group_res_avail` at `exHalf`: one group, whose `res_avail` is at
most `min(1, resource index)`. -/
theorem single_group_res_avail_witness :
    (rgroup_PartResources exCtx exHalf).RGroup.length = 1 ∧
      (rgroup_PartResources exCtx exHalf).RGroup.all (fun g2 =>
        decide (g2.res_avail ≤ min 1 ((exHalf.Env.ppt : ℚ)
          * ({ exGroup with relsize := 1 / 2, pr := 0, res_required := 0, res_avail := 0 }
              : GroupType).ppt_slope exHalf.Env.wet_dry
          + ({ exGroup with relsize := 1 / 2, pr := 0, res_required := 0, res_avail := 0 }
              : GroupType).ppt_intcpt exHalf.Env.wet_dry))) = true :=
  ⟨(single_group_res_avail exCtx exHalf
      { exGroup with relsize := 1 / 2, pr := 0, res_required := 0, res_avail := 0 }
      rfl rfl rfl (by norm_num [exGroup]) (by norm_num [exGroup])).1,
    List.all_eq_true.mpr (fun g2 hg2 => decide_eq_true
      ((single_group_res_avail exCtx exHalf
        { exGroup with relsize := 1 / 2, pr := 0, res_required := 0, res_avail := 0 }
        rfl rfl rfl (by norm_num [exGroup]) (by norm_num [exGroup])).2.1 g2 hg2))⟩

/-- C9, refuted as stated: in `exTwo` the first group has plants and the second has none;
after `rgroup_PartResources` the second group has `res_avail = 0` and its PR is 0, not a
large value. -/
theorem group_pr_sentinel_counterexample :
    (partres_base exCtx exTwo).2.noplants = false ∧
      (rgroup_PartResources exCtx exTwo).RGroup.map (fun g => (g.res_avail, g.pr))
        = [(1, 1), (0, 0)] := by
  refine ⟨by decide!, by decide!⟩

/-- C9, amended: after `rgroup_PartResources`, in a year where some group has plants (the
flag `noplants` is false after the first loop), every group's PR equals
`res_required / res_avail`, and is 0 when `res_avail` is within the tolerance of zero. -/
theorem group_pr_after_partition (c : Ctx) (st : State) (hd : 0 < c.delta)
    (hp : (partres_base c st).2.noplants = false) :
    ∀ g ∈ (rgroup_PartResources c st).RGroup,
      (ZRO c.delta g.res_avail → g.pr = 0) ∧
      (¬ ZRO c.delta g.res_avail → g.res_avail ≠ 0 ∧ g.pr = g.res_required / g.res_avail) := by
  intro g hg
  have hmem := List.mem_map_of_mem resFields hg
  rw [rgroup_PartResources_resFields c st hp] at hmem
  obtain ⟨t, _, ht⟩ := List.mem_map.mp hmem
  have h1 : g.res_required = t.1 := (congrArg (fun x => x.1) ht).symm
  have h2 : g.res_avail = t.2.1 := (congrArg (fun x => x.2.1) ht).symm
  have h3 : g.pr = if ZRO c.delta t.2.1 then 0 else t.1 / t.2.1 :=
    (congrArg (fun x => x.2.2.2) ht).symm
  rw [← h1, ← h2] at h3
  constructor
  · intro hz; rw [h3, if_pos hz]
  · intro hz
    refine ⟨?_, by rw [h3, if_neg hz]⟩
    intro h0
    apply hz
    rw [h0]
    exact ⟨by linarith, hd⟩

/-- Witness of `group_pr_after_partition` at `exTwo`. -/
theorem group_pr_after_partition_witness :
    (rgroup_PartResources exCtx exTwo).RGroup.all (fun g =>
      decide ((ZRO exCtx.delta g.res_avail → g.pr = 0) ∧
        (¬ ZRO exCtx.delta g.res_avail →
          g.res_avail ≠ 0 ∧ g.pr = g.res_required / g.res_avail))) = true :=
  List.all_eq_true.mpr (fun g hg => decide_eq_true
    (group_pr_after_partition exCtx exTwo (by norm_num [exCtx]) (by decide!) g hg))

/-! ### Stretched clonal plants -/

theorem modGroup_group_self (s : State) (rg : Nat) (f : GroupType → GroupType)
    (h : rg < s.RGroup.length) : (s.modGroup rg f).group rg = f (s.group rg) := by
  simp [State.modGroup, State.group, List.getD_eq_getElem?_getD, List.getElem?_modify,
    List.getElem?_eq_getElem h]

theorem group_default_of_not_lt (s : State) (rg : Nat) (h : ¬ rg < s.RGroup.length) :
    s.group rg = default := by
  simp [State.group, List.getD_eq_getElem?_getD, List.getElem?_eq_none (not_lt.mp h)]

/-- C16. In `_stretched_clonal`, with a non-empty list `clist` of remaining clonal
individuals and `y = yrs_neg_pr >= max_stretch`: if the uniform draw is `<= 0.04 * y^2`
the quota branch is taken and exactly `floor(0.9 * c)` of the `c` clonal individuals (the
first ones of the list) are handed to `indiv_Kill_Complete`, nobody is partially reduced;
otherwise nobody is handed to `indiv_Kill_Complete` and, unless the run aborts, every
clonal individual gets one `indiv_Kill_Partial` call. The threshold is 9/25 for `y = 3`
and at least 1 for `y >= 5`, so then every draw in [0,1] takes the quota branch. -/
theorem stretched_clonal_branches (c : Ctx) (s : State) (rg : Nat)
    (rest clist : List (IndivRef × IndivType))
    (hcl : clist = rest.filter (fun p => (s.species p.2.myspecies).isclonal))
    (hc : 1 ≤ clist.length)
    (hy : (s.group rg).max_stretch ≤ (s.group rg).yrs_neg_pr) :
    (c.RandUni s.draws ≤ 4 / 100 * ((s.group rg).yrs_neg_pr : ℚ) ^ 2 →
        ∃ r, _stretched_clonal c s rg rest = Except.ok r ∧
          r.kills = clist.take (clist.length * 9 / 10) ∧
          ((r.kills.length : ℕ) : ℤ) = ⌊(9 / 10 : ℚ) * (clist.length : ℚ)⌋ ∧
          r.reduced = []) ∧
      (¬ c.RandUni s.draws ≤ 4 / 100 * ((s.group rg).yrs_neg_pr : ℚ) ^ 2 →
        ∀ r, _stretched_clonal c s rg rest = Except.ok r →
          r.kills = [] ∧ r.reduced.map (fun q => q.1) = clist) ∧
      ((s.group rg).yrs_neg_pr = 3 →
        (4 / 100 * ((s.group rg).yrs_neg_pr : ℚ) ^ 2 = 9 / 25)) ∧
      (5 ≤ (s.group rg).yrs_neg_pr → c.RandUni s.draws ≤ 1 →
        c.RandUni s.draws ≤ 4 / 100 * ((s.group rg).yrs_neg_pr : ℚ) ^ 2) := by
  have hne : ¬ (List.filter (fun p => (s.species p.2.myspecies).isclonal) rest).length = 0 := by
    rw [← hcl]; omega
  have hpm : (4 / 100 * ((s.group rg).yrs_neg_pr : ℚ) * ((s.group rg).yrs_neg_pr : ℚ))
      = 4 / 100 * ((s.group rg).yrs_neg_pr : ℚ) ^ 2 := by ring
  have hfloor : ⌊((clist.length : ℕ) : ℚ) * (9 / 10)⌋ = ((clist.length * 9 / 10 : ℕ) : ℤ) := by
    have h : ((clist.length : ℕ) : ℚ) * (9 / 10)
        = (((clist.length * 9 : ℕ) : ℚ)) / ((10 : ℕ) : ℚ) := by
      push_cast; ring
    rw [h, Rat.floor_natCast_div_natCast]
    norm_cast
  refine ⟨?_, ?_, ?_, ?_⟩
  · intro hd
    rw [← hpm] at hd
    refine ⟨_, by simp only [_stretched_clonal, hne, hy, hd, if_true, if_false]; rfl, ?_, ?_, rfl⟩
    · simp only [← hcl, hfloor]
      congr 1
      have : (min ((clist.length * 9 / 10 : ℕ) : ℤ) (clist.length : ℤ)).toNat
          = clist.length * 9 / 10 := by
        have : clist.length * 9 / 10 ≤ clist.length := by omega
        omega
      exact this
    · simp only [← hcl, hfloor, List.length_take]
      have h9 : (9 / 10 : ℚ) * (clist.length : ℚ) = (clist.length : ℚ) * (9 / 10) := by ring
      rw [h9, hfloor]
      have : clist.length * 9 / 10 ≤ clist.length := by omega
      omega
  · intro hd r hr
    rw [← hpm] at hd
    simp only [_stretched_clonal, hne, hy, hd, if_true, if_false] at hr
    split_ifs at hr with hf
    cases hr
    refine ⟨rfl, ?_⟩
    rw [hcl]
    simp only [List.map_map]
    exact (List.map_congr_left (fun _ _ => rfl)).trans (List.map_id _)
  · intro h3
    rw [h3]; norm_num
  · intro h5 h1
    have : (5 : ℚ) ≤ ((s.group rg).yrs_neg_pr : ℚ) := by exact_mod_cast h5
    nlinarith


/-- Witness of `stretched_clonal_branches` at `exClonal` with a draw of 0: two clonal
plants in the third stretched year, one of them is killed. -/
theorem stretched_clonal_branches_witness :
    ∃ r, _stretched_clonal exCtxZero exClonal 0 (RGroup_GetIndivs exClonal 0 SortKind.SORT_A)
        = Except.ok r ∧
      r.kills = (RGroup_GetIndivs exClonal 0 SortKind.SORT_A).take
        ((RGroup_GetIndivs exClonal 0 SortKind.SORT_A).length * 9 / 10) ∧
      ((r.kills.length : ℕ) : ℤ)
        = ⌊(9 / 10 : ℚ) * ((RGroup_GetIndivs exClonal 0 SortKind.SORT_A).length : ℚ)⌋ ∧
      r.reduced = [] :=
  (stretched_clonal_branches exCtxZero exClonal 0 (RGroup_GetIndivs exClonal 0 SortKind.SORT_A)
    (RGroup_GetIndivs exClonal 0 SortKind.SORT_A) (by decide!) (by decide!) (by decide!)).1
    (by decide!)

/-- C17. `_stretched_clonal` ends in the fatal error exactly when there are clonal
individuals left, `yrs_neg_pr >= max_stretch`, the draw does not take the quota branch and
the total-reduction factor `1/PR` exceeds 1 (for `PR = 0` the factor is infinite); and
when the rule is reached through `mort_Main`, which calls `_no_resources` only when
`GT(pr, 1.0)` holds, the fatal error does not occur. -/
theorem stretched_clonal_fatal (c : Ctx) (s : State) (rg : Nat)
    (rest : List (IndivRef × IndivType)) :
    ((∃ e, _stretched_clonal c s rg rest = Except.error e) ↔
        ((rest.filter (fun p => (s.species p.2.myspecies).isclonal)).length ≠ 0 ∧
          (s.group rg).max_stretch ≤ (s.group rg).yrs_neg_pr ∧
          ¬ c.RandUni s.draws ≤ 4 / 100 * ((s.group rg).yrs_neg_pr : ℚ) ^ 2 ∧
          ((s.group rg).pr = 0 ∨ 1 < 1 / (s.group rg).pr))) ∧
      (∀ e, mort_Main_stress c s rg ≠ some (Except.error e)) := by
  have hpm : (4 / 100 * ((s.group rg).yrs_neg_pr : ℚ) * ((s.group rg).yrs_neg_pr : ℚ))
      = 4 / 100 * ((s.group rg).yrs_neg_pr : ℚ) ^ 2 := by ring
  have key : ∀ (s : State) (rest : List (IndivRef × IndivType)),
      (∃ e, _stretched_clonal c s rg rest = Except.error e) →
        ((s.group rg).pr = 0 ∨ 1 < 1 / (s.group rg).pr) := by
    intro s rest ⟨e, he⟩
    simp only [_stretched_clonal] at he
    split_ifs at he with h1 h2 h3 h4
    exact h4
  constructor
  · constructor
    · intro ⟨e, he⟩
      simp only [_stretched_clonal, hpm] at he
      split_ifs at he with h1 h2 h3 h4
      exact ⟨h1, h2, h3, h4⟩
    · intro ⟨h1, h2, h3, h4⟩
      refine ⟨"PR too large in Mort_StretchClonal()", ?_⟩
      simp only [_stretched_clonal, hpm, h1, h2, h3, h4, if_true, if_false]
  · intro e he
    simp only [mort_Main_stress] at he
    split_ifs at he with hflag
    have hrg : rg < s.RGroup.length := by
      by_contra hcon
      rw [group_default_of_not_lt s rg hcon] at hflag
      have h0 : (default : GroupType).est_count = 0 := rfl
      simp [mort_Main_group, h0] at hflag
    have hgt : GT c.delta (s.group rg).pr 1 := by
      unfold mort_Main_group at hflag
      split_ifs at hflag with a b d
      exact d
    have hpr : (mort_Main_group c.delta (s.group rg)).1.pr = (s.group rg).pr := by
      unfold mort_Main_group
      split_ifs <;> rfl
    have hbad := key _ _ ⟨e, Option.some.inj he⟩
    rw [modGroup_group_self s rg _ hrg, hpr] at hbad
    have h1 : 1 < (s.group rg).pr := hgt.1
    rcases hbad with h0 | h0
    · linarith
    · rw [one_div, lt_inv_comm₀ (by norm_num) (by linarith)] at h0
      simp only [inv_one] at h0
      linarith

/-! ### Seed bank -/

theorem _add_annual_seedprod_eq (c : Ctx) (st : State) (sp : Nat) (pr : ℚ) :
    _add_annual_seedprod c st sp pr =
      st.modSpecies sp (fun s =>
        { s with seedprod := (seedprod_push s.viable_yrs
            (if LT c.delta pr 0 then 0 else (s.max_seed_estab : ℚ) * c.exp (-pr)) s.seedprod) }) :=
  rfl

theorem seed_shift_loop (n : Nat) : ∀ (l : List ℚ),
    (((List.range n).reverse.map (fun k => k + 1)).foldl
        (fun l i => l.set i (l.getD (i - 1) 0)) l).length = l.length ∧
      ∀ j, (((List.range n).reverse.map (fun k => k + 1)).foldl
          (fun l i => l.set i (l.getD (i - 1) 0)) l)[j]?
        = if 1 ≤ j ∧ j ≤ n ∧ j < l.length then l[j - 1]? else l[j]? := by
  induction n with
  | zero =>
    intro l
    refine ⟨by simp, fun j => ?_⟩
    have : ¬ (1 ≤ j ∧ j ≤ 0 ∧ j < l.length) := by omega
    rw [if_neg this]
    rfl
  | succ n ih =>
    intro l
    rw [List.range_succ, List.reverse_append, List.reverse_singleton, List.singleton_append,
      List.map_cons, List.foldl_cons]
    obtain ⟨ihl, ihj⟩ := ih (l.set (n + 1) (l.getD (n + 1 - 1) 0))
    refine ⟨by rw [ihl, List.length_set], fun j => ?_⟩
    rw [ihj j, List.length_set]
    simp only [Nat.add_sub_cancel, List.getElem?_set]
    by_cases h1 : 1 ≤ j ∧ j ≤ n ∧ j < l.length
    · have h2 : 1 ≤ j ∧ j ≤ n + 1 ∧ j < l.length := ⟨h1.1, by omega, h1.2.2⟩
      have h3 : ¬ n + 1 = j - 1 := by omega
      simp only [h1, h2, and_self, if_true, h3, if_false]
    · simp only [h1, if_false]
      by_cases h4 : n + 1 = j
      · subst h4
        by_cases h5 : n + 1 < l.length
        · have hn : n < l.length := by omega
          simp [h5, List.getD_eq_getElem?_getD, List.getElem?_eq_getElem hn]
        · simp [h5, List.getElem?_eq_none (not_lt.mp h5)]
      · have h6 : ¬ (1 ≤ j ∧ j ≤ n + 1 ∧ j < l.length) := by
          intro h
          apply h1
          exact ⟨h.1, by omega, h.2.2⟩
        simp only [h4, if_false, h6]

theorem seedprod_push_spec (v : Nat) (new : ℚ) (l : List ℚ) (hv : 1 ≤ v) (hlen : l.length = v) :
    (seedprod_push v new l).length = l.length ∧
      (seedprod_push v new l)[0]? = some new ∧
      ∀ i, 1 ≤ i → i < v → (seedprod_push v new l)[i]? = l[i - 1]? := by
  obtain ⟨h1, h2⟩ := seed_shift_loop (v - 1) l
  unfold seedprod_push
  refine ⟨by rw [List.length_set, h1], ?_, ?_⟩
  · rw [List.getElem?_set]
    simp only [if_true, h1]
    have : 0 < l.length := by omega
    simp [this]
  · intro i hi1 hiv
    rw [List.getElem?_set]
    have hne : ¬ 0 = i := by omega
    simp only [hne, if_false]
    rw [h2 i]
    have : 1 ≤ i ∧ i ≤ v - 1 ∧ i < l.length := ⟨hi1, by omega, by omega⟩
    simp only [this, and_self, if_true]

theorem modSpecies_species_self (s : State) (sp : Nat) (f : SpeciesType → SpeciesType)
    (h : sp < s.Species.length) : (s.modSpecies sp f).species sp = f (s.species sp) := by
  simp [State.modSpecies, State.species, List.getD_eq_getElem?_getD, List.getElem?_modify,
    List.getElem?_eq_getElem h]

theorem modSpecies_species_ne (s : State) (sp i : Nat) (f : SpeciesType → SpeciesType)
    (h : sp ≠ i) : (s.modSpecies sp f).species i = s.species i := by
  simp [State.modSpecies, State.species, List.getD_eq_getElem?_getD, List.getElem?_modify, h]

/-- C15, refuted as stated: for `pr = -1/2000000`, negative but within the tolerance of
the test `LT(pr, 0.)`, `_add_annual_seedprod` stores `max_seed_estab * exp(-pr)` (here
`10 * exp(1/2000000)`, with the example context's `exp`), not 0. -/
theorem add_annual_seedprod_band_counterexample :
    (-1 / 2000000 : ℚ) < 0 ∧
      ((_add_annual_seedprod exCtx exAnnual 0 (-1 / 2000000)).species 0).seedprod[0]?
        = some (((exAnnual.species 0).max_seed_estab : ℚ) * exCtx.exp (1 / 2000000)) ∧
      ((exAnnual.species 0).max_seed_estab : ℚ) * exCtx.exp (1 / 2000000) ≠ 0 := by
  refine ⟨by decide!, by decide!, by decide!⟩

/-- C15, amended. `_add_annual_seedprod` for a species with `viable_yrs >= 1` whose seed
history has `viable_yrs` entries: afterwards the history has the same length, entry `i` is
the old entry `i-1` for `1 <= i < viable_yrs` (the oldest is discarded), and entry 0 is 0
when `pr` is below 0 by more than the tolerance (the test `LT(pr, 0.)`) and
`max_seed_estab * exp(-pr)` otherwise, in particular when `pr >= 0`. -/
theorem add_annual_seedprod_shift (c : Ctx) (st : State) (sp : Nat) (pr : ℚ)
    (hsp : sp < st.Species.length) (hv : 1 ≤ (st.species sp).viable_yrs)
    (hlen : (st.species sp).seedprod.length = (st.species sp).viable_yrs) :
    ((_add_annual_seedprod c st sp pr).species sp).seedprod.length
        = (st.species sp).seedprod.length ∧
      (∀ i, 1 ≤ i → i < (st.species sp).viable_yrs →
        ((_add_annual_seedprod c st sp pr).species sp).seedprod[i]?
          = (st.species sp).seedprod[i - 1]?) ∧
      (¬ LT c.delta pr 0 → ((_add_annual_seedprod c st sp pr).species sp).seedprod[0]?
          = some (((st.species sp).max_seed_estab : ℚ) * c.exp (-pr))) ∧
      (0 ≤ pr → ((_add_annual_seedprod c st sp pr).species sp).seedprod[0]?
          = some (((st.species sp).max_seed_estab : ℚ) * c.exp (-pr))) ∧
      (LT c.delta pr 0 →
        ((_add_annual_seedprod c st sp pr).species sp).seedprod[0]? = some 0) := by
  rw [_add_annual_seedprod_eq, modSpecies_species_self _ _ _ hsp]
  obtain ⟨h1, h2, h3⟩ := seedprod_push_spec (st.species sp).viable_yrs
    (if LT c.delta pr 0 then 0 else ((st.species sp).max_seed_estab : ℚ) * c.exp (-pr))
    (st.species sp).seedprod hv hlen
  refine ⟨h1, h3, ?_, ?_, ?_⟩
  · intro hnl
    rw [h2, if_neg hnl]
  · intro hpr
    have hnl : ¬ LT c.delta pr 0 := fun h => absurd h.1 (not_lt.mpr hpr)
    rw [h2, if_neg hnl]
  · intro hl
    rw [h2, if_pos hl]

/-- Witness of `add_annual_seedprod_shift` at the annual species of `exAnnual`. -/
theorem add_annual_seedprod_shift_witness :
    ((_add_annual_seedprod exCtx exAnnual 0 1).species 0).seedprod.length
        = (exAnnual.species 0).seedprod.length ∧
      ((_add_annual_seedprod exCtx exAnnual 0 1).species 0).seedprod[1]?
        = (exAnnual.species 0).seedprod[0]? :=
  ⟨(add_annual_seedprod_shift exCtx exAnnual 0 1 (by decide!) (by decide!) (by decide!)).1,
    (add_annual_seedprod_shift exCtx exAnnual 0 1 (by decide!) (by decide!) (by decide!)).2.1 1
      (by decide) (by decide!)⟩

/-! ### Annual establishment -/

/-- C13, the code at the failing inputs: when regeneration is allowed, the seed bank
predicts a positive maximum (`GT(x, 0.)`), `exp(-PR)` is positive and the group PR is
above `PR_0_est = 20`, the size that `_add_annuals` computes for the species and adds to
`sumsize` (and, with `add_seeds`, to the species) is negative. -/
theorem annual_newsize_negative (c : Ctx) (st : State) (rg sp : Nat) (g_pr : ℚ)
    (hreg : (st.group rg).regen_ok = true)
    (hx : GT c.delta (_get_annual_maxestab c (st.species sp)) 0)
    (hpr : 20 < g_pr) (hexp : 0 < c.exp (-g_pr)) :
    (_add_annuals_spp c rg g_pr true (st, 0) sp).2 < 0 := by
  have hx0 : 0 < _get_annual_maxestab c (st.species sp) := hx.1
  have hne : g_pr ≠ 0 := by linarith
  simp only [_add_annuals_spp, hreg, hx, hne, if_true, if_false, zero_add, PR_0_est]
  apply lt_of_le_of_lt (min_le_right _ _)
  apply mul_neg_of_neg_of_pos _ hexp
  have : _get_annual_maxestab c (st.species sp) / 20 * g_pr
      > _get_annual_maxestab c (st.species sp) := by
    rw [gt_iff_lt, div_mul_eq_mul_div, lt_div_iff₀ (by norm_num)]
    nlinarith
  linarith

/-- Witness of `annual_newsize_negative`: the annual species of `exAnnual` at PR 40; and
the whole of `rgroup_PartResources` in the dry year `exAnnualDry`, which gives the group
PR 100 and leaves the species with a negative relative size. -/
theorem annual_newsize_negative_witness :
    (_add_annuals_spp exCtxDecay 0 40 true (exAnnual, 0) 0).2 < 0 ∧
      (rgroup_PartResources exCtxDecay exAnnualDry).RGroup.map (fun g => g.pr) = [100] ∧
      (rgroup_PartResources exCtxDecay exAnnualDry).Species.map (fun s => s.relsize)
        = [-26 / 5101] :=
  ⟨annual_newsize_negative exCtxDecay exAnnual 0 0 40 (by decide!) (by decide!)
      (by norm_num) (by decide!),
    by decide!, by decide!⟩

theorem forall₂_modify_right {α : Type} (R : α → α → Prop) (f : α → α)
    (hf : ∀ a b, R a b → R a (f b)) :
    ∀ (l0 l : List α) (n : Nat), List.Forall₂ R l0 l → List.Forall₂ R l0 (l.modify f n) := by
  intro l0 l n h
  induction h generalizing n with
  | nil => simp
  | cons hab _ ih =>
    cases n with
    | zero => simpa using List.Forall₂.cons (hf _ _ hab) (by assumption)
    | succ n => simpa using List.Forall₂.cons hab (ih n)

theorem forall₂_refl_of {α : Type} (R : α → α → Prop) (hr : ∀ a, R a a) :
    ∀ l : List α, List.Forall₂ R l l := by
  intro l
  induction l with
  | nil => exact List.Forall₂.nil
  | cons a t ih => exact List.Forall₂.cons (hr a) ih

theorem LT_neg_one (d : ℚ) (hd1 : d ≤ 1) : LT d (-1) 0 := by
  refine ⟨by norm_num, ?_⟩
  rintro ⟨h1, _⟩
  linarith

theorem ZRO_zero (d : ℚ) (hd0 : 0 < d) : ZRO d 0 := ⟨by linarith, hd0⟩

theorem not_GT_self (d x : ℚ) : ¬ GT d x x := fun h => lt_irrefl _ h.1

theorem _add_annual_seedprod_zero (c : Ctx) (st : State) (sp : Nat) (hd1 : c.delta ≤ 1) :
    _add_annual_seedprod c st sp (-1) =
      st.modSpecies sp (fun s =>
        { s with seedprod := (seedprod_push s.viable_yrs 0 s.seedprod) }) := by
  rw [_add_annual_seedprod_eq]
  simp only [LT_neg_one c.delta hd1, if_true]

theorem _add_annuals_spp_no_regen (c : Ctx) (rg : Nat) (g_pr : ℚ) (add_seeds : Bool)
    (hd0 : 0 < c.delta) (hd1 : c.delta ≤ 1) (acc : State × ℚ) (sp : Nat)
    (hreg : (acc.1.group rg).regen_ok = false) :
    (_add_annuals_spp c rg g_pr add_seeds acc sp).2 = acc.2 ∧
      (_add_annuals_spp c rg g_pr add_seeds acc sp).1.RGroup = acc.1.RGroup ∧
      ((_add_annuals_spp c rg g_pr add_seeds acc sp).1.Species = acc.1.Species ∨
        (_add_annuals_spp c rg g_pr add_seeds acc sp).1.Species =
          acc.1.Species.modify (fun s =>
            { s with seedprod := (seedprod_push s.viable_yrs 0 s.seedprod) }) sp) := by
  have hz := ZRO_zero c.delta hd0
  have hg := not_GT_self c.delta 0
  have hgrp : ∀ (s2 : State), s2.RGroup = acc.1.RGroup → (s2.group rg).regen_ok = false := by
    intro s2 h2
    simp only [State.group, h2]
    exact hreg
  cases add_seeds with
  | true =>
    simp only [_add_annuals_spp, hreg, Bool.not_true, Bool.false_and, if_true,
      Bool.false_eq_true, if_false, hg, false_and, Bool.not_false, Bool.and_self, hz, add_zero,
      _add_annual_seedprod_zero c _ sp hd1, true_and]
    exact ⟨rfl, Or.inr rfl⟩
  | false =>
    have hstd : ({ acc.1 with draws := acc.1.draws + 1 } : State).group rg = acc.1.group rg := rfl
    by_cases hf : c.RandUni acc.1.draws ≤ (acc.1.species sp).seedling_estab_prob
    · simp only [_add_annuals_spp, Bool.not_false, Bool.true_and, hf, decide_True, if_true,
        Bool.false_eq_true, if_false, hstd, hreg, _add_annual_seedprod_zero c _ sp hd1]
      have h1 : (({ acc.1 with draws := acc.1.draws + 1 } : State).modSpecies sp (fun s =>
          { s with seedprod := (seedprod_push s.viable_yrs 0 s.seedprod) })).group rg
            = acc.1.group rg := rfl
      simp only [h1, hreg, Bool.false_eq_true, if_false, hg, false_and, add_zero,
        Bool.not_true, Bool.and_false, true_and]
      exact ⟨rfl, Or.inr rfl⟩
    · simp only [_add_annuals_spp, Bool.not_false, Bool.true_and, hf, decide_False,
        Bool.false_eq_true, if_false, hstd, hreg, hg, false_and, add_zero, Bool.false_and,
        true_and]
      exact Or.inl trivial

/-- C14. When the `regen_ok` flag of group `rg` is false (and the comparison tolerance is
positive and at most 1, the group has `max_spp > 0`), `_add_annuals` returns exactly 0,
leaves every group as it was (no species is added to an established list) and leaves
every species as it was except that zeros, and only zeros, were pushed onto its seed
history. -/
theorem add_annuals_no_regen (c : Ctx) (st : State) (rg : Nat) (g_pr : ℚ) (add_seeds : Bool)
    (hd0 : 0 < c.delta) (hd1 : c.delta ≤ 1) (_hspp : 0 < (st.group rg).max_spp)
    (hreg : (st.group rg).regen_ok = false) :
    (_add_annuals c st rg g_pr add_seeds).1 = 0 ∧
      (_add_annuals c st rg g_pr add_seeds).2.RGroup = st.RGroup ∧
      List.Forall₂
        (fun s s2 : SpeciesType => ∃ k : Nat,
          s2 = { s with seedprod := ((seedprod_push s.viable_yrs 0)^[k] s.seedprod) })
        st.Species (_add_annuals c st rg g_pr add_seeds).2.Species := by
  have hrefl : ∀ s : SpeciesType, ∃ k : Nat,
      s = { s with seedprod := ((seedprod_push s.viable_yrs 0)^[k] s.seedprod) } :=
    fun s => ⟨0, rfl⟩
  simp only [_add_annuals]
  split_ifs with hu
  · exact ⟨rfl, rfl, forall₂_refl_of _ hrefl _⟩
  · have inv := foldl_invariant
      (fun (a : State × ℚ) => a.2 = 0 ∧ a.1.RGroup = st.RGroup ∧
        List.Forall₂
          (fun s s2 : SpeciesType => ∃ k : Nat,
            s2 = { s with seedprod := ((seedprod_push s.viable_yrs 0)^[k] s.seedprod) })
          st.Species a.1.Species)
      (_add_annuals_spp c rg g_pr add_seeds)
      (fun b sp hb => by
        have hregb : (b.1.group rg).regen_ok = false := by
          simp only [State.group, hb.2.1]; exact hreg
        obtain ⟨h1, h2, h3⟩ := _add_annuals_spp_no_regen c rg g_pr add_seeds hd0 hd1 b sp hregb
        refine ⟨h1.trans hb.1, h2.trans hb.2.1, ?_⟩
        rcases h3 with h3 | h3
        · rw [h3]; exact hb.2.2
        · rw [h3]
          apply forall₂_modify_right _ _ _ _ _ _ hb.2.2
          rintro a b2 ⟨k, rfl⟩
          exact ⟨k + 1, by simp only [Function.iterate_succ_apply']⟩)
      (ForEachGroupSpp (st.group rg)) (st, 0) ⟨rfl, rfl, forall₂_refl_of _ hrefl _⟩
    refine ⟨?_, inv.2.1, inv.2.2⟩
    rw [inv.1]
    simp

/-- Witness of `add_annuals_no_regen`: `exAnnual` with regeneration disallowed. -/
theorem add_annuals_no_regen_witness :
    (_add_annuals exCtx (exAnnual.modGroup 0 (fun g => { g with regen_ok := false })) 0 1 true).1
      = 0 :=
  (add_annuals_no_regen exCtx (exAnnual.modGroup 0 (fun g => { g with regen_ok := false })) 0 1
    true (by norm_num [exCtx]) (by norm_num [exCtx]) (by decide!) (by decide!)).1

/-! ### Ample years -/

theorem resPart_base_ample (d : ℚ) (g : GroupType) (hg : ¬ GT d g.pr 1) (l : List IndivType) :
    ∀ rem : ℚ, (resPart_base d g rem l).1 = l.map (fun ndv =>
      { ndv with res_required := (ndv.relsize / (g.max_spp : ℚ)) / g.max_density,
                 res_avail := ndv.grp_res_prop * g.res_avail }) := by
  induction l with
  | nil => intro rem; rfl
  | cons a t ih =>
    intro rem
    simp only [resPart_base, hg, if_false, List.map_cons, ih]

/-- C11, refuted as stated: in `exDrought` (no precipitation) the perennial group requires
1 and has 0, so `rgroup_PartResources` gives it the PR 0; both individuals have an
up-to-date `grp_res_prop`, and after `rgroup_ResPartIndiv` each has `res_avail = 0` below
its requirement and the PR 100. -/
theorem ample_year_counterexample :
    (rgroup_PartResources exCtx exDrought).RGroup.map
        (fun g => (g.max_age, g.est_count, g.res_required, g.res_avail, g.pr))
        = [(5, 1, 1, 0, 0)] ∧
      (rgroup_PartResources exCtx exDrought).Species.map (fun s => s.IndvHead.map
        (fun x => (x.relsize, x.grp_res_prop, x.res_required, x.res_avail, x.pr)))
        = [[(1 / 4, 1 / 4, 1 / 4, 0, 100), (3 / 4, 3 / 4, 3 / 4, 0, 100)]] := by
  refine ⟨by decide!, by decide!⟩

/-- The ample branch on the array that `rgroup_ResPartIndiv` builds for a group with a
positive `res_avail`, a PR that is the quotient `res_required / res_avail` and at most 1,
a requirement that matches the sizes of its individuals, no use of extra resource, and
individuals of non-negative size whose `grp_res_prop` is their share of the summed sizes:
every individual gets at least what it requires, its PR is at most 1 when what it gets
exceeds zero by more than the tolerance, and 100 otherwise. -/
theorem ample_year_array (c : Ctx) (s : State) (rg : Nat)
    (hpr1 : (s.group rg).pr ≤ 1) (hA : 0 < (s.group rg).res_avail)
    (hprdef : (s.group rg).pr = (s.group rg).res_required / (s.group rg).res_avail)
    (hreq : (s.group rg).res_required =
      (((RGroup_GetIndivs s rg SortKind.SORT_0).map (fun p => p.2.relsize)).sum
        / ((s.group rg).max_spp : ℚ)) / (s.group rg).max_density)
    (hx : (s.group rg).use_extra_res = false)
    (hden : 0 < (s.group rg).max_density) (hspp : 0 < (s.group rg).max_spp)
    (hsum : 0 < ((RGroup_GetIndivs s rg SortKind.SORT_0).map (fun p => p.2.relsize)).sum)
    (hsz : ∀ p ∈ RGroup_GetIndivs s rg SortKind.SORT_0, 0 ≤ p.2.relsize ∧
      p.2.grp_res_prop = p.2.relsize /
        ((RGroup_GetIndivs s rg SortKind.SORT_0).map (fun p => p.2.relsize)).sum) :
    ∀ x ∈ resPartIndiv_array c s rg,
      x.res_required ≤ x.res_avail ∧ (GT c.delta x.res_avail 0 → x.pr ≤ 1) ∧
        (¬ GT c.delta x.res_avail 0 → x.pr = 100) := by
  intro x hxm
  have hng : ¬ GT c.delta (s.group rg).pr 1 := not_GT_of_le hpr1
  unfold resPartIndiv_array resPartIndiv_group at hxm
  simp only [resPart_base_ample c.delta (s.group rg) hng, List.map_map, List.mem_map,
    Function.comp] at hxm
  obtain ⟨p, hp, rfl⟩ := hxm
  have hp0 := (RGroup_GetIndivs_perm s rg SortKind.SORT_D).mem_iff.mp hp
  obtain ⟨h0, hprop⟩ := hsz p hp0
  have hm : (0 : ℚ) < ((s.group rg).max_spp : ℚ) := by exact_mod_cast hspp
  have hRA : (s.group rg).res_required ≤ (s.group rg).res_avail := by
    rw [hprdef, div_le_one hA] at hpr1
    exact hpr1
  have key : (p.2.relsize / ((s.group rg).max_spp : ℚ)) / (s.group rg).max_density
      ≤ p.2.grp_res_prop * (s.group rg).res_avail := by
    rw [hprop]
    have e : (p.2.relsize / ((s.group rg).max_spp : ℚ)) / (s.group rg).max_density
        = p.2.relsize /
            ((RGroup_GetIndivs s rg SortKind.SORT_0).map (fun p => p.2.relsize)).sum
          * (s.group rg).res_required := by
      rw [hreq]
      field_simp
    rw [e]
    exact mul_le_mul_of_nonneg_left hRA (div_nonneg h0 hsum.le)
  simp only [resPart_extra, hx, Bool.false_eq_true, if_false]
  refine ⟨key, ?_, ?_⟩
  · intro hgt
    rw [if_pos hgt]
    have hpos : 0 < p.2.grp_res_prop * (s.group rg).res_avail := hgt.1
    rw [div_le_one hpos]
    exact key
  · intro hgt
    rw [if_neg hgt]

/-! ### A year without plants -/

theorem modSpecies_seedprod_frame (st : State) (sp : Nat) (f : SpeciesType → SpeciesType)
    (hf : ∀ s, { f s with seedprod := [] } = { s with seedprod := [] }) :
    (st.modSpecies sp f).Species.map (fun s => { s with seedprod := [] })
      = st.Species.map (fun s => { s with seedprod := [] }) :=
  modify_map_id (fun s : SpeciesType => { s with seedprod := [] }) f hf st.Species sp

theorem _add_annuals_spp_no_seeds_species (c : Ctx) (rg : Nat) (g_pr : ℚ) (acc : State × ℚ)
    (sp : Nat) :
    (_add_annuals_spp c rg g_pr false acc sp).1.Species.map (fun s => { s with seedprod := [] })
      = acc.1.Species.map (fun s => { s with seedprod := [] }) := by
  simp only [_add_annuals_spp, Bool.not_false, Bool.true_and, Bool.false_eq_true,
    if_false, and_false, Bool.false_and]
  split_ifs <;>
    first
    | rfl
    | exact modSpecies_seedprod_frame _ sp _ (fun _ => rfl)

theorem _add_annuals_no_seeds_species (c : Ctx) (st : State) (rg : Nat) (g_pr : ℚ) :
    (_add_annuals c st rg g_pr false).2.Species.map (fun s => { s with seedprod := [] })
      = st.Species.map (fun s => { s with seedprod := [] }) := by
  simp only [_add_annuals]
  split_ifs
  · rfl
  · exact foldl_invariant
      (fun (a : State × ℚ) => a.1.Species.map (fun s => { s with seedprod := [] })
        = st.Species.map (fun s => { s with seedprod := [] }))
      (_add_annuals_spp c rg g_pr false)
      (fun b a hb => (_add_annuals_spp_no_seeds_species c rg g_pr b a).trans hb) _ (st, 0) rfl

theorem modGroup_proj_frame {β : Type} (proj : GroupType → β) (st : State) (rg : Nat)
    (f : GroupType → GroupType) (hf : ∀ g, proj (f g) = proj g) :
    (st.modGroup rg f).RGroup.map proj = st.RGroup.map proj :=
  modify_map_id proj f hf st.RGroup rg

theorem partres_pass1_frame (c : Ctx) (acc : State × PartAcc) (rg : Nat) :
    (partres_pass1 c acc rg).1.RGroup.map
        (fun g => { g with res_required := 0, res_avail := 0, relsize := 0 })
      = acc.1.RGroup.map (fun g => { g with res_required := 0, res_avail := 0, relsize := 0 }) ∧
    (partres_pass1 c acc rg).1.Species.map (fun s => { s with seedprod := [] })
      = acc.1.Species.map (fun s => { s with seedprod := [] }) := by
  by_cases h : (acc.1.group rg).max_age = 1
  · simp only [partres_pass1, h, if_true]
    constructor
    · refine Eq.trans (modGroup_proj_frame _ _ rg _ (fun _ => rfl)) ?_
      refine Eq.trans (modGroup_proj_frame _ _ rg _ (fun _ => rfl)) ?_
      rw [_add_annuals_no_seeds]
    · exact _add_annuals_no_seeds_species c acc.1 rg 1
  · simp only [partres_pass1, h, if_false]
    exact ⟨modGroup_proj_frame _ _ rg _ (fun _ => rfl), rfl⟩

/-- C12, refuted as stated. In `exBare` the only group has relative size 0 and stale
resource fields (`res_required = 1`, `res_avail = 1/2`); `rgroup_PartResources` rewrites
both to 0. In `exAnnual` the only group is annual with relative size 0 and a seed bank
`[5, 3]`; `rgroup_PartResources` gives it size and resource and pushes the seed history to
`[5, 5]`. -/
theorem part_resources_noop_counterexample :
    exBare.RGroup.map (fun g => (g.relsize, g.res_required, g.res_avail)) = [(0, 1, 1 / 2)] ∧
      (rgroup_PartResources exCtx exBare).RGroup.map
        (fun g => (g.relsize, g.res_required, g.res_avail)) = [(0, 0, 0)] ∧
      exAnnual.RGroup.map (fun g => (g.max_age, g.relsize, resFields g))
        = [(1, 0, 0, 0, 0, 0)] ∧
      exAnnual.Species.map (fun s => s.seedprod) = [[5, 3]] ∧
      (rgroup_PartResources exCtx exAnnual).RGroup.map (fun g => (g.max_age, g.relsize, resFields g))
        = [(1, 1, 1, 1, 0, 1)] ∧
      (rgroup_PartResources exCtx exAnnual).Species.map (fun s => s.seedprod) = [[5, 5]] := by
  refine ⟨by decide!, by decide!, by decide!, by decide!, by decide!, by decide!⟩

/-- C12, amended: when after the first loop of `rgroup_PartResources` no group has a
relative size above zero (the flag `noplants` is still true), the function returns the
state of the first loop: every group is as before except for `res_required`, `res_avail`
and (annual groups) `relsize`, so `res_extra` and PR are unchanged, and every species is
as before except for its seed history, so every individual is unchanged. -/
theorem part_resources_noplants (c : Ctx) (st : State)
    (hp : (partres_base c st).2.noplants = true) :
    rgroup_PartResources c st = (partres_base c st).1 ∧
      (rgroup_PartResources c st).RGroup.map
          (fun g => { g with res_required := 0, res_avail := 0, relsize := 0 })
        = st.RGroup.map (fun g => { g with res_required := 0, res_avail := 0, relsize := 0 }) ∧
      (rgroup_PartResources c st).Species.map (fun s => { s with seedprod := [] })
        = st.Species.map (fun s => { s with seedprod := [] }) := by
  have h1 : rgroup_PartResources c st = (partres_base c st).1 := by
    simp only [rgroup_PartResources, hp, if_true]
  rw [h1]
  refine ⟨rfl, ?_⟩
  unfold partres_base
  refine foldl_invariant
    (fun (a : State × PartAcc) =>
      a.1.RGroup.map (fun g => { g with res_required := 0, res_avail := 0, relsize := 0 })
        = st.RGroup.map (fun g => { g with res_required := 0, res_avail := 0, relsize := 0 }) ∧
      a.1.Species.map (fun s => { s with seedprod := [] })
        = st.Species.map (fun s => { s with seedprod := [] }))
    (partres_pass1 c)
    (fun b a hb => ⟨(partres_pass1_frame c b a).1.trans hb.1,
      (partres_pass1_frame c b a).2.trans hb.2⟩)
    (ForEachGroup st) _ ?_
  exact ⟨rfl, rfl⟩

/-- Witness of `part_resources_noplants` at `exBare`. -/
theorem part_resources_noplants_witness :
    (partres_base exCtx exBare).2.noplants = true ∧
      rgroup_PartResources exCtx exBare = (partres_base exCtx exBare).1 :=
  ⟨by decide!, (part_resources_noplants exCtx exBare (by decide!)).1⟩

/-! ### Extirpation -/

/-- C20, the code at the failing input. In `exAnnualExtirp` an annual group with a seed
bank is to be extirpated in year 3. In year 3 its species is established with size 1. At
the end of year 3 `mort_EndOfYear` extirpates the group: flag set, nothing established,
size 0, `seedling_estab_prob` 0; the seed history is still `[5, 5]`. In year 4
`rgroup_Establish` sets `regen_ok` and `rgroup_PartResources` establishes the species
again with size 1, the flag `extirpated` still being set. -/
theorem extirpated_annuals_regenerate :
    exYear3.RGroup.map (fun g => (g.extirpated, g.est_count, g.est_spp, g.relsize))
        = [(false, 1, [0], 1)] ∧
      exYear3.Species.map (fun s => (s.relsize, s.seedling_estab_prob, s.seedprod))
        = [(1, 1 / 4, [5, 5])] ∧
      exYear3End.RGroup.map (fun g => (g.extirpated, g.est_count, g.est_spp, g.relsize))
        = [(true, 0, [], 0)] ∧
      exYear3End.Species.map (fun s => (s.relsize, s.seedling_estab_prob, s.seedprod))
        = [(0, 0, [5, 5])] ∧
      (rgroup_Establish exOps exCtx 0 4 exYear3End).RGroup.map
        (fun g => (g.extirpated, g.regen_ok))
        = [(true, true)] ∧
      exYear4.RGroup.map (fun g => (g.extirpated, g.est_count, g.est_spp, g.relsize))
        = [(true, 1, [0], 1)] ∧
      exYear4.Species.map (fun s => (s.relsize, s.seedling_estab_prob, s.seedprod))
        = [(1, 0, [5, 5])] := by
  refine ⟨by decide!, by decide!, by decide!, by decide!, by decide!, by decide!, by decide!⟩

/-! ### Plot reset -/

theorem modify_eq_self {α : Type} (f : α → α) :
    ∀ (l : List α) (n : Nat), (∀ a, l[n]? = some a → f a = a) → l.modify f n = l := by
  intro l
  induction l with
  | nil => intro n _; simp
  | cons a t ih =>
    intro n h
    cases n with
    | zero => simp [h a (by simp)]
    | succ n =>
      simp only [List.modify_succ_cons]
      rw [ih n (fun b hb => h b (by simpa using hb))]

theorem take_eraseIdx {α : Type} :
    ∀ (l : List α) (n i : Nat), i < n → (l.eraseIdx i).take (n - 1) = (l.take n).eraseIdx i := by
  intro l
  induction l with
  | nil => intro n i _; simp
  | cons a t ih =>
    intro n i h
    cases n with
    | zero => omega
    | succ n =>
      cases i with
      | zero => simp
      | succ i =>
        have hn : 0 < n := by omega
        obtain ⟨m, rfl⟩ : ∃ m, n = m + 1 := ⟨n - 1, by omega⟩
        simp only [List.eraseIdx_cons_succ, Nat.add_sub_cancel, List.take_succ_cons]
        rw [← ih (m + 1) i (by omega)]
        simp

theorem modGroup_group_ne (s : State) (rg i : Nat) (f : GroupType → GroupType)
    (h : rg ≠ i) : (s.modGroup rg f).group i = s.group i := by
  simp [State.modGroup, State.group, List.getD_eq_getElem?_getD, List.getElem?_modify, h]

theorem species_default_of_not_lt (s : State) (sp : Nat) (h : ¬ sp < s.Species.length) :
    s.species sp = default := by
  simp [State.species, List.getD_eq_getElem?_getD, List.getElem?_eq_none (not_lt.mp h)]

theorem modSpecies_length (s : State) (sp : Nat) (f : SpeciesType → SpeciesType) :
    (s.modSpecies sp f).Species.length = s.Species.length := by
  simp [State.modSpecies]

theorem modGroup_length (s : State) (rg : Nat) (f : GroupType → GroupType) :
    (s.modGroup rg f).RGroup.length = s.RGroup.length := by
  simp [State.modGroup]

theorem modSpecies_eq_self (s : State) (sp : Nat) (f : SpeciesType → SpeciesType)
    (h : f (s.species sp) = s.species sp) : s.modSpecies sp f = s := by
  have : s.Species.modify f sp = s.Species := by
    apply modify_eq_self
    intro a ha
    have : s.species sp = a := by
      simp [State.species, List.getD_eq_getElem?_getD, ha]
    rw [← this]; exact h
  simp only [State.modSpecies, this]

theorem modGroup_eq_self (s : State) (rg : Nat) (f : GroupType → GroupType)
    (h : f (s.group rg) = s.group rg) : s.modGroup rg f = s := by
  have : s.RGroup.modify f rg = s.RGroup := by
    apply modify_eq_self
    intro a ha
    have : s.group rg = a := by
      simp [State.group, List.getD_eq_getElem?_getD, ha]
    rw [← this]; exact h
  simp only [State.modGroup, this]

theorem sameButIndivs_refl (a : SpeciesType) : sameButIndivs a a := ⟨rfl, rfl⟩

theorem sameButIndivs_trans {a b d : SpeciesType} (h1 : sameButIndivs a b)
    (h2 : sameButIndivs b d) : sameButIndivs a d :=
  ⟨h2.1.trans h1.1, h2.2.trans h1.2⟩

theorem sameButIndivs_nil {a b : SpeciesType} (h : sameButIndivs a b)
    (ha : a.IndvHead = []) : b = a := by
  have hb : b.IndvHead = [] := by
    apply List.eq_nil_of_length_eq_zero
    rw [h.1, ha]; rfl
  have e1 : b = { b with IndvHead := [] } := by rw [← hb]
  have e2 : a = { a with IndvHead := [] } := by rw [← ha]
  rw [e1, e2]
  exact h.2

theorem sameButIndivs_fields {a b : SpeciesType} (h : sameButIndivs a b) :
    b.use_me = a.use_me ∧ b.res_grp = a.res_grp ∧ b.max_age = a.max_age ∧
      b.relsize = a.relsize ∧ b.est_count = a.est_count ∧ b.kills = a.kills ∧
      b.seedling_estab_prob = a.seedling_estab_prob ∧
      b.seedling_estab_prob_old = a.seedling_estab_prob_old := by
  have h1 := congrArg SpeciesType.use_me h.2
  have h2 := congrArg SpeciesType.res_grp h.2
  have h3 := congrArg SpeciesType.max_age h.2
  have h4 := congrArg SpeciesType.relsize h.2
  have h5 := congrArg SpeciesType.est_count h.2
  have h6 := congrArg SpeciesType.kills h.2
  have h7 := congrArg SpeciesType.seedling_estab_prob h.2
  have h8 := congrArg SpeciesType.seedling_estab_prob_old h.2
  exact ⟨h1, h2, h3, h4, h5, h6, h7, h8⟩

theorem sameButEst_refl (a : GroupType) : sameButEst a a := rfl

theorem sameButEst_trans {a b d : GroupType} (h1 : sameButEst a b) (h2 : sameButEst b d) :
    sameButEst a d := Eq.trans h2 h1

theorem setIndiv_species (s : State) (r : IndivRef) (v : IndivType) (j : Nat) :
    sameButIndivs (s.species j) ((s.setIndiv r v).species j) := by
  unfold State.setIndiv
  by_cases hj : r.sp = j
  · subst hj
    by_cases hv : r.sp < s.Species.length
    · rw [modSpecies_species_self _ _ _ hv]
      exact ⟨by simp, rfl⟩
    · rw [species_default_of_not_lt s _ hv,
        species_default_of_not_lt _ _ (by rw [modSpecies_length]; exact hv)]
      exact sameButIndivs_refl _
  · rw [modSpecies_species_ne _ _ _ _ hj]
    exact sameButIndivs_refl _

theorem foldl_setIndiv_species {α : Type} (l : List α) (r : α → IndivRef) (v : α → IndivType)
    (st : State) :
    (l.foldl (fun s2 p => s2.setIndiv (r p) (v p)) st).Species.length = st.Species.length ∧
      ∀ j, sameButIndivs (st.species j)
        ((l.foldl (fun s2 p => s2.setIndiv (r p) (v p)) st).species j) :=
  foldl_invariant
    (fun s => s.Species.length = st.Species.length ∧
      ∀ j, sameButIndivs (st.species j) (s.species j))
    (fun s2 p => s2.setIndiv (r p) (v p))
    (fun b a hb => ⟨(modSpecies_length _ _ _).trans hb.1,
      fun j => sameButIndivs_trans (hb.2 j) (setIndiv_species b (r a) (v a) j)⟩)
    l st ⟨rfl, fun _ => sameButIndivs_refl _⟩

theorem group_congr {a b : State} (h : a.RGroup = b.RGroup) (G : Nat) :
    a.group G = b.group G := by
  simp only [State.group, h]

theorem RGroup_Update_Newsize_mid (c : Ctx) (s : State) (rg : Nat) :
    ∃ st2 : State,
      RGroup_Update_Newsize c s rg = st2.modGroup rg
        (fun g => if ZRO (20 * c.delta) g.relsize then { g with relsize := 0 } else g) ∧
      st2.RGroup = (s.modGroup rg (fun g => { g with relsize :=
        ((ForEachEstSpp (s.group rg)).map (fun sp => (s.species sp).relsize)).sum
          / (g.max_spp : ℚ) })).RGroup ∧
      st2.Species.length = s.Species.length ∧
      ∀ j, sameButIndivs (s.species j) (st2.species j) := by
  generalize hsum :
    ((ForEachEstSpp (s.group rg)).map (fun sp => (s.species sp).relsize)).sum = sumsize
  generalize hst1 : s.modGroup rg (fun g => { g with relsize := sumsize / (g.max_spp : ℚ) })
    = st1
  have hsp : ∀ j, st1.species j = s.species j := by
    intro j; rw [← hst1]; rfl
  have hlen : st1.Species.length = s.Species.length := by
    rw [← hst1]; rfl
  by_cases h : (st1.group rg).max_age ≠ 1
  · refine ⟨(RGroup_GetIndivs st1 rg SortKind.SORT_0).foldl
        (fun s2 p => s2.setIndiv p.1 { p.2 with grp_res_prop := p.2.relsize / sumsize }) st1,
      ?_, ?_, ?_, ?_⟩
    · simp only [RGroup_Update_Newsize, hsum, hst1]
      rw [if_pos h]
    · exact (foldl_setIndiv_RGroup _ _ _ _).1
    · exact ((foldl_setIndiv_species _ _ _ _).1).trans hlen
    · intro j
      rw [← hsp j]
      exact (foldl_setIndiv_species _ _ _ _).2 j
  · refine ⟨st1, ?_, rfl, hlen, fun j => by rw [hsp j]; exact sameButIndivs_refl _⟩
    simp only [RGroup_Update_Newsize, hsum, hst1]
    rw [if_neg h]

/-- What `RGroup_Update_Newsize` does to the global arrays: species change at most in the
content of their individuals; only group `rg` changes, and only in its relative size,
which becomes 0 when every established species of the group has size 0. -/
theorem RGroup_Update_Newsize_effect (c : Ctx) (s : State) (rg : Nat) :
    (RGroup_Update_Newsize c s rg).Species.length = s.Species.length ∧
      (∀ j, sameButIndivs (s.species j) ((RGroup_Update_Newsize c s rg).species j)) ∧
      (RGroup_Update_Newsize c s rg).RGroup.length = s.RGroup.length ∧
      (∀ G, G ≠ rg → (RGroup_Update_Newsize c s rg).group G = s.group G) ∧
      (∀ G, sameButEst (s.group G) ((RGroup_Update_Newsize c s rg).group G)) ∧
      ((RGroup_Update_Newsize c s rg).group rg).est_spp = (s.group rg).est_spp ∧
      ((RGroup_Update_Newsize c s rg).group rg).est_count = (s.group rg).est_count ∧
      ((∀ e ∈ ForEachEstSpp (s.group rg), (s.species e).relsize = 0) →
        rg < s.RGroup.length → ((RGroup_Update_Newsize c s rg).group rg).relsize = 0) := by
  obtain ⟨st2, hres, hg2, hl2, hs2⟩ := RGroup_Update_Newsize_mid c s rg
  rw [hres]
  have hlen : (st2.modGroup rg
      (fun g => if ZRO (20 * c.delta) g.relsize then { g with relsize := 0 } else g)
        ).RGroup.length = s.RGroup.length := by
    rw [modGroup_length, hg2, modGroup_length]
  have hne : ∀ G, G ≠ rg → (st2.modGroup rg
      (fun g => if ZRO (20 * c.delta) g.relsize then { g with relsize := 0 } else g)
        ).group G = s.group G := by
    intro G hG
    rw [modGroup_group_ne _ _ _ _ (Ne.symm hG), group_congr hg2,
      modGroup_group_ne _ _ _ _ (Ne.symm hG)]
  have hself : rg < s.RGroup.length → (st2.modGroup rg
      (fun g => if ZRO (20 * c.delta) g.relsize then { g with relsize := 0 } else g)
        ).group rg =
      (fun g : GroupType => if ZRO (20 * c.delta) g.relsize then { g with relsize := 0 } else g)
        { s.group rg with relsize :=
          ((ForEachEstSpp (s.group rg)).map (fun sp => (s.species sp).relsize)).sum
            / ((s.group rg).max_spp : ℚ) } := by
    intro hv
    rw [modGroup_group_self _ _ _ (by rw [hg2, modGroup_length]; exact hv), group_congr hg2,
      modGroup_group_self _ _ _ hv]
  have hinv : ¬ rg < s.RGroup.length → (st2.modGroup rg
      (fun g => if ZRO (20 * c.delta) g.relsize then { g with relsize := 0 } else g)
        ).group rg = s.group rg := by
    intro hv
    rw [group_default_of_not_lt _ _ (by rw [hlen]; exact hv), group_default_of_not_lt _ _ hv]
  refine ⟨hl2, hs2, hlen, hne, ?_, ?_, ?_, ?_⟩
  · intro G
    by_cases hG : G = rg
    · subst hG
      by_cases hv : G < s.RGroup.length
      · rw [hself hv]
        simp only
        split_ifs <;> rfl
      · rw [hinv hv]; exact sameButEst_refl _
    · rw [hne G hG]; exact sameButEst_refl _
  · by_cases hv : rg < s.RGroup.length
    · rw [hself hv]
      simp only
      split_ifs <;> rfl
    · rw [hinv hv]
  · by_cases hv : rg < s.RGroup.length
    · rw [hself hv]
      simp only
      split_ifs <;> rfl
    · rw [hinv hv]
  · intro hz hv
    rw [hself hv]
    have hsum : ((ForEachEstSpp (s.group rg)).map (fun sp => (s.species sp).relsize)).sum
        = 0 := by
      apply List.sum_eq_zero
      intro x hx
      obtain ⟨e, he, rfl⟩ := List.mem_map.mp hx
      exact hz e he
    simp only [hsum, zero_div]
    split_ifs <;> rfl

theorem ForEachEstSpp_drop (g : GroupType) (sp : Nat) :
    ForEachEstSpp (if sp ∈ ForEachEstSpp g then
        { g with est_spp := g.est_spp.eraseIdx ((ForEachEstSpp g).indexOf sp),
                 est_count := g.est_count - 1 }
      else g) = (ForEachEstSpp g).erase sp := by
  split_ifs with h
  · have hi : (ForEachEstSpp g).indexOf sp < g.est_count := by
      have h1 := List.indexOf_lt_length.mpr h
      have h2 : (ForEachEstSpp g).length ≤ g.est_count := by
        simp only [ForEachEstSpp, List.length_take]; exact min_le_left _ _
      omega
    show (g.est_spp.eraseIdx ((ForEachEstSpp g).indexOf sp)).take (g.est_count - 1) = _
    rw [take_eraseIdx _ _ _ hi]
    exact List.eraseIdx_indexOf_eq_erase sp (ForEachEstSpp g)
  · rw [List.erase_of_not_mem h]

theorem Species_Kill_remove_effect (c : Ctx) (s : State) (sp : Nat) (hv : sp < s.Species.length) :
    (Species_Kill_remove c s sp).Species.length = s.Species.length ∧
      (Species_Kill_remove c s sp).RGroup.length = s.RGroup.length ∧
      (∀ j, j ≠ sp → sameButIndivs (s.species j) ((Species_Kill_remove c s sp).species j)) ∧
      (Species_Kill_remove c s sp).species sp
        = { s.species sp with IndvHead := [], est_count := 0, relsize := 0 } ∧
      (∀ G, G ≠ (s.species sp).res_grp → (Species_Kill_remove c s sp).group G = s.group G) ∧
      (∀ G, sameButEst (s.group G) ((Species_Kill_remove c s sp).group G)) ∧
      ForEachEstSpp ((Species_Kill_remove c s sp).group (s.species sp).res_grp)
        = (ForEachEstSpp (s.group (s.species sp).res_grp)).erase sp ∧
      ((∀ e ∈ ForEachEstSpp (s.group (s.species sp).res_grp), e ≠ sp →
          (s.species e).relsize = 0) →
        (s.species sp).res_grp < s.RGroup.length →
        ((Species_Kill_remove c s sp).group (s.species sp).res_grp).relsize = 0) := by
  generalize ha : s.modSpecies sp (fun x => { x with IndvHead := [], est_count := 0 }) = a
  have ha_sp : a.species sp = { s.species sp with IndvHead := [], est_count := 0 } := by
    rw [← ha, modSpecies_species_self _ _ _ hv]
  have ha_len : a.Species.length = s.Species.length := by rw [← ha, modSpecies_length]
  have ha_ne : ∀ j, j ≠ sp → a.species j = s.species j := by
    intro j hj; rw [← ha, modSpecies_species_ne _ _ _ _ (Ne.symm hj)]
  have ha_g : a.RGroup = s.RGroup := by rw [← ha]; rfl
  generalize hb : a.modSpecies sp
    (fun x => { x with relsize := x.relsize + -(a.species sp).relsize }) = b
  have hb_sp : b.species sp
      = { s.species sp with IndvHead := [], est_count := 0, relsize := 0 } := by
    rw [← hb, modSpecies_species_self _ _ _ (by rw [ha_len]; exact hv), ha_sp]
    simp only [add_neg_cancel]
  have hb_len : b.Species.length = s.Species.length := by
    rw [← hb, modSpecies_length, ha_len]
  have hb_ne : ∀ j, j ≠ sp → b.species j = s.species j := by
    intro j hj; rw [← hb, modSpecies_species_ne _ _ _ _ (Ne.symm hj), ha_ne j hj]
  have hb_g : b.RGroup = s.RGroup := by rw [← hb]; exact ha_g
  have hb_grp : (b.species sp).res_grp = (s.species sp).res_grp := by rw [hb_sp]
  obtain ⟨u1, u2, u3, u4, u5, u6, u7, u8⟩ :=
    RGroup_Update_Newsize_effect c b (s.species sp).res_grp
  generalize hu : RGroup_Update_Newsize c b (s.species sp).res_grp = u at u1 u2 u3 u4 u5 u6 u7 u8
  have hu_sp : u.species sp = b.species sp :=
    sameButIndivs_nil (u2 sp) (by rw [hb_sp])
  have hK : Species_Kill_remove c s sp = u.modGroup (s.species sp).res_grp (fun g =>
      if sp ∈ ForEachEstSpp g then
        { g with est_spp := g.est_spp.eraseIdx ((ForEachEstSpp g).indexOf sp),
                 est_count := g.est_count - 1 }
      else g) := by
    simp only [Species_Kill_remove, Species_Update_Newsize, ha, hb, hb_grp, hu, rgroup_DropSpecies,
      hu_sp]
  rw [hK]
  have hgl : ∀ G, b.group G = s.group G := fun G => group_congr hb_g G
  have hself : (s.species sp).res_grp < s.RGroup.length →
      (u.modGroup (s.species sp).res_grp (fun g =>
        if sp ∈ ForEachEstSpp g then
          { g with est_spp := g.est_spp.eraseIdx ((ForEachEstSpp g).indexOf sp),
                   est_count := g.est_count - 1 }
        else g)).group (s.species sp).res_grp
      = (fun g : GroupType => if sp ∈ ForEachEstSpp g then
          { g with est_spp := g.est_spp.eraseIdx ((ForEachEstSpp g).indexOf sp),
                   est_count := g.est_count - 1 }
        else g) (u.group (s.species sp).res_grp) := by
    intro hG
    rw [modGroup_group_self _ _ _ (by rw [u3, hb_g]; exact hG)]
  have hinv : ¬ (s.species sp).res_grp < s.RGroup.length →
      (u.modGroup (s.species sp).res_grp (fun g =>
        if sp ∈ ForEachEstSpp g then
          { g with est_spp := g.est_spp.eraseIdx ((ForEachEstSpp g).indexOf sp),
                   est_count := g.est_count - 1 }
        else g)).group (s.species sp).res_grp = s.group (s.species sp).res_grp := by
    intro hG
    rw [group_default_of_not_lt _ _ (by rw [modGroup_length, u3, hb_g]; exact hG),
      group_default_of_not_lt _ _ hG]
  have hLu : ForEachEstSpp (u.group (s.species sp).res_grp)
      = ForEachEstSpp (s.group (s.species sp).res_grp) := by
    simp only [ForEachEstSpp, u6, u7, hgl]
  refine ⟨u1.trans hb_len, ?_, ?_, ?_, ?_, ?_, ?_, ?_⟩
  · rw [modGroup_length, u3, hb_g]
  · intro j hj
    have := u2 j
    rw [hb_ne j hj] at this
    exact this
  · show u.species sp = _
    rw [hu_sp, hb_sp]
  · intro G hG
    rw [modGroup_group_ne _ _ _ _ (Ne.symm hG), u4 G hG, hgl]
  · intro G
    by_cases hG : G = (s.species sp).res_grp
    · subst hG
      by_cases hval : (s.species sp).res_grp < s.RGroup.length
      · rw [hself hval]
        have h5 := u5 (s.species sp).res_grp
        rw [hgl] at h5
        refine sameButEst_trans h5 ?_
        simp only
        split_ifs <;> rfl
      · rw [hinv hval]; exact sameButEst_refl _
    · rw [modGroup_group_ne _ _ _ _ (Ne.symm hG), u4 G hG, hgl]
      exact sameButEst_refl _
  · by_cases hval : (s.species sp).res_grp < s.RGroup.length
    · rw [hself hval]
      simp only
      rw [ForEachEstSpp_drop, hLu]
    · rw [hinv hval, group_default_of_not_lt _ _ hval]
      rfl
  · intro hz hval
    rw [hself hval]
    have h0 : (u.group (s.species sp).res_grp).relsize = 0 := by
      apply u8 _ (by rw [hb_g]; exact hval)
      intro e he
      rw [hgl] at he
      by_cases hes : e = sp
      · rw [hes, hb_sp]
      · rw [hb_ne e hes]; exact hz e he hes
    simp only
    split_ifs
    · exact h0
    · exact h0

theorem map_zero_modify (f : Nat → Nat) (l : List Nat) (n : Nat) :
    (l.modify f n).map (fun _ => 0) = l.map (fun _ => 0) := by
  rw [List.map_const', List.map_const', List.length_modify]

theorem species_Update_Kills_effect (s : State) (sp age : Nat) :
    (species_Update_Kills s sp age).Species.length = s.Species.length ∧
      (species_Update_Kills s sp age).RGroup.length = s.RGroup.length ∧
      (∀ j, j ≠ sp → (species_Update_Kills s sp age).species j = s.species j) ∧
      ({ (species_Update_Kills s sp age).species sp with kills := [] }
        = { s.species sp with kills := [] }) ∧
      (∀ G, G ≠ (s.species sp).res_grp → (species_Update_Kills s sp age).group G = s.group G) ∧
      (∀ G, { (species_Update_Kills s sp age).group G with
                kills := ((species_Update_Kills s sp age).group G).kills.map (fun _ => 0) }
          = { s.group G with kills := (s.group G).kills.map (fun _ => 0) }) := by
  unfold species_Update_Kills
  refine ⟨?_, ?_, ?_, ?_, ?_, ?_⟩
  · exact modSpecies_length _ _ _
  · exact modGroup_length _ _ _
  · intro j hj
    show (s.modSpecies sp _).species j = _
    rw [modSpecies_species_ne _ _ _ _ (Ne.symm hj)]
  · show { (s.modSpecies sp _).species sp with kills := [] } = _
    by_cases hv : sp < s.Species.length
    · rw [modSpecies_species_self _ _ _ hv]
    · rw [species_default_of_not_lt s _ hv,
        species_default_of_not_lt _ _ (by rw [modSpecies_length]; exact hv)]
  · intro G hG
    rw [modGroup_group_ne _ _ _ _ (Ne.symm hG)]
    rfl
  · intro G
    by_cases hG : (s.species sp).res_grp = G
    · subst hG
      by_cases hv : (s.species sp).res_grp < s.RGroup.length
      · rw [modGroup_group_self _ _ _ (by exact hv)]
        show { s.group (s.species sp).res_grp with
            kills := ((s.group (s.species sp).res_grp).kills.modify incrIntUS age).map
              (fun _ => 0) } = _
        rw [map_zero_modify]
      · rw [group_default_of_not_lt _ _ (by rw [modGroup_length]; exact hv)]
        have e : s.group (s.species sp).res_grp = default := group_default_of_not_lt _ _ hv
        rw [e]
    · rw [modGroup_group_ne _ _ _ _ hG]
      rfl

/-- What recording the kills of the individuals of species `sp` changes: the counts in the
kill histograms of the species and of its group, nothing else. -/
theorem record_kills_effect (s : State) (sp : Nat) (l : List IndivType) :
    (l.foldl (fun t ndv => species_Update_Kills t sp ndv.age) s).Species.length
        = s.Species.length ∧
      (l.foldl (fun t ndv => species_Update_Kills t sp ndv.age) s).RGroup.length
        = s.RGroup.length ∧
      (∀ j, j ≠ sp →
        (l.foldl (fun t ndv => species_Update_Kills t sp ndv.age) s).species j
          = s.species j) ∧
      ({ (l.foldl (fun t ndv => species_Update_Kills t sp ndv.age) s).species sp with
            kills := [] } = { s.species sp with kills := [] }) ∧
      (∀ G, G ≠ (s.species sp).res_grp →
        (l.foldl (fun t ndv => species_Update_Kills t sp ndv.age) s).group G = s.group G) ∧
      (∀ G, { (l.foldl (fun t ndv => species_Update_Kills t sp ndv.age) s).group G with
                kills := ((l.foldl (fun t ndv => species_Update_Kills t sp ndv.age) s).group
                  G).kills.map (fun _ => 0) }
          = { s.group G with kills := (s.group G).kills.map (fun _ => 0) }) := by
  refine foldl_invariant
    (fun t : State => t.Species.length = s.Species.length ∧
      t.RGroup.length = s.RGroup.length ∧
      (∀ j, j ≠ sp → t.species j = s.species j) ∧
      ({ t.species sp with kills := [] } = { s.species sp with kills := [] }) ∧
      (∀ G, G ≠ (s.species sp).res_grp → t.group G = s.group G) ∧
      (∀ G, { t.group G with kills := (t.group G).kills.map (fun _ => 0) }
          = { s.group G with kills := (s.group G).kills.map (fun _ => 0) }))
    (fun t ndv => species_Update_Kills t sp ndv.age) ?_ l s
    ⟨rfl, rfl, fun _ _ => rfl, rfl, fun _ _ => rfl, fun _ => rfl⟩
  intro b a hb
  obtain ⟨b1, b2, b3, b4, b5, b6⟩ := hb
  obtain ⟨e1, e2, e3, e4, e5, e6⟩ := species_Update_Kills_effect b sp a.age
  have hgrp : (b.species sp).res_grp = (s.species sp).res_grp := by
    have := congrArg SpeciesType.res_grp b4
    exact this
  refine ⟨e1.trans b1, e2.trans b2, fun j hj => (e3 j hj).trans (b3 j hj), e4.trans b4, ?_,
    fun G => (e6 G).trans (b6 G)⟩
  intro G hG
  rw [e5 G (by rw [hgrp]; exact hG)]
  exact b5 G hG
theorem sameButEstKills_refl (a : GroupType) : sameButEstKills a a := rfl

theorem sameButEstKills_trans {a b d : GroupType} (h1 : sameButEstKills a b)
    (h2 : sameButEstKills b d) : sameButEstKills a d := Eq.trans h2 h1

theorem sameButEstKills_fields {a b : GroupType} (h : sameButEstKills a b) :
    b.use_me = a.use_me ∧ b.max_age = a.max_age ∧ b.kills.length = a.kills.length := by
  have h1 := congrArg GroupType.use_me h
  have h2 := congrArg GroupType.max_age h
  have h3 := congrArg (fun g : GroupType => g.kills.length) h
  simp only [List.length_map] at h3
  exact ⟨h1, h2, h3⟩

theorem Species_Kill_effect (c : Ctx) (s : State) (sp : Nat) (hv : sp < s.Species.length) :
    (Species_Kill c s sp).Species.length = s.Species.length ∧
      (Species_Kill c s sp).RGroup.length = s.RGroup.length ∧
      (∀ j, j ≠ sp → sameButIndivs (s.species j) ((Species_Kill c s sp).species j)) ∧
      ({ (Species_Kill c s sp).species sp with kills := [] }
        = { s.species sp with IndvHead := [], est_count := 0, relsize := 0, kills := [] }) ∧
      (∀ G, G ≠ (s.species sp).res_grp → (Species_Kill c s sp).group G = s.group G) ∧
      (∀ G, sameButEstKills (s.group G) ((Species_Kill c s sp).group G)) ∧
      ForEachEstSpp ((Species_Kill c s sp).group (s.species sp).res_grp)
        = (ForEachEstSpp (s.group (s.species sp).res_grp)).erase sp ∧
      ((∀ e ∈ ForEachEstSpp (s.group (s.species sp).res_grp), e ≠ sp →
          (s.species e).relsize = 0) →
        (s.species sp).res_grp < s.RGroup.length →
        ((Species_Kill c s sp).group (s.species sp).res_grp).relsize = 0) := by
  obtain ⟨r1, r2, r3, r4, r5, r6⟩ := record_kills_effect s sp (s.species sp).IndvHead
  generalize hr : (s.species sp).IndvHead.foldl
    (fun t ndv => species_Update_Kills t sp ndv.age) s = r at r1 r2 r3 r4 r5 r6
  have hK : Species_Kill c s sp = Species_Kill_remove c r sp := by
    unfold Species_Kill; rw [hr]
  rw [hK]
  have hgrp : (r.species sp).res_grp = (s.species sp).res_grp := by
    have := congrArg SpeciesType.res_grp r4
    exact this
  have hest : ∀ G, ForEachEstSpp (r.group G) = ForEachEstSpp (s.group G) := by
    intro G
    have h1 := congrArg GroupType.est_spp (r6 G)
    have h2 := congrArg GroupType.est_count (r6 G)
    simp only at h1 h2
    simp only [ForEachEstSpp, h1, h2]
  obtain ⟨k1, k2, k3, k4, k5, k6, k7, k8⟩ :=
    Species_Kill_remove_effect c r sp (by rw [r1]; exact hv)
  rw [hgrp] at k5 k7 k8
  refine ⟨k1.trans r1, k2.trans r2, ?_, ?_, ?_, ?_, ?_, ?_⟩
  · intro j hj
    rw [← r3 j hj]
    exact k3 j hj
  · rw [k4]
    have := congrArg (fun x : SpeciesType =>
      { x with IndvHead := [], est_count := 0, relsize := 0 }) r4
    exact this
  · intro G hG
    rw [k5 G hG, r5 G hG]
  · intro G
    have h1 := congrArg (fun x : GroupType =>
      { x with kills := x.kills.map (fun _ => 0) }) (k6 G)
    have h2 := congrArg (fun x : GroupType =>
      { x with relsize := 0, est_spp := [], est_count := 0 }) (r6 G)
    exact Eq.trans h1 h2
  · rw [k7, hest]
  · intro hz hval
    apply k8
    · intro e he hes
      rw [hest] at he
      rw [r3 e hes]
      exact hz e he hes
    · rw [r2]; exact hval
theorem plotInit_species_skip (c : Ctx) (s : State) (sp : Nat)
    (h : ¬ (sp < s.Species.length ∧ (s.species sp).use_me = true)) :
    plotInit_species c s sp = s := by
  have hu : (s.species sp).use_me = false := by
    by_cases hv : sp < s.Species.length
    · cases hx : (s.species sp).use_me with
      | false => rfl
      | true => exact absurd ⟨hv, hx⟩ h
    · rw [species_default_of_not_lt s sp hv]; rfl
  simp only [plotInit_species, hu, if_true]

theorem species_relsize_eta (x : SpeciesType) (h : x.relsize = 0) :
    { x with relsize := 0 } = x := by
  cases x
  simp only at h
  subst h
  rfl

theorem plotInit_species_effect (c : Ctx) (s : State) (sp : Nat) (hv : sp < s.Species.length)
    (hu : (s.species sp).use_me = true) :
    (plotInit_species c s sp).Species.length = s.Species.length ∧
      (plotInit_species c s sp).RGroup.length = s.RGroup.length ∧
      (∀ j, j ≠ sp → sameButIndivs (s.species j) ((plotInit_species c s sp).species j)) ∧
      (((plotInit_species c s sp).species sp).IndvHead = [] ∧
        ((plotInit_species c s sp).species sp).est_count = 0 ∧
        ((plotInit_species c s sp).species sp).relsize = 0 ∧
        ((plotInit_species c s sp).species sp).use_me = (s.species sp).use_me ∧
        ((plotInit_species c s sp).species sp).res_grp = (s.species sp).res_grp ∧
        ((plotInit_species c s sp).species sp).max_age = (s.species sp).max_age) ∧
      (∀ G, G ≠ (s.species sp).res_grp → (plotInit_species c s sp).group G = s.group G) ∧
      (∀ G, sameButEstKills (s.group G) ((plotInit_species c s sp).group G)) ∧
      ForEachEstSpp ((plotInit_species c s sp).group (s.species sp).res_grp)
        = (ForEachEstSpp (s.group (s.species sp).res_grp)).erase sp ∧
      ((∀ e ∈ ForEachEstSpp (s.group (s.species sp).res_grp), e ≠ sp →
          (s.species e).relsize = 0) →
        (s.species sp).res_grp < s.RGroup.length →
        ((plotInit_species c s sp).group (s.species sp).res_grp).relsize = 0) := by
  -- the state before `Species_Kill`
  generalize h1 : (if (s.group (s.species sp).res_grp).extirpated then
      s.modSpecies sp (fun x => { x with seedling_estab_prob := x.seedling_estab_prob_old })
    else s) = st1
  have h1_sp : ∃ p : ℚ, st1.species sp = { s.species sp with seedling_estab_prob := p } := by
    rw [← h1]
    split_ifs
    · exact ⟨_, modSpecies_species_self _ _ _ hv⟩
    · exact ⟨(s.species sp).seedling_estab_prob, rfl⟩
  have h1_len : st1.Species.length = s.Species.length := by
    rw [← h1]; split_ifs
    · exact modSpecies_length _ _ _
    · rfl
  have h1_ne : ∀ j, j ≠ sp → st1.species j = s.species j := by
    intro j hj
    rw [← h1]; split_ifs
    · exact modSpecies_species_ne _ _ _ _ (Ne.symm hj)
    · rfl
  have h1_g : st1.RGroup = s.RGroup := by
    rw [← h1]; split_ifs <;> rfl
  obtain ⟨p, h1_sp⟩ := h1_sp
  generalize h2 : st1.modSpecies sp
    (fun x => { x with kills := clear_kills x.max_age x.kills }) = st2
  have h2_sp : st2.species sp = { s.species sp with
      seedling_estab_prob := p
      kills := (clear_kills (s.species sp).max_age (s.species sp).kills) } := by
    rw [← h2, modSpecies_species_self _ _ _ (by rw [h1_len]; exact hv), h1_sp]
  have h2_len : st2.Species.length = s.Species.length := by
    rw [← h2, modSpecies_length, h1_len]
  have h2_ne : ∀ j, j ≠ sp → st2.species j = s.species j := by
    intro j hj
    rw [← h2, modSpecies_species_ne _ _ _ _ (Ne.symm hj), h1_ne j hj]
  have h2_g : st2.RGroup = s.RGroup := by rw [← h2]; exact h1_g
  have h2_grp : (st2.species sp).res_grp = (s.species sp).res_grp := by rw [h2_sp]
  have hgl : ∀ G, st2.group G = s.group G := fun G => group_congr h2_g G
  obtain ⟨k1, k2, k3, k4, k5, k6, k7, k8⟩ :=
    Species_Kill_effect c st2 sp (by rw [h2_len]; exact hv)
  rw [h2_grp] at k5 k7 k8
  generalize h3 : Species_Kill c st2 sp = st3 at k1 k2 k3 k4 k5 k6 k7 k8
  have k4a : (st3.species sp).IndvHead = [] := congrArg SpeciesType.IndvHead k4
  have k4b : (st3.species sp).est_count = 0 := congrArg SpeciesType.est_count k4
  have k4c : (st3.species sp).relsize = 0 := congrArg SpeciesType.relsize k4
  have k4d : (st3.species sp).use_me = (s.species sp).use_me := by
    have := congrArg SpeciesType.use_me k4
    rw [h2_sp] at this
    exact this
  have k4e : (st3.species sp).res_grp = (s.species sp).res_grp := by
    have := congrArg SpeciesType.res_grp k4
    rw [h2_sp] at this
    exact this
  have k4f : (st3.species sp).max_age = (s.species sp).max_age := by
    have := congrArg SpeciesType.max_age k4
    rw [h2_sp] at this
    exact this
  -- the two forced assignments
  generalize h4 : (if ZRO c.delta (st3.species sp).relsize then st3
    else st3.modSpecies sp (fun x => { x with relsize := 0 })) = st4
  have h3_len : sp < st3.Species.length := by rw [k1, h2_len]; exact hv
  have h4_sp : st4.species sp = st3.species sp := by
    rw [← h4]; split_ifs
    · rfl
    · rw [modSpecies_species_self _ _ _ h3_len]
      exact species_relsize_eta _ k4c
  have h4_len : st4.Species.length = st3.Species.length := by
    rw [← h4]; split_ifs
    · rfl
    · exact modSpecies_length _ _ _
  have h4_ne : ∀ j, j ≠ sp → st4.species j = st3.species j := by
    intro j hj
    rw [← h4]; split_ifs
    · rfl
    · exact modSpecies_species_ne _ _ _ _ (Ne.symm hj)
  have h4_g : st4.RGroup = st3.RGroup := by
    rw [← h4]; split_ifs <;> rfl
  have hP : plotInit_species c s sp = st4 := by
    have he : (st4.species sp).est_count = 0 := by rw [h4_sp, k4b]
    simp only [plotInit_species, hu, Bool.true_eq_false, if_false, h1, h2, h3, h4, he, if_true]
  rw [hP]
  have hg4 : ∀ G, st4.group G = st3.group G := fun G => group_congr h4_g G
  refine ⟨by rw [h4_len, k1, h2_len], by rw [h4_g, k2, h2_g], ?_, ?_, ?_, ?_, ?_, ?_⟩
  · intro j hj
    rw [h4_ne j hj, ← h2_ne j hj]
    exact k3 j hj
  · rw [h4_sp]
    exact ⟨k4a, k4b, k4c, k4d, k4e, k4f⟩
  · intro G hG
    rw [hg4, k5 G hG, hgl]
  · intro G
    rw [hg4, ← hgl G]
    exact k6 G
  · rw [hg4, k7, hgl]
  · intro hz hval
    rw [hg4]
    apply k8
    · intro e he hes
      rw [hgl] at he
      rw [h2_ne e hes]
      exact hz e he hes
    · rw [h2_g]; exact hval

theorem foldl_range_invariant {β : Type} (P : Nat → β → Prop) (f : β → Nat → β) (n : Nat)
    (h : ∀ k b, k < n → P k b → P (k + 1) (f b k)) (b0 : β) (h0 : P 0 b0) :
    P n ((List.range n).foldl f b0) := by
  have key : ∀ m, m ≤ n → P m ((List.range m).foldl f b0) := by
    intro m
    induction m with
    | zero => intro _; exact h0
    | succ m ih =>
      intro hm
      rw [List.range_succ, List.foldl_append]
      exact h m _ (by omega) (ih (by omega))
  exact key n le_rfl

theorem plotInv_step (c : Ctx) (st s : State) (k : Nat) (hk : k < st.Species.length)
    (h : plotInv st k s) : plotInv st (k + 1) (plotInit_species c s k) := by
  obtain ⟨hA1, hA2, hB, hG, hC⟩ := h
  by_cases hu : (st.species k).use_me = true
  · have hv : k < s.Species.length := by rw [hA1]; exact hk
    have hus : (s.species k).use_me = true := by rw [(hB k).1]; exact hu
    obtain ⟨e1, e2, e3, e4, _, e6, _, _⟩ := plotInit_species_effect c s k hv hus
    refine ⟨e1.trans hA1, e2.trans hA2, ?_, ?_, ?_⟩
    · intro j
      by_cases hj : j = k
      · subst hj
        exact ⟨e4.2.2.2.1.trans (hB j).1, e4.2.2.2.2.1.trans (hB j).2.1,
          e4.2.2.2.2.2.trans (hB j).2.2⟩
      · have f := sameButIndivs_fields (e3 j hj)
        exact ⟨f.1.trans (hB j).1, f.2.1.trans (hB j).2.1, f.2.2.1.trans (hB j).2.2⟩
    · intro G
      exact sameButEstKills_trans (hG G) (e6 G)
    · intro j hj hjn huj
      by_cases hjk : j = k
      · subst hjk
        exact ⟨e4.1, e4.2.1, e4.2.2.1⟩
      · have hc := hC j (by omega) hjn huj
        have heq := sameButIndivs_nil (e3 j hjk) hc.1
        rw [heq]
        exact hc
  · have hskip : plotInit_species c s k = s := by
      apply plotInit_species_skip
      rintro ⟨_, h2⟩
      rw [(hB k).1] at h2
      exact hu h2
    rw [hskip]
    refine ⟨hA1, hA2, hB, hG, ?_⟩
    intro j hj hjn huj
    by_cases hjk : j = k
    · subst hjk; exact absurd huj hu
    · exact hC j (by omega) hjn huj

theorem plotInvEst_step (c : Ctx) (st s : State) (k : Nat) (hk : k < st.Species.length)
    (h : plotInv st k s) (h2 : plotInvEst st k s) :
    plotInvEst st (k + 1) (plotInit_species c s k) := by
  obtain ⟨hA1, hA2, hB, _, _⟩ := h
  obtain ⟨hD, hE⟩ := h2
  by_cases hu : (st.species k).use_me = true
  · have hv : k < s.Species.length := by rw [hA1]; exact hk
    have hus : (s.species k).use_me = true := by rw [(hB k).1]; exact hu
    obtain ⟨_, _, e3, _, e5, _, e7, e8⟩ := plotInit_species_effect c s k hv hus
    have hgrp : (s.species k).res_grp = (st.species k).res_grp := (hB k).2.1
    rw [hgrp] at e5 e7 e8
    constructor
    · intro G hGv e he
      by_cases hG : G = (st.species k).res_grp
      · subst hG
        rw [e7] at he
        exact hD _ hGv e (List.mem_of_mem_erase he)
      · rw [e5 G hG] at he
        exact hD G hGv e he
    · intro G hGv htouch hz
      by_cases hG : G = (st.species k).res_grp
      · subst hG
        apply e8 _ (by rw [hA2]; exact hGv)
        intro e he hek
        have hmem : e ∈ ForEachEstSpp ((plotInit_species c s k).group (st.species k).res_grp) := by
          rw [e7]; exact (List.mem_erase_of_ne hek).mpr he
        have := hz e hmem
        rw [(sameButIndivs_fields (e3 e hek)).2.2.2.1] at this
        exact this
      · rw [e5 G hG] at hz ⊢
        apply hE G hGv
        · obtain ⟨j, hj, hjn, huj, hgj⟩ := htouch
          by_cases hjk : j = k
          · subst hjk; exact absurd hgj.symm hG
          · exact ⟨j, by omega, hjn, huj, hgj⟩
        · intro e he
          by_cases hek : e = k
          · subst hek
            exact absurd (hD G hGv e he).2.2.symm hG
          · have := hz e he
            rw [(sameButIndivs_fields (e3 e hek)).2.2.2.1] at this
            exact this
  · have hskip : plotInit_species c s k = s := by
      apply plotInit_species_skip
      rintro ⟨_, h2⟩
      rw [(hB k).1] at h2
      exact hu h2
    rw [hskip]
    refine ⟨hD, ?_⟩
    intro G hGv htouch hz
    apply hE G hGv _ hz
    obtain ⟨j, hj, hjn, huj, hgj⟩ := htouch
    by_cases hjk : j = k
    · subst hjk; exact absurd huj hu
    · exact ⟨j, by omega, hjn, huj, hgj⟩

theorem plotInv_species_pass (c : Ctx) (st : State) :
    plotInv st st.Species.length
      ((List.range st.Species.length).foldl (plotInit_species c) st) :=
  foldl_range_invariant (plotInv st) (plotInit_species c) st.Species.length
    (fun k b hk hb => plotInv_step c st b k hk hb) st
    ⟨rfl, rfl, fun _ => ⟨rfl, rfl, rfl⟩, fun _ => sameButEstKills_refl _,
      fun j hj => absurd hj (Nat.not_lt_zero j)⟩

theorem plotInvEst_species_pass (c : Ctx) (st : State)
    (hest : ∀ G, G < st.RGroup.length → ∀ e ∈ ForEachEstSpp (st.group G),
      e < st.Species.length ∧ (st.species e).use_me = true ∧ (st.species e).res_grp = G) :
    plotInvEst st st.Species.length
      ((List.range st.Species.length).foldl (plotInit_species c) st) :=
  (foldl_range_invariant (fun k s => plotInv st k s ∧ plotInvEst st k s)
    (plotInit_species c) st.Species.length
    (fun k b hk hb => ⟨plotInv_step c st b k hk hb.1, plotInvEst_step c st b k hk hb.1 hb.2⟩) st
    ⟨⟨rfl, rfl, fun _ => ⟨rfl, rfl, rfl⟩, fun _ => sameButEstKills_refl _,
        fun j hj => absurd hj (Nat.not_lt_zero j)⟩,
      ⟨hest, fun _ _ ht => by
        obtain ⟨j, hj, _⟩ := ht
        exact absurd hj (Nat.not_lt_zero j)⟩⟩).2

theorem modify_congr_at {α : Type} (f g : α → α) :
    ∀ (l : List α) (n : Nat), (∀ a, l[n]? = some a → f a = g a) →
      l.modify f n = l.modify g n := by
  intro l
  induction l with
  | nil => intro n _; simp
  | cons a t ih =>
    intro n h
    cases n with
    | zero => simp [h a (by simp)]
    | succ n =>
      simp only [List.modify_succ_cons]
      rw [ih n (fun b hb => h b (by simpa using hb))]

theorem plotInit_group_eq (s : State) (rg : Nat) :
    plotInit_group s rg = s.modGroup rg resetGroup := by
  unfold plotInit_group
  by_cases h : (s.group rg).use_me = false
  · rw [if_pos h]
    symm
    apply modGroup_eq_self
    simp only [resetGroup, h, if_true]
  · rw [if_neg h]
    simp only [State.modGroup]
    congr 1
    apply modify_congr_at
    intro a ha
    have hg : s.group rg = a := by
      simp [State.group, List.getD_eq_getElem?_getD, ha]
    rw [hg] at h
    unfold resetGroup
    rw [if_neg h]

theorem group_pass_fold (n : Nat) : ∀ s : State,
    (List.range n).foldl plotInit_group s
      = { s with
          RGroup := ((List.range n).foldl (fun acc j => acc.modify resetGroup j) s.RGroup) } := by
  induction n with
  | zero => intro s; rfl
  | succ n ih =>
    intro s
    rw [List.range_succ, List.foldl_append, List.foldl_append, ih]
    simp only [List.foldl_cons, List.foldl_nil, plotInit_group_eq, State.modGroup]

theorem Plot_Initialize_eq (c : Ctx) (st : State) :
    Plot_Initialize c st =
      { (List.range st.Species.length).foldl (plotInit_species c) st with
        RGroup := (((List.range st.Species.length).foldl (plotInit_species c) st).RGroup.map
                    resetGroup) } := by
  simp only [Plot_Initialize, ForEachGroup, group_pass_fold, foldl_modify_range]

theorem Plot_Initialize_species (c : Ctx) (st : State) (j : Nat) :
    (Plot_Initialize c st).species j
      = ((List.range st.Species.length).foldl (plotInit_species c) st).species j := by
  rw [Plot_Initialize_eq]; rfl

theorem Plot_Initialize_group (c : Ctx) (st : State) (G : Nat) (hG : G < st.RGroup.length) :
    (Plot_Initialize c st).group G
      = resetGroup (((List.range st.Species.length).foldl (plotInit_species c) st).group G) := by
  have hlen := (plotInv_species_pass c st).2.1
  rw [Plot_Initialize_eq]
  simp only [State.group, List.getD_eq_getElem?_getD, List.getElem?_map]
  rw [List.getElem?_eq_getElem (by rw [hlen]; exact hG)]
  rfl

theorem RGroup_GetIndivs_nil (t : State) (G : Nat) (sort : SortKind)
    (h : (t.group G).est_count = 0) : RGroup_GetIndivs t G sort = [] := by
  simp [RGroup_GetIndivs, ForEachEstSpp, h]

theorem resetGroup_of_used (g : GroupType) (h : g.use_me = true) :
    resetGroup g = { g with kills := clear_kills g.max_age g.kills, est_count := 0,
                            yrs_neg_pr := 0, extirpated := false } := by
  unfold resetGroup
  rw [if_neg (by rw [h]; exact Bool.noConfusion)]

theorem used_group_valid (st : State) (G : Nat) (h : (st.group G).use_me = true) :
    G < st.RGroup.length := by
  by_contra hG
  rw [group_default_of_not_lt st G hG] at h
  exact Bool.noConfusion h

/-- After `Plot_Initialize`, the group of a species in use has relative size 0, provided
species in use belong to groups in use and the established species of every group are
species in use of that group. -/
theorem Plot_Initialize_group_relsize (c : Ctx) (st : State)
    (hgrp : ∀ sp, sp < st.Species.length → (st.species sp).use_me = true →
      (st.group (st.species sp).res_grp).use_me = true)
    (hest : ∀ G, G < st.RGroup.length → ∀ e ∈ ForEachEstSpp (st.group G),
      e < st.Species.length ∧ (st.species e).use_me = true ∧ (st.species e).res_grp = G)
    (sp : Nat) (hv : sp < st.Species.length) (hu : (st.species sp).use_me = true) :
    ((Plot_Initialize c st).group (st.species sp).res_grp).relsize = 0 := by
  obtain ⟨_, _, _, hG, hC⟩ := plotInv_species_pass c st
  obtain ⟨hD, hE⟩ := plotInvEst_species_pass c st hest
  have hGu := hgrp sp hv hu
  have hGv := used_group_valid st _ hGu
  rw [Plot_Initialize_group c st _ hGv]
  have hu1 : (((List.range st.Species.length).foldl (plotInit_species c) st).group
      (st.species sp).res_grp).use_me = true := by
    rw [(sameButEstKills_fields (hG _)).1]; exact hGu
  rw [resetGroup_of_used _ hu1]
  apply hE _ hGv ⟨sp, hv, hv, hu, rfl⟩
  intro e he
  obtain ⟨hev, heu, _⟩ := hD _ hGv e he
  exact (hC e hev hev heu).2.2

theorem clear_kills_length (m : Nat) (k : List Nat) : (clear_kills m k).length = k.length := by
  simp only [clear_kills, List.length_append, List.length_map, List.length_take,
    List.length_drop]
  omega

theorem clear_kills_getD (m : Nat) (k : List Nat) (i : Nat) (hi : i < m) :
    (clear_kills m k).getD i 0 = 0 := by
  simp only [clear_kills, List.getD_eq_getElem?_getD]
  by_cases hl : i < k.length
  · rw [List.getElem?_append_left (by simp; omega)]
    simp [List.getElem?_map, List.getElem?_take, hi, List.getElem?_eq_getElem hl]
  · rw [List.getElem?_eq_none]
    · rfl
    · simp only [List.length_append, List.length_map, List.length_take, List.length_drop]
      omega

/-- C19, refuted as stated: `Plot_Initialize` on `exDirty` clears the individuals, the
established counts, the species' size, the stretch counter, the flag `extirpated` and the
group's kill histogram, but leaves the group's `res_required`, `res_avail`, `res_extra`,
PR, `killyr` and `estabs` and the species' seed history, extra growth and `estabs` as they
were. -/
theorem plot_initialize_all_zero_counterexample :
    (Plot_Initialize exCtx exDirty).RGroup.map
        (fun g => (g.est_count, g.yrs_neg_pr, g.extirpated, g.kills, g.relsize))
        = [(0, 0, false, [0, 0, 0, 0, 0], 0)] ∧
      (Plot_Initialize exCtx exDirty).Species.map
        (fun s => (s.est_count, s.relsize, s.IndvHead.length, s.seedling_estab_prob))
        = [(0, 0, 0, 1 / 2)] ∧
      (Plot_Initialize exCtx exDirty).RGroup.map resFields = [(1, 1 / 2, 1 / 3, 2)] ∧
      (Plot_Initialize exCtx exDirty).RGroup.map (fun g => (g.killyr, g.estabs))
        = [(7, 2)] ∧
      (Plot_Initialize exCtx exDirty).Species.map
        (fun s => (s.seedprod, s.extragrowth, s.estabs)) = [([5, 3], 1 / 5, 1)] := by
  refine ⟨by decide!, by decide!, by decide!, by decide!, by decide!⟩

/-- C19, amended: after `Plot_Initialize` every species in use has no individuals,
established count 0 and relative size 0; every group in use has `est_count = 0`,
`yrs_neg_pr = 0`, `extirpated = false` and a kill histogram of the same length whose first
`max_age` entries are 0, and apart from its relative size, its list of established
species, `estabs` and the kill histogram every other field (`res_required`, `res_avail`,
`res_extra`, PR, `killyr`, `regen_ok`, ...) is as before; and when species in use belong to
groups in use and the established species of every group are species in use of that
group, the group of every species in use has relative size 0. -/
theorem plot_initialize_resets (c : Ctx) (st : State) :
    (∀ sp, sp < st.Species.length → (st.species sp).use_me = true →
      ((Plot_Initialize c st).species sp).IndvHead = [] ∧
      ((Plot_Initialize c st).species sp).est_count = 0 ∧
      ((Plot_Initialize c st).species sp).relsize = 0) ∧
    (∀ rg, rg < st.RGroup.length → (st.group rg).use_me = true →
      { (Plot_Initialize c st).group rg with
          relsize := 0, est_spp := [], estabs := 0, kills := [] } =
        { st.group rg with est_count := 0, yrs_neg_pr := 0, extirpated := false,
                           relsize := 0, est_spp := [], estabs := 0, kills := [] } ∧
      ((Plot_Initialize c st).group rg).kills.length = (st.group rg).kills.length ∧
      ∀ i, i < (st.group rg).max_age → ((Plot_Initialize c st).group rg).kills.getD i 0 = 0) ∧
    ((∀ sp, sp < st.Species.length → (st.species sp).use_me = true →
        (st.group (st.species sp).res_grp).use_me = true) →
      (∀ G, G < st.RGroup.length → ∀ e ∈ ForEachEstSpp (st.group G),
        e < st.Species.length ∧ (st.species e).use_me = true ∧ (st.species e).res_grp = G) →
      ∀ sp, sp < st.Species.length → (st.species sp).use_me = true →
        ((Plot_Initialize c st).group (st.species sp).res_grp).relsize = 0) := by
  obtain ⟨_, _, _, hG, hC⟩ := plotInv_species_pass c st
  refine ⟨?_, ?_, ?_⟩
  · intro sp hv hu
    rw [Plot_Initialize_species]
    exact hC sp hv hv hu
  · intro rg hv hu
    rw [Plot_Initialize_group c st rg hv]
    have hf := sameButEstKills_fields (hG rg)
    have hu1 : (((List.range st.Species.length).foldl (plotInit_species c) st).group
        rg).use_me = true := by
      rw [hf.1]; exact hu
    rw [resetGroup_of_used _ hu1]
    refine ⟨?_, ?_, ?_⟩
    · have h := congrArg (fun x : GroupType =>
        { x with kills := [], yrs_neg_pr := 0, extirpated := false, estabs := 0 })
        (hG rg)
      exact h
    · show (clear_kills _ _).length = _
      rw [clear_kills_length, hf.2.2]
    · intro i hi
      show (clear_kills _ _).getD i 0 = 0
      apply clear_kills_getD
      rw [hf.2.1]; exact hi
  · intro hgrp hest sp hv hu
    exact Plot_Initialize_group_relsize c st hgrp hest sp hv hu

/-- Witness of `plot_initialize_resets` at `exDirty`: the relative size of the group is 0
after the reset. -/
theorem plot_initialize_resets_witness :
    ((Plot_Initialize exCtx exDirty).group 0).relsize = 0 :=
  (plot_initialize_resets exCtx exDirty).2.2 (by decide!) (by decide!) 0 (by decide!)
    (by decide!)

theorem RGroup_Update_Newsize_group (c : Ctx) (s : State) (rg : Nat)
    (hv : rg < s.RGroup.length) :
    (RGroup_Update_Newsize c s rg).group rg =
      (fun g : GroupType => if ZRO (20 * c.delta) g.relsize then { g with relsize := 0 } else g)
        { s.group rg with relsize :=
          ((ForEachEstSpp (s.group rg)).map (fun sp => (s.species sp).relsize)).sum
            / ((s.group rg).max_spp : ℚ) } := by
  obtain ⟨st2, hres, hg2, _, _⟩ := RGroup_Update_Newsize_mid c s rg
  rw [hres, modGroup_group_self _ _ _ (by rw [hg2, modGroup_length]; exact hv),
    group_congr hg2, modGroup_group_self _ _ _ hv]

theorem sum_ite_mem (f : Nat → ℚ) (members est : List Nat) (hm : members.Nodup)
    (he : est.Nodup) (hsub : ∀ e ∈ est, e ∈ members) :
    (members.map (fun m => if m ∈ est then f m else 0)).sum = (est.map f).sum := by
  have h1 : ∀ l : List Nat, (l.map (fun m => if m ∈ est then f m else 0)).sum
      = ((l.filter (fun m => decide (m ∈ est))).map f).sum := by
    intro l
    induction l with
    | nil => rfl
    | cons a t ih =>
      by_cases ha : a ∈ est
      · simp [ha, ih]
      · simp [ha, ih]
  rw [h1]
  have hp : (members.filter (fun m => decide (m ∈ est))).Perm est := by
    rw [List.perm_ext_iff_of_nodup (hm.filter _) he]
    intro a
    simp only [List.mem_filter, decide_eq_true_eq]
    exact ⟨fun h => h.2, fun h => ⟨hsub a h, h⟩⟩
  exact (hp.map f).sum_eq

/-- C22. After `RGroup_Update_Newsize(rg)` the relative size of group `rg` is the sum of
the relative sizes of its established species divided by `max_spp`, except that a value
within the local tolerance (20 times the tolerance of the comparison macros) is stored
as 0; with `max_spp > 0` and non-negative species sizes it is not negative. The sum is
that over the member species with the non-established ones counting as 0 (when the lists
have no repetitions and the established species are members). -/
theorem update_newsize_group_mean (c : Ctx) (s : State) (rg : Nat)
    (hv : rg < s.RGroup.length) (hspp : 0 < (s.group rg).max_spp) :
    ((RGroup_Update_Newsize c s rg).group rg).relsize =
        (if ZRO (20 * c.delta)
            (((ForEachEstSpp (s.group rg)).map (fun sp => (s.species sp).relsize)).sum
              / ((s.group rg).max_spp : ℚ))
          then 0
          else ((ForEachEstSpp (s.group rg)).map (fun sp => (s.species sp).relsize)).sum
              / ((s.group rg).max_spp : ℚ)) ∧
      ((∀ e ∈ ForEachEstSpp (s.group rg), 0 ≤ (s.species e).relsize) →
        0 ≤ ((RGroup_Update_Newsize c s rg).group rg).relsize) ∧
      ((ForEachGroupSpp (s.group rg)).Nodup → (ForEachEstSpp (s.group rg)).Nodup →
        (∀ e ∈ ForEachEstSpp (s.group rg), e ∈ ForEachGroupSpp (s.group rg)) →
        ((ForEachEstSpp (s.group rg)).map (fun sp => (s.species sp).relsize)).sum =
          ((ForEachGroupSpp (s.group rg)).map (fun m =>
            if m ∈ ForEachEstSpp (s.group rg) then (s.species m).relsize else 0)).sum) := by
  rw [RGroup_Update_Newsize_group c s rg hv]
  have hm : (0 : ℚ) < ((s.group rg).max_spp : ℚ) := by exact_mod_cast hspp
  refine ⟨?_, ?_, fun hm he hsub =>
    (sum_ite_mem (fun sp => (s.species sp).relsize) _ _ hm he hsub).symm⟩
  · simp only
    split_ifs <;> rfl
  · intro h
    have hsum : 0 ≤ ((ForEachEstSpp (s.group rg)).map (fun sp => (s.species sp).relsize)).sum := by
      apply List.sum_nonneg
      intro x hx
      obtain ⟨e, he, rfl⟩ := List.mem_map.mp hx
      exact h e he
    simp only
    split_ifs
    · exact le_refl _
    · exact div_nonneg hsum hm.le

/-- Witness of `update_newsize_group_mean` at `exState`: the group of one species of size
1 gets relative size 1. -/
theorem update_newsize_group_mean_witness :
    ((RGroup_Update_Newsize exCtx exState 0).group 0).relsize = 1 ∧
      0 ≤ ((RGroup_Update_Newsize exCtx exState 0).group 0).relsize :=
  ⟨((update_newsize_group_mean exCtx exState 0 (by decide!) (by decide!)).1).trans (by decide!),
    (update_newsize_group_mean exCtx exState 0 (by decide!) (by decide!)).2.1 (by decide!)⟩

/-! ### Proportional reduction of clonal plants -/

/-- C27, the code at the failing inputs. In the proportional-reduction branch of
`_stretched_clonal` (clonal plants remain, `yrs_neg_pr >= max_stretch`, the draw exceeds
`0.04 * y^2`, PR > 1) every remaining clonal individual is handed to `indiv_Kill_Partial`
with the amount `(relsize / total) * 0.8 / PR`, `total` being the summed size of the
remaining clonal plants; whenever `total * PR < 0.8` that amount is larger than the size of
every individual of positive size. -/
theorem clonal_reduction_exceeds_size (c : Ctx) (s : State) (rg : Nat)
    (rest : List (IndivRef × IndivType))
    (hc : (rest.filter (fun p => (s.species p.2.myspecies).isclonal)).length ≠ 0)
    (hy : (s.group rg).max_stretch ≤ (s.group rg).yrs_neg_pr)
    (hdraw : ¬ c.RandUni s.draws ≤ 4 / 100 * ((s.group rg).yrs_neg_pr : ℚ)
      * ((s.group rg).yrs_neg_pr : ℚ))
    (hpr : 1 < (s.group rg).pr) :
    ∃ r, _stretched_clonal c s rg rest = Except.ok r ∧ r.kills = [] ∧
      r.reduced = (rest.filter (fun p => (s.species p.2.myspecies).isclonal)).map (fun p =>
        (p, p.2.relsize /
            ((rest.filter (fun p => (s.species p.2.myspecies).isclonal)).map
              (fun p => p.2.relsize)).sum * (8 / 10) / (s.group rg).pr)) ∧
      (0 < ((rest.filter (fun p => (s.species p.2.myspecies).isclonal)).map
            (fun p => p.2.relsize)).sum →
        ((rest.filter (fun p => (s.species p.2.myspecies).isclonal)).map
            (fun p => p.2.relsize)).sum * (s.group rg).pr < 8 / 10 →
        ∀ q ∈ r.reduced, 0 < q.1.2.relsize → q.1.2.relsize < q.2) := by
  have hp0 : (0 : ℚ) < (s.group rg).pr := by linarith
  have hne : ¬ ((s.group rg).pr = 0 ∨ 1 < 1 / (s.group rg).pr) := by
    rintro (h | h)
    · linarith
    · rw [lt_div_iff₀ hp0] at h
      linarith
  refine ⟨{ kills := []
            reduced := (rest.filter (fun p => (s.species p.2.myspecies).isclonal)).map (fun p =>
              (p, p.2.relsize /
                ((rest.filter (fun p => (s.species p.2.myspecies).isclonal)).map
                  (fun p => p.2.relsize)).sum * (1 / (s.group rg).pr * (8 / 10))))
            draws := s.draws + 1
            someKillage := true }, ?_, rfl, ?_, ?_⟩
  · have hpm : ¬ c.RandUni s.draws ≤ 4 / 100 * ((s.group rg).yrs_neg_pr : ℚ)
        * ((s.group rg).yrs_neg_pr : ℚ) := hdraw
    simp only [_stretched_clonal, hc, if_false, hy, if_true, hpm, hne]
  · apply List.map_congr_left
    intro p _
    congr 1
    ring
  · intro ht hlt q hq hq0
    obtain ⟨p, _, rfl⟩ := List.mem_map.mp hq
    simp only
    have h1 : 1 < 1 / ((rest.filter (fun p => (s.species p.2.myspecies).isclonal)).map
        (fun p => p.2.relsize)).sum * (1 / (s.group rg).pr * (8 / 10)) := by
      have e : 1 / ((rest.filter (fun p => (s.species p.2.myspecies).isclonal)).map
          (fun p => p.2.relsize)).sum * (1 / (s.group rg).pr * (8 / 10))
          = (8 / 10) / (((rest.filter (fun p => (s.species p.2.myspecies).isclonal)).map
            (fun p => p.2.relsize)).sum * (s.group rg).pr) := by
        field_simp
        ring
      rw [e, lt_div_iff₀ (mul_pos ht hp0)]
      linarith
    calc p.2.relsize = p.2.relsize * 1 := (mul_one _).symm
      _ < p.2.relsize * (1 / ((rest.filter (fun p => (s.species p.2.myspecies).isclonal)).map
            (fun p => p.2.relsize)).sum * (1 / (s.group rg).pr * (8 / 10))) :=
          mul_lt_mul_of_pos_left h1 hq0
      _ = _ := by ring

/-- Witness of `clonal_reduction_exceeds_size`: in `exClonalSmall`, once `mort_Main` has
counted the stretched year, the two plants of sizes 1/10 and 1/5 are to be reduced by 2/9
and 4/9. -/
theorem clonal_reduction_exceeds_size_witness :
    (∃ r, _stretched_clonal exCtx
          (exClonalSmall.modGroup 0 (fun _ => (mort_Main_group exCtx.delta (exClonalSmall.group 0)).1))
          0 (_no_resources (exClonalSmall.modGroup 0
            (fun _ => (mort_Main_group exCtx.delta (exClonalSmall.group 0)).1)) 0).2
        = Except.ok r ∧ r.kills = [] ∧
        r.reduced.map (fun q => (q.1.2.relsize, q.2)) = [(1 / 10, 2 / 9), (1 / 5, 4 / 9)]) ∧
      (mort_Main_group exCtx.delta (exClonalSmall.group 0)).2 = true :=
  ⟨(clonal_reduction_exceeds_size exCtx
      (exClonalSmall.modGroup 0 (fun _ => (mort_Main_group exCtx.delta (exClonalSmall.group 0)).1))
      0 (_no_resources (exClonalSmall.modGroup 0
        (fun _ => (mort_Main_group exCtx.delta (exClonalSmall.group 0)).1)) 0).2
      (by decide!) (by decide!) (by decide!) (by decide!)).imp
    (fun r h => ⟨h.1, h.2.1, by rw [h.2.2.1]; decide!⟩), by decide!⟩

/-! ### Forced propagules -/

/-- C28, the code at the failing input. In `exAnnualForced` the draw of the first pass of
`_add_annuals` meets the establishment probability, so the first pass pushes 5 onto the
seed history `[7, 3]`, giving `[5, 7]`; the partition reaches its second pass (`noplants`
is false), whose `forced` flag starts false again, and the second pass pushes once more:
the history ends as `[5, 5]`, two pushes in one call of `rgroup_PartResources`. -/
theorem seed_history_pushed_twice :
    exAnnualForced.Species.map (fun s => (s.viable_yrs, s.seedprod)) = [(2, [7, 3])] ∧
      exCtx.RandUni exAnnualForced.draws ≤ (exAnnualForced.species 0).seedling_estab_prob ∧
      (partres_base exCtx exAnnualForced).1.Species.map (fun s => s.seedprod) = [[5, 7]] ∧
      (partres_base exCtx exAnnualForced).2.noplants = false ∧
      (rgroup_PartResources exCtx exAnnualForced).Species.map (fun s => s.seedprod)
        = [[5, 5]] ∧
      (rgroup_PartResources exCtx exAnnualForced).Species.map (fun s => s.seedprod)
        = [seedprod_push 2 5 (seedprod_push 2 5 [7, 3])] := by
  refine ⟨by decide!, by decide!, by decide!, by decide!, by decide!, by decide!⟩

/-! ### Leftover resource of a group that uses extra resource -/

/-- C30, the code at the failing inputs. Both plots hold one perennial group of relative
size 1 that uses extra resource, with two individuals of sizes 1/4 and 3/4 whose
`grp_res_prop` sum to 1. In `exExtraAmple` `rgroup_PartResources` gives the group
`res_avail = 1`, `res_extra = 0` and PR 1, and `rgroup_ResPartIndiv` leaves the individuals
with `res_avail` 1/2 and 3/2, in total 2, twice what the group has. In `exExtraScarce` the
group gets `res_avail = 1/2`, `res_extra = 0` and PR 2, and the individuals end with -1/8
and 1/8. -/
theorem extra_res_leftover_misallocated :
    exExtraAmple.Species.map (fun s => s.IndvHead.map (fun x => (x.relsize, x.grp_res_prop)))
        = [[(1 / 4, 1 / 4), (3 / 4, 3 / 4)]] ∧
      (rgroup_PartResources exCtx exExtraAmple).RGroup.map
        (fun g => (g.use_extra_res, g.res_avail, g.res_extra, g.pr)) = [(true, 1, 0, 1)] ∧
      (rgroup_PartResources exCtx exExtraAmple).Species.map
        (fun s => s.IndvHead.map (fun x => (x.res_avail, x.res_extra)))
        = [[(1 / 2, 0), (3 / 2, 0)]] ∧
      (rgroup_ResPartIndiv exCtx (rgroup_PartResources exCtx exExtraAmple)).Species.map
        (fun s => s.IndvHead.map (fun x => x.res_avail)) = [[1 / 2, 3 / 2]] ∧
      (rgroup_PartResources exCtx exExtraScarce).RGroup.map
        (fun g => (g.use_extra_res, g.res_avail, g.res_extra, g.pr)) = [(true, 1 / 2, 0, 2)] ∧
      (rgroup_PartResources exCtx exExtraScarce).Species.map
        (fun s => s.IndvHead.map (fun x => (x.res_avail, x.res_extra)))
        = [[(-1 / 8, 0), (1 / 8, 0)]] := by
  refine ⟨by decide!, by decide!, by decide!, by decide!, by decide!, by decide!⟩

/-! ### Disturbances -/

/-- C25. A burrow kills every species; an ant mound kills every species except a very
insensitive one; a fecal pat kills the very sensitive and the sensitive species, or, when
the pat was removed, calls `Species_Kill` for nobody and puts on the kill list exactly the
individuals of age 1 and, for a very sensitive species, all individuals. The species
killed by a pat are killed by a mound, those killed by a mound are killed by a burrow, and
for each disturbance a species at least as sensitive as a killed one is killed too. -/
theorem disturbance_kill_rules (st : State) (sp : Nat) :
    (_burrow st sp).speciesKill = true ∧
      ((_mound st sp).speciesKill = true ↔
        (st.species sp).disturbclass ≠ DisturbClass.VeryInsensitive) ∧
      ((_pat false st sp).speciesKill = true ↔
        ((st.species sp).disturbclass = DisturbClass.VerySensitive ∨
          (st.species sp).disturbclass = DisturbClass.Sensitive)) ∧
      (_pat false st sp).kills = [] ∧
      (_pat true st sp).speciesKill = false ∧
      ((st.species sp).disturbclass = DisturbClass.VerySensitive →
        (_pat true st sp).kills = (st.species sp).IndvHead) ∧
      ((st.species sp).disturbclass ≠ DisturbClass.VerySensitive →
        (_pat true st sp).kills = (st.species sp).IndvHead.filter (fun p => decide (p.age = 1))) ∧
      ((_pat false st sp).speciesKill = true → (_mound st sp).speciesKill = true) ∧
      ((_mound st sp).speciesKill = true → (_burrow st sp).speciesKill = true) ∧
      (∀ (st2 : State) (sp2 : Nat),
        sensitivityRank (st2.species sp2).disturbclass
            ≤ sensitivityRank (st.species sp).disturbclass →
          ((_burrow st sp).speciesKill = true → (_burrow st2 sp2).speciesKill = true) ∧
          ((_mound st sp).speciesKill = true → (_mound st2 sp2).speciesKill = true) ∧
          ((_pat false st sp).speciesKill = true → (_pat false st2 sp2).speciesKill = true) ∧
          ((_pat true st sp).kills = (st.species sp).IndvHead →
            (st.species sp).disturbclass = DisturbClass.VerySensitive →
            (_pat true st2 sp2).kills = (st2.species sp2).IndvHead)) := by
  refine ⟨?_, ?_, ?_, ?_, ?_, ?_, ?_, ?_, ?_, ?_⟩
  · unfold _burrow; cases (st.species sp).disturbclass <;> rfl
  · unfold _mound; cases (st.species sp).disturbclass <;> simp
  · unfold _pat; cases (st.species sp).disturbclass <;> simp
  · unfold _pat; cases (st.species sp).disturbclass <;> simp
  · simp [_pat]
  · intro h
    simp [_pat, h]
  · intro h
    simp [_pat, h]
  · unfold _pat _mound; cases (st.species sp).disturbclass <;> simp
  · unfold _mound _burrow; cases (st.species sp).disturbclass <;> simp
  · intro st2 sp2 hr
    refine ⟨?_, ?_, ?_, ?_⟩
    · intro _
      unfold _burrow; cases (st2.species sp2).disturbclass <;> rfl
    · revert hr
      unfold _mound
      cases (st.species sp).disturbclass <;> cases (st2.species sp2).disturbclass <;>
        simp [sensitivityRank]
    · revert hr
      unfold _pat
      cases (st.species sp).disturbclass <;> cases (st2.species sp2).disturbclass <;>
        simp [sensitivityRank]
    · intro _ hc
      rw [hc] at hr
      have h2 : (st2.species sp2).disturbclass = DisturbClass.VerySensitive := by
        revert hr
        cases (st2.species sp2).disturbclass <;> simp [sensitivityRank]
      simp [_pat, h2]

/-! ### Slow growth -/

/-- C24, the code on every individual. An individual of age 1 is left alone and nothing is
drawn. An older individual that grows at or below `slowrate` has its counter incremented
and is tested (one random draw, on the kill list when the draw is at most 0.368) as soon
as the incremented counter has reached `max_slow` (`slow_yrs >= max_slow`), so also when
it equals `max_slow` and does not exceed it. An older individual that grows faster has
its counter decremented by one, not below 0, and is not tested. -/
theorem slow_growth_tested_at_max_slow (c : Ctx) (slowrate : ℚ) (max_slow : Nat)
    (ndv : IndivType) (n : Nat) :
    (ndv.age = 1 → slow_growth_indiv c slowrate max_slow ndv n = (ndv, false, n)) ∧
      (ndv.age ≠ 1 → ndv.growthrate ≤ slowrate →
        (slow_growth_indiv c slowrate max_slow ndv n).1
            = { ndv with slow_yrs := incrIntUS ndv.slow_yrs } ∧
          (incrIntUS ndv.slow_yrs < max_slow →
            (slow_growth_indiv c slowrate max_slow ndv n).2 = (false, n)) ∧
          (max_slow ≤ incrIntUS ndv.slow_yrs →
            (slow_growth_indiv c slowrate max_slow ndv n).2
              = (decide (c.RandUni n ≤ 368 / 1000), n + 1)) ∧
          (incrIntUS ndv.slow_yrs = max_slow → c.RandUni n ≤ 368 / 1000 →
            (slow_growth_indiv c slowrate max_slow ndv n).2 = (true, n + 1))) ∧
      (ndv.age ≠ 1 → ¬ ndv.growthrate ≤ slowrate →
        slow_growth_indiv c slowrate max_slow ndv n
          = ({ ndv with slow_yrs := ndv.slow_yrs - 1 }, false, n)) := by
  refine ⟨?_, ?_, ?_⟩
  · intro h
    simp only [slow_growth_indiv, h, if_true]
  · intro h hs
    refine ⟨?_, ?_, ?_, ?_⟩
    · simp only [slow_growth_indiv, h, if_false, hs, if_true]
      split_ifs <;> rfl
    · intro hlt
      simp only [slow_growth_indiv, h, if_false, hs, if_true, not_le.mpr hlt]
    · intro hle
      simp only [slow_growth_indiv, h, if_false, hs, if_true, hle]
    · intro heq hd
      have hle : max_slow ≤ incrIntUS ndv.slow_yrs := le_of_eq heq.symm
      simp only [slow_growth_indiv, h, if_false, hs, if_true, hle, hd, decide_True]
  · intro h hs
    have e : (max ((ndv.slow_yrs : Int) - 1) 0).toNat = ndv.slow_yrs - 1 := by
      omega
    simp only [slow_growth_indiv, h, if_false, hs, e]

/-- The failing input of C24: in `exSlow` the individual's counter goes from 1 to 2, which
equals `max_slow = 2` and does not exceed it; `_slow_growth` nevertheless draws a random
number for it (the number of draws goes from 0 to 1) and, with the draw 0 of `exCtxZero`,
hands it to `indiv_Kill_Complete`. -/
theorem slow_growth_tested_at_max_slow_witness :
    (exSlow.species 0).max_slow = 2 ∧
      (exSlow.species 0).IndvHead.map (fun x => (x.age, x.slow_yrs)) = [(2, 1)] ∧
      (slow_growth_indiv exCtxZero (1 / 10) 2 { exIndiv with slow_yrs := 1, growthrate := 0 } 0).2
        = (true, 1) ∧
      (_slow_growth exCtx exSlow 0).indivs.map (fun x => x.slow_yrs) = [2] ∧
      (_slow_growth exCtx exSlow 0).draws = 1 ∧
      (_slow_growth exCtxZero exSlow 0).kills.map (fun x => (x.age, x.slow_yrs)) = [(2, 2)] :=
  ⟨by decide!, by decide!,
    ((slow_growth_tested_at_max_slow exCtxZero (1 / 10) 2
      { exIndiv with slow_yrs := 1, growthrate := 0 } 0).2.1 (by decide!) (by decide!)).2.2.2
      (by decide!) (by decide!),
    by decide!, by decide!, by decide!⟩

/-! ### Ageing -/

theorem agedBy_zero (s : SpeciesType) : agedBy 0 s = s := by
  cases s
  simp [agedBy]

theorem agedBy_add (a b : Nat) (s : SpeciesType) : agedBy a (agedBy b s) = agedBy (a + b) s := by
  simp only [agedBy, List.map_map]
  congr 1
  apply List.map_congr_left
  intro x _
  simp only [Function.comp, Function.iterate_add_apply]

theorem incrAges_species_RGroup (acc : State × List (Nat × Nat × Nat)) (sp : Nat) :
    (incrAges_species acc sp).1.RGroup = acc.1.RGroup := rfl

theorem incrAges_species_species (acc : State × List (Nat × Nat × Nat)) (sp j : Nat) :
    (incrAges_species acc sp).1.species j
      = if j = sp then agedBy 1 (acc.1.species j) else acc.1.species j := by
  by_cases hj : j = sp
  · subst hj
    rw [if_pos rfl]
    by_cases hv : j < acc.1.Species.length
    · simp only [incrAges_species]
      rw [modSpecies_species_self _ _ _ hv]
      rfl
    · have h1 : (incrAges_species acc j).1.species j = default :=
        species_default_of_not_lt _ _ (by
          simp only [incrAges_species, modSpecies_length]; exact hv)
      rw [h1, species_default_of_not_lt _ _ hv]
      rfl
  · rw [if_neg hj]
    simp only [incrAges_species]
    exact modSpecies_species_ne _ _ _ _ (Ne.symm hj)

theorem incrAges_fold_species (L : List Nat) :
    ∀ (acc : State × List (Nat × Nat × Nat)) (j : Nat),
      (L.foldl incrAges_species acc).1.species j = agedBy (L.count j) (acc.1.species j) := by
  induction L with
  | nil => intro acc j; simp [agedBy_zero]
  | cons sp t ih =>
    intro acc j
    rw [List.foldl_cons, ih, incrAges_species_species, List.count_cons]
    by_cases hj : j = sp
    · subst hj
      simp [agedBy_add]
    · have hne : ¬ (sp == j) = true := by
        simp only [beq_iff_eq]; exact fun h => hj h.symm
      simp [hj, hne]

theorem incrAges_fold_RGroup (L : List Nat) (acc : State × List (Nat × Nat × Nat)) :
    (L.foldl incrAges_species acc).1.RGroup = acc.1.RGroup :=
  foldl_invariant (fun (a : State × List (Nat × Nat × Nat)) => a.1.RGroup = acc.1.RGroup)
    incrAges_species (fun b sp hb => (incrAges_species_RGroup b sp).trans hb) L acc rfl

theorem incrAges_groups_fold (st : State) (G : List Nat) :
    ∀ acc : State × List (Nat × Nat × Nat), acc.1.RGroup = st.RGroup →
      G.foldl (fun acc rg =>
          if (acc.1.group rg).max_age = 1 then acc
          else (ForEachEstSpp (acc.1.group rg)).foldl incrAges_species acc) acc
        = (G.flatMap (fun rg =>
            if (st.group rg).max_age = 1 then [] else ForEachEstSpp (st.group rg))).foldl
          incrAges_species acc := by
  induction G with
  | nil => intro acc _; rfl
  | cons rg t ih =>
    intro acc hacc
    have hg : acc.1.group rg = st.group rg := group_congr hacc rg
    rw [List.foldl_cons, List.flatMap_cons, List.foldl_append, hg]
    by_cases hm : (st.group rg).max_age = 1
    · rw [if_pos hm, if_pos hm, List.foldl_nil]
      exact ih acc hacc
    · rw [if_neg hm, if_neg hm]
      exact ih _ ((incrAges_fold_RGroup _ acc).trans hacc)

/-- C26, refuted as stated: in `exOld` the individual has the age 5 of its species'
`max_age`; `rgroup_IncrAges` makes it 6, logs the warning and leaves the age at 6. -/
theorem incr_ages_clamp_counterexample :
    exOld.Species.map (fun s => (s.max_age, s.IndvHead.map (fun x => x.age))) = [(5, [5])] ∧
      (rgroup_IncrAges exOld).1.Species.map
        (fun s => (s.max_age, s.IndvHead.map (fun x => x.age))) = [(5, [6])] ∧
      (rgroup_IncrAges exOld).2 = [(0, 6, 5)] := by
  refine ⟨by decide!, by decide!, by decide!⟩

/-- C26, amended: `rgroup_IncrAges` changes nothing but ages; each species ends with the
age of every individual incremented once for each time the species is listed among the
established species of a perennial group, whether or not the new age exceeds `max_age`
(such an age is reported and kept). -/
theorem incr_ages_no_clamp (st : State) :
    (rgroup_IncrAges st).1.RGroup = st.RGroup ∧
      ∀ j, (rgroup_IncrAges st).1.species j
        = agedBy ((incrAges_visits st).count j) (st.species j) := by
  have h : rgroup_IncrAges st = (incrAges_visits st).foldl incrAges_species (st, []) := by
    unfold rgroup_IncrAges incrAges_visits
    exact incrAges_groups_fold st (ForEachGroup st) (st, []) rfl
  rw [h]
  exact ⟨incrAges_fold_RGroup _ _, fun j => incrAges_fold_species _ _ j⟩

/-! ### Redistribution of unused resource -/

theorem foldl_modify_range_idx {β : Type} (h : Nat → β → β) (l : List β) :
    ∀ n m, ((List.range n).foldl (fun acc j => acc.modify (h j) j) l)[m]?
      = (l[m]?).map (fun a => if m < n then h m a else a) := by
  intro n
  induction n with
  | zero => intro m; simp
  | succ n ih =>
    intro m
    rw [List.range_succ, List.foldl_append]
    simp only [List.foldl_cons, List.foldl_nil]
    rw [List.getElem?_modify, ih m]
    cases l[m]? with
    | none => rfl
    | some a =>
      simp only [Option.map_some', Option.map_eq_map]
      congr 1
      by_cases hnm : n = m
      · subst hnm; simp
      · by_cases hlt : m < n
        · simp [hnm, hlt, Nat.lt_succ_of_lt hlt]
        · have : ¬ m < n + 1 := by omega
          simp [hnm, hlt, this]

theorem _res_part_extra_fold (c : Ctx) (isextra : Bool) (extra sum_size : ℚ) (size : List ℚ)
    (n : Nat) : ∀ s : State,
    (List.range n).foldl (fun s rg => s.modGroup rg
        (res_part_extra_group c.delta s.UseSoilwat isextra extra sum_size (size.getD rg 0))) s
      = { s with
          RGroup := ((List.range n).foldl (fun acc j => acc.modify
            (res_part_extra_group c.delta s.UseSoilwat isextra extra sum_size (size.getD j 0)) j)
            s.RGroup) } := by
  induction n with
  | zero => intro s; rfl
  | succ n ih =>
    intro s
    rw [List.range_succ, List.foldl_append, List.foldl_append, ih]
    simp only [List.foldl_cons, List.foldl_nil, State.modGroup]

theorem _res_part_extra_group_at (c : Ctx) (st : State) (isextra : Bool) (extra : ℚ)
    (size : List ℚ) (rg : Nat) (hv : rg < st.RGroup.length) :
    (_res_part_extra c st isextra extra size).group rg =
      res_part_extra_group c.delta st.UseSoilwat isextra extra
        ((ForEachGroup st).map (fun rg => size.getD rg 0)).sum (size.getD rg 0)
        (st.group rg) := by
  have e := _res_part_extra_fold c isextra extra
    ((ForEachGroup st).map (fun rg => size.getD rg 0)).sum size st.RGroup.length st
  have e2 : _res_part_extra c st isextra extra size = _ := e
  rw [e2]
  simp only [State.group, List.getD_eq_getElem?_getD, foldl_modify_range_idx,
    List.getElem?_eq_getElem hv, Option.map_some', Option.getD_some, hv, if_true]

theorem mul_div_self_cancel (m x : ℚ) (hm : m ≠ 0) : m * (x / m) = x := by
  field_simp

theorem handedOut_weighted (c : Ctx) (st : State) (isextra : Bool) (extra : ℚ)
    (size : List ℚ) (hsw : st.UseSoilwat = false) (rg : Nat) (hv : rg < st.RGroup.length)
    (hm : 0 < (st.group rg).min_res_req) :
    (st.group rg).min_res_req *
        handedOut c.delta isextra (st.group rg)
          ((_res_part_extra c st isextra extra size).group rg)
      = extra / ((ForEachGroup st).map (fun rg => size.getD rg 0)).sum *
          (if receivesExtra c.delta isextra (st.group rg) = true then size.getD rg 0 else 0) := by
  rw [_res_part_extra_group_at c st isextra extra size rg hv, hsw]
  have hm0 : (st.group rg).min_res_req ≠ 0 := ne_of_gt hm
  by_cases hz : ZRO c.delta (st.group rg).relsize
  · simp [handedOut, receivesExtra, hz]
  · cases isextra with
    | false =>
      simp only [handedOut, receivesExtra, hz, not_false_eq_true, decide_True, Bool.false_and,
        Bool.not_false, Bool.and_self, if_true, res_part_extra_group, if_false,
        Bool.false_eq_true, false_and, add_sub_cancel_left, mul_div_self_cancel _ _ hm0]
      ring
    | true =>
      cases hu : (st.group rg).use_extra_res with
      | false =>
        simp [handedOut, receivesExtra, hz, hu]
      | true =>
        by_cases hx : GT c.delta (st.group rg).xgrow 0
        · simp only [handedOut, receivesExtra, hz, not_false_eq_true, decide_True, hu,
            Bool.not_true, Bool.and_false, Bool.not_false, Bool.and_self, if_true,
            res_part_extra_group, if_false, Bool.true_eq_false, and_false, hx, and_self,
            Bool.false_eq_true, mul_div_self_cancel _ _ hm0]
          ring
        · simp only [handedOut, receivesExtra, hz, not_false_eq_true, decide_True, hu,
            Bool.not_true, Bool.and_false, Bool.not_false, Bool.and_self, if_true,
            res_part_extra_group, if_false, Bool.true_eq_false, and_false, hx, and_true,
            Bool.false_eq_true, add_sub_cancel_left, mul_div_self_cancel _ _ hm0]
          ring

/-- C29, refuted as stated. `exTiny` after the first loop of `rgroup_PartResources`: both
groups have `min_res_req = 1`, the sizes are `[1/2, 19/20000000]` and the pool is
29999981/20000000. The annual group's relative size 19/20000000 is within the tolerance
of zero, so it receives nothing, but its size counts in `sum_size`: the perennial group
receives 29999981/20000038, less than the pool. -/
theorem res_part_extra_loss_counterexample :
    (partres_base exCtx exTiny).1.UseSoilwat = false ∧
      (partres_base exCtx exTiny).1.RGroup.map (fun g => (g.min_res_req, g.relsize))
        = [(1, 1 / 2), (1, 19 / 20000000)] ∧
      (partres_base exCtx exTiny).2.size_base = [1 / 2, 19 / 20000000] ∧
      (partres_base exCtx exTiny).2.xtra_base = 29999981 / 20000000 ∧
      ((ForEachGroup (partres_base exCtx exTiny).1).map (fun rg =>
          ((partres_base exCtx exTiny).1.group rg).min_res_req *
            handedOut exCtx.delta false ((partres_base exCtx exTiny).1.group rg)
              ((_res_part_extra exCtx (partres_base exCtx exTiny).1 false
                (partres_base exCtx exTiny).2.xtra_base
                (partres_base exCtx exTiny).2.size_base).group rg))).sum
        = 29999981 / 20000038 := by
  refine ⟨by decide!, by decide!, by decide!, by decide!, by decide!⟩

/-- C29, amended: on the proportional path with every `min_res_req > 0` and a positive sum
of `size[]`, a group that receives nothing is unchanged, and the amounts handed out, each
weighted by the group's `min_res_req`, sum to `extra` times the share that the sizes of
the receiving groups have in the sum of all sizes; the sum is exactly `extra` when every
group that receives nothing has size 0. -/
theorem res_part_extra_conservation (c : Ctx) (st : State) (isextra : Bool) (extra : ℚ)
    (size : List ℚ) (hsw : st.UseSoilwat = false)
    (hm : ∀ rg, rg < st.RGroup.length → 0 < (st.group rg).min_res_req)
    (hsum : 0 < ((ForEachGroup st).map (fun rg => size.getD rg 0)).sum) :
    (∀ rg, rg < st.RGroup.length → receivesExtra c.delta isextra (st.group rg) = false →
        (_res_part_extra c st isextra extra size).group rg = st.group rg) ∧
      ((ForEachGroup st).map (fun rg => (st.group rg).min_res_req *
          handedOut c.delta isextra (st.group rg)
            ((_res_part_extra c st isextra extra size).group rg))).sum
        = extra *
            (((ForEachGroup st).map (fun rg =>
                if receivesExtra c.delta isextra (st.group rg) = true then size.getD rg 0
                else 0)).sum
              / ((ForEachGroup st).map (fun rg => size.getD rg 0)).sum) ∧
      ((∀ rg, rg < st.RGroup.length → receivesExtra c.delta isextra (st.group rg) = false →
          size.getD rg 0 = 0) →
        ((ForEachGroup st).map (fun rg => (st.group rg).min_res_req *
          handedOut c.delta isextra (st.group rg)
            ((_res_part_extra c st isextra extra size).group rg))).sum = extra) := by
  have hterm : (ForEachGroup st).map (fun rg => (st.group rg).min_res_req *
        handedOut c.delta isextra (st.group rg)
          ((_res_part_extra c st isextra extra size).group rg))
      = (ForEachGroup st).map (fun rg =>
          extra / ((ForEachGroup st).map (fun rg => size.getD rg 0)).sum *
            (if receivesExtra c.delta isextra (st.group rg) = true then size.getD rg 0
              else 0)) := by
    apply List.map_congr_left
    intro rg hrg
    have hv : rg < st.RGroup.length := by
      simpa [ForEachGroup] using hrg
    exact handedOut_weighted c st isextra extra size hsw rg hv (hm rg hv)
  have hmain : ((ForEachGroup st).map (fun rg => (st.group rg).min_res_req *
          handedOut c.delta isextra (st.group rg)
            ((_res_part_extra c st isextra extra size).group rg))).sum
        = extra *
            (((ForEachGroup st).map (fun rg =>
                if receivesExtra c.delta isextra (st.group rg) = true then size.getD rg 0
                else 0)).sum
              / ((ForEachGroup st).map (fun rg => size.getD rg 0)).sum) := by
    rw [hterm, List.sum_map_mul_left]
    ring
  refine ⟨?_, hmain, ?_⟩
  · intro rg hv hr
    rw [_res_part_extra_group_at c st isextra extra size rg hv]
    by_cases hz : ZRO c.delta (st.group rg).relsize
    · simp only [res_part_extra_group, hz, if_true]
    · have h2 : isextra = true ∧ (st.group rg).use_extra_res = false := by
        simp only [receivesExtra, hz, not_false_eq_true, decide_True, Bool.true_and,
          Bool.not_eq_false', Bool.and_eq_true, Bool.not_eq_true'] at hr
        exact hr
      simp only [res_part_extra_group, hz, if_false, h2, and_self, if_true]
  · intro h0
    rw [hmain]
    have hs : (ForEachGroup st).map (fun rg =>
          if receivesExtra c.delta isextra (st.group rg) = true then size.getD rg 0 else 0)
        = (ForEachGroup st).map (fun rg => size.getD rg 0) := by
      apply List.map_congr_left
      intro rg hrg
      have hv : rg < st.RGroup.length := by
        simpa [ForEachGroup] using hrg
      by_cases hr : receivesExtra c.delta isextra (st.group rg) = true
      · rw [if_pos hr]
      · rw [if_neg hr]
        exact (h0 rg hv (by simpa using hr)).symm
    rw [hs, div_self (ne_of_gt hsum), mul_one]

/-- Witness of `res_part_extra_conservation`: in `exTwo` after the first loop, the pool of
the pass below 1.0 goes entirely to the group that has plants. -/
theorem res_part_extra_conservation_witness :
    ((ForEachGroup (partres_base exCtx exTwo).1).map (fun rg =>
        ((partres_base exCtx exTwo).1.group rg).min_res_req *
          handedOut exCtx.delta false ((partres_base exCtx exTwo).1.group rg)
            ((_res_part_extra exCtx (partres_base exCtx exTwo).1 false
              (partres_base exCtx exTwo).2.xtra_base
              (partres_base exCtx exTwo).2.size_base).group rg))).sum
      = (partres_base exCtx exTwo).2.xtra_base :=
  (res_part_extra_conservation exCtx (partres_base exCtx exTwo).1 false
    (partres_base exCtx exTwo).2.xtra_base (partres_base exCtx exTwo).2.size_base
    (by decide!) (by decide!) (by decide!)).2.2 (by decide!)
/-! ### Establishment barred -/

theorem foldl_mem_invariant {α β : Type} (P : β → Prop) (f : β → α → β) :
    ∀ (l : List α), (∀ b a, a ∈ l → P b → P (f b a)) → ∀ b, P b → P (l.foldl f b) := by
  intro l
  induction l with
  | nil => intro _ b hb; exact hb
  | cons a t ih =>
    intro h b hb
    exact ih (fun b2 a2 ha2 => h b2 a2 (List.mem_cons_of_mem _ ha2)) _
      (h b a (List.mem_cons_self _ _) hb)

theorem map_set_same {α β : Type} (q : α → β) (l : List α) (pos : Nat) (v : α)
    (h : ∀ cur, l[pos]? = some cur → q v = q cur) : (l.set pos v).map q = l.map q := by
  apply List.ext_getElem?
  intro m
  rw [List.getElem?_map, List.getElem?_set]
  by_cases hm : pos = m
  · subst hm
    by_cases hl : pos < l.length
    · simp only [hl, if_true, List.getElem?_map]
      rw [List.getElem?_eq_getElem hl]
      simp only [Option.map_some']
      rw [h _ (List.getElem?_eq_getElem hl)]
    · simp [hl, List.getElem?_eq_none (not_lt.mp hl)]
  · simp [hm]

theorem setIndiv_map {β : Type} (q : IndivType → β) (s : State) (r : IndivRef) (v : IndivType)
    (h : ∀ cur, (s.species r.sp).IndvHead[r.pos]? = some cur → q v = q cur) (j : Nat) :
    ((s.setIndiv r v).species j).IndvHead.map q = (s.species j).IndvHead.map q := by
  unfold State.setIndiv
  by_cases hj : r.sp = j
  · subst hj
    by_cases hv : r.sp < s.Species.length
    · rw [modSpecies_species_self _ _ _ hv]
      exact map_set_same q _ _ _ h
    · rw [species_default_of_not_lt s _ hv,
        species_default_of_not_lt _ _ (by rw [modSpecies_length]; exact hv)]
  · rw [modSpecies_species_ne _ _ _ _ hj]

theorem RGroup_GetIndivs_snapshot (s : State) (rg : Nat) (p : IndivRef × IndivType)
    (hp : p ∈ RGroup_GetIndivs s rg SortKind.SORT_0) :
    (s.species p.1.sp).IndvHead[p.1.pos]? = some p.2 := by
  simp only [RGroup_GetIndivs, ne_eq, not_true_eq_false, and_false, if_false,
    List.mem_flatMap, List.mem_map] at hp
  obtain ⟨sp, _, x, hx, rfl⟩ := hp
  exact List.mem_enum_iff_getElem?.mp hx

theorem RGroup_Update_Newsize_indivs {β : Type} (q : IndivType → β)
    (hq : ∀ i x, q { i with grp_res_prop := x } = q i) (c : Ctx) (s : State) (rg : Nat)
    (j : Nat) :
    ((RGroup_Update_Newsize c s rg).species j).IndvHead.map q = (s.species j).IndvHead.map q := by
  simp only [RGroup_Update_Newsize]
  generalize hsum :
    ((ForEachEstSpp (s.group rg)).map (fun sp => (s.species sp).relsize)).sum = sumsize
  generalize hst1 : s.modGroup rg (fun g => { g with relsize := sumsize / (g.max_spp : ℚ) })
    = st1
  have h1 : ∀ i, st1.species i = s.species i := by
    intro i; rw [← hst1]; rfl
  have key : ∀ (l : List (IndivRef × IndivType)),
      (∀ p ∈ l, (st1.species p.1.sp).IndvHead[p.1.pos]? = some p.2) →
      ∀ i, ((l.foldl (fun s2 p => s2.setIndiv p.1
          { p.2 with grp_res_prop := p.2.relsize / sumsize }) st1).species i).IndvHead.map q
        = (st1.species i).IndvHead.map q := by
    intro l hl
    have := foldl_mem_invariant
      (fun s2 : State => ∀ i, (s2.species i).IndvHead.map q = (st1.species i).IndvHead.map q)
      (fun s2 (p : IndivRef × IndivType) => s2.setIndiv p.1
          { p.2 with grp_res_prop := p.2.relsize / sumsize }) l
      (fun b a ha hb i => by
        rw [setIndiv_map q b a.1 _ _ i]
        · exact hb i
        · intro cur hcur
          rw [hq]
          have e1 := hb a.1.sp
          have e2 : ((b.species a.1.sp).IndvHead.map q)[a.1.pos]? = some (q cur) := by
            rw [List.getElem?_map, hcur]; rfl
          rw [e1, List.getElem?_map, hl a ha] at e2
          simpa using e2)
      st1 (fun _ => rfl)
    exact this
  have e : ∀ t : State, ∀ f : GroupType → GroupType, (t.modGroup rg f).species j = t.species j :=
    fun _ _ => rfl
  rw [e]
  split_ifs with hm
  · rw [key _ (fun p hp => RGroup_GetIndivs_snapshot st1 rg p hp) j, h1]
  · rw [h1]
theorem sameButEst_growFields {a b : GroupType} (h : sameButEst a b) :
    b.max_age = a.max_age ∧ b.succulent = a.succulent ∧ b.xgrow = a.xgrow ∧
      b.use_extra_res = a.use_extra_res := by
  have h1 := congrArg GroupType.max_age h
  have h2 := congrArg GroupType.succulent h
  have h3 := congrArg GroupType.xgrow h
  have h4 := congrArg GroupType.use_extra_res h
  exact ⟨h1, h2, h3, h4⟩

theorem sameButIndivs_growFields {a b : SpeciesType} (h : sameButIndivs a b) :
    b.sp_num = a.sp_num ∧ b.res_grp = a.res_grp ∧ b.relsize = a.relsize ∧
      b.extragrowth = a.extragrowth := by
  have h1 := congrArg SpeciesType.sp_num h.2
  have h2 := congrArg SpeciesType.res_grp h.2
  have h3 := congrArg SpeciesType.relsize h.2
  have h4 := congrArg SpeciesType.extragrowth h.2
  exact ⟨h1, h2, h3, h4⟩

theorem growFrame_refl (s : State) : growFrame s s :=
  ⟨rfl, rfl, rfl, fun _ => ⟨sameButEst_refl _, rfl, rfl⟩, fun _ => ⟨rfl, rfl⟩⟩

theorem growFrame_trans {a b d : State} (h1 : growFrame a b) (h2 : growFrame b d) :
    growFrame a d :=
  ⟨h2.1.trans h1.1, h2.2.1.trans h1.2.1, h2.2.2.1.trans h1.2.2.1,
    fun G => ⟨sameButEst_trans (h1.2.2.2.1 G).1 (h2.2.2.2.1 G).1,
      (h2.2.2.2.1 G).2.1.trans (h1.2.2.2.1 G).2.1,
      (h2.2.2.2.1 G).2.2.trans (h1.2.2.2.1 G).2.2⟩,
    fun j => ⟨(h2.2.2.2.2 j).1.trans (h1.2.2.2.2 j).1,
      (h2.2.2.2.2 j).2.trans (h1.2.2.2.2 j).2⟩⟩

theorem quietStep_refl (s : State) : quietStep s s :=
  ⟨growFrame_refl s, fun _ => ⟨rfl, rfl⟩⟩

theorem quietStep_trans {a b d : State} (h1 : quietStep a b) (h2 : quietStep b d) :
    quietStep a d :=
  ⟨growFrame_trans h1.1 h2.1,
    fun j => ⟨(h2.2 j).1.trans (h1.2 j).1, (h2.2 j).2.trans (h1.2 j).2⟩⟩

theorem RGroup_Update_Newsize_quiet (c : Ctx) (s : State) (rg : Nat) :
    quietStep s (RGroup_Update_Newsize c s rg) := by
  obtain ⟨hl, hsb, hgl, hne, hse, hes, hec, _⟩ := RGroup_Update_Newsize_effect c s rg
  have hsum : ∀ j, indivSum ((RGroup_Update_Newsize c s rg).species j)
      = indivSum (s.species j) := by
    intro j
    unfold indivSum
    rw [RGroup_Update_Newsize_indivs (fun ndv => ndv.relsize) (fun _ _ => rfl) c s rg j]
  refine ⟨⟨hl, hgl, (RGroup_Update_Newsize_frame c s rg).2.1, ?_, ?_⟩, ?_⟩
  · intro G
    refine ⟨hse G, ?_, ?_⟩
    · by_cases hG : G = rg
      · subst hG; exact hes
      · rw [hne G hG]
    · by_cases hG : G = rg
      · subst hG; exact hec
      · rw [hne G hG]
  · intro j
    exact ⟨(sameButIndivs_growFields (hsb j)).1, (sameButIndivs_growFields (hsb j)).2.1⟩
  · intro j
    refine ⟨?_, (sameButIndivs_growFields (hsb j)).2.2.2⟩
    rw [hsum j, (sameButIndivs_growFields (hsb j)).2.2.1]

theorem getD_modify (f : SpeciesType → SpeciesType) (l : List SpeciesType) (sp j : Nat) :
    (l.modify f sp).getD j default
      = if j = sp ∧ sp < l.length then f (l.getD j default) else l.getD j default := by
  simp only [List.getD_eq_getElem?_getD, List.getElem?_modify]
  by_cases hj : sp = j
  · subst hj
    by_cases hl : sp < l.length
    · simp [hl, List.getElem?_eq_getElem hl]
    · simp [hl, List.getElem?_eq_none (not_lt.mp hl)]
  · have hj2 : ¬ j = sp := fun h => hj h.symm
    simp [hj, hj2]

theorem modSpecies_species (s : State) (sp j : Nat) (f : SpeciesType → SpeciesType) :
    (s.modSpecies sp f).species j
      = if j = sp ∧ sp < s.Species.length then f (s.species j) else s.species j :=
  getD_modify f s.Species sp j

theorem modSpecies_quiet (s : State) (sp : Nat) (f : SpeciesType → SpeciesType)
    (h1 : (f (s.species sp)).sp_num = (s.species sp).sp_num)
    (h2 : (f (s.species sp)).res_grp = (s.species sp).res_grp)
    (h3 : (f (s.species sp)).relsize - indivSum (f (s.species sp))
      = (s.species sp).relsize - indivSum (s.species sp))
    (h4 : (f (s.species sp)).extragrowth = (s.species sp).extragrowth) :
    quietStep s (s.modSpecies sp f) := by
  refine ⟨⟨modSpecies_length _ _ _, rfl, rfl, fun _ => ⟨sameButEst_refl _, rfl, rfl⟩, ?_⟩, ?_⟩
  · intro j
    rw [modSpecies_species]
    split_ifs with h
    · rw [h.1]; exact ⟨h1, h2⟩
    · exact ⟨rfl, rfl⟩
  · intro j
    rw [modSpecies_species]
    split_ifs with h
    · rw [h.1]; exact ⟨h3, h4⟩
    · exact ⟨rfl, rfl⟩

theorem Species_Update_Newsize_effect (c : Ctx) (s : State) (sp : Nat) (d : ℚ) :
    quietStep (s.modSpecies sp (fun x => { x with relsize := x.relsize + d }))
      (Species_Update_Newsize c s sp d) := by
  unfold Species_Update_Newsize
  exact RGroup_Update_Newsize_quiet c _ _

theorem grow_indiv_size (c : Ctx) (s : SpeciesType) (t : ℚ) (ndv : IndivType) (n : Nat) :
    (grow_indiv c s t ndv n).1.relsize = ndv.relsize + (grow_indiv c s t ndv n).2.1 := by
  unfold grow_indiv
  split_ifs <;> rfl

theorem grow_indivs_sum (c : Ctx) (s : SpeciesType) (t : ℚ) :
    ∀ (l : List IndivType) (acc : ℚ) (n : Nat),
      ((grow_indivs c s t l acc n).1.map (fun ndv => ndv.relsize)).sum + acc
        = (l.map (fun ndv => ndv.relsize)).sum + (grow_indivs c s t l acc n).2.1 := by
  intro l
  induction l with
  | nil => intro acc n; simp [grow_indivs]
  | cons a tl ih =>
    intro acc n
    simp only [grow_indivs, List.map_cons, List.sum_cons]
    have h := ih (acc + (grow_indiv c s t a n).2.1) (grow_indiv c s t a n).2.2
    rw [grow_indiv_size]
    linarith

theorem grow_species_quiet (c : Ctx) (acc : State × ℚ) (sp : Nat) :
    quietStep acc.1 (grow_species c acc sp).1 := by
  unfold grow_species
  simp only
  generalize htg : (if (acc.1.species sp).tempclass ≠ TempClass.NoSeason then
      acc.1.Env.temp_reduction (acc.1.species sp).tempclass else acc.2) = tgmod
  generalize hr : grow_indivs c (acc.1.species sp) tgmod (acc.1.species sp).IndvHead 0
      acc.1.draws = r
  refine quietStep_trans ?_ (Species_Update_Newsize_effect c _ sp r.2.1)
  have hsum := grow_indivs_sum c (acc.1.species sp) tgmod (acc.1.species sp).IndvHead 0
      acc.1.draws
  rw [hr] at hsum
  have e : ∀ j, (State.modSpecies
        { acc.1.modSpecies sp (fun x => { x with IndvHead := r.1 }) with draws := r.2.2 } sp
        (fun x => { x with relsize := x.relsize + r.2.1 })).species j
      = if j = sp ∧ sp < acc.1.Species.length then
          { acc.1.species j with IndvHead := r.1,
                                  relsize := (acc.1.species j).relsize + r.2.1 }
        else acc.1.species j := by
    intro j
    rw [modSpecies_species]
    have e1 : (State.species
        { acc.1.modSpecies sp (fun x => { x with IndvHead := r.1 }) with draws := r.2.2 } j)
        = (acc.1.modSpecies sp (fun x => { x with IndvHead := r.1 })).species j := rfl
    have e2 : (State.mk (acc.1.modSpecies sp (fun x => { x with IndvHead := r.1 })).RGroup
        (acc.1.modSpecies sp (fun x => { x with IndvHead := r.1 })).Species
        (acc.1.modSpecies sp (fun x => { x with IndvHead := r.1 })).Env
        (acc.1.modSpecies sp (fun x => { x with IndvHead := r.1 })).UseSoilwat r.2.2
        ).Species.length = acc.1.Species.length := modSpecies_length _ _ _
    rw [e1, modSpecies_species]
    simp only [e2]
    split_ifs <;> rfl
  refine ⟨⟨?_, rfl, rfl, fun _ => ⟨sameButEst_refl _, rfl, rfl⟩, ?_⟩, ?_⟩
  · rw [modSpecies_length]; exact modSpecies_length _ _ _
  · intro j
    rw [e j]
    split_ifs <;> exact ⟨rfl, rfl⟩
  · intro j
    rw [e j]
    split_ifs with h
    · refine ⟨?_, rfl⟩
      rw [h.1]
      simp only [indivSum]
      rw [h.1] at *
      linarith
    · exact ⟨rfl, rfl⟩
theorem growInv_mono {d : ℚ} {st s : State} {V W : Nat → Prop} (h : ∀ j, V j → W j)
    (hi : growInv d st V s) : growInv d st W s :=
  ⟨hi.1, fun j => ⟨(hi.2 j).1, fun hx => ⟨h j ((hi.2 j).2 hx).1, ((hi.2 j).2 hx).2⟩⟩⟩

theorem growInv_quiet {d : ℚ} {st s t : State} {V : Nat → Prop} (hi : growInv d st V s)
    (hq : quietStep s t) : growInv d st V t := by
  refine ⟨growFrame_trans hi.1 hq.1, fun j => ⟨?_, ?_⟩⟩
  · rw [(hq.2 j).1, (hq.2 j).2]; exact (hi.2 j).1
  · rw [(hq.2 j).2]; exact (hi.2 j).2

theorem extra_growth_species_effect (c : Ctx) (rg : Nat) (s : State) (sp : Nat)
    (hsp : sp < s.Species.length) (hnum : (s.species sp).sp_num = sp) :
    growFrame s (extra_growth_species c rg s sp) ∧
      (∀ j, j ≠ sp →
        ((extra_growth_species c rg s sp).species j).relsize
            - indivSum ((extra_growth_species c rg s sp).species j)
          = (s.species j).relsize - indivSum (s.species j) ∧
        ((extra_growth_species c rg s sp).species j).extragrowth
          = (s.species j).extragrowth) ∧
      ((extra_growth_species c rg s sp).species sp).relsize
          - indivSum ((extra_growth_species c rg s sp).species sp)
        = (s.species sp).relsize - indivSum (s.species sp)
          + ((extra_growth_species c rg s sp).species sp).extragrowth := by
  unfold extra_growth_species
  simp only
  generalize hxg : (s.species sp).IndvHead.foldl (fun acc ndv =>
      acc + ndv.res_extra * (s.group rg).min_res_req * (s.Env.ppt : ℚ) * (s.group rg).xgrow
        * (1 / (s.species sp).mature_biomass)) (s.species sp).extragrowth = xg
  have e1 : (s.modSpecies sp (fun x => { x with extragrowth := xg })).species sp
      = { s.species sp with extragrowth := xg } := modSpecies_species_self _ _ _ hsp
  rw [e1]
  simp only [hnum]
  have hq := Species_Update_Newsize_effect c
    (s.modSpecies sp (fun x => { x with extragrowth := xg })) sp xg
  have hl1 : sp < (s.modSpecies sp (fun x => { x with extragrowth := xg })).Species.length := by
    rw [modSpecies_length]; exact hsp
  have em : ∀ j, ((s.modSpecies sp (fun x => { x with extragrowth := xg })).modSpecies sp
        (fun x => { x with relsize := x.relsize + xg })).species j
      = if j = sp then { s.species sp with extragrowth := xg,
                                           relsize := (s.species sp).relsize + xg }
        else s.species j := by
    intro j
    by_cases hj : j = sp
    · subst hj
      rw [modSpecies_species_self _ _ _ hl1, e1]
      simp
    · rw [modSpecies_species_ne _ _ _ _ (fun h => hj h.symm),
        modSpecies_species_ne _ _ _ _ (fun h => hj h.symm)]
      simp [hj]
  have hf : growFrame s ((s.modSpecies sp (fun x => { x with extragrowth := xg })).modSpecies sp
        (fun x => { x with relsize := x.relsize + xg })) := by
    refine ⟨?_, rfl, rfl, fun _ => ⟨sameButEst_refl _, rfl, rfl⟩, ?_⟩
    · rw [modSpecies_length, modSpecies_length]
    · intro j
      rw [em j]
      split_ifs with h
      · rw [h]; exact ⟨rfl, rfl⟩
      · exact ⟨rfl, rfl⟩
  refine ⟨growFrame_trans hf hq.1, ?_, ?_⟩
  · intro j hj
    rw [(hq.2 j).1, (hq.2 j).2, em j, if_neg hj]
    exact ⟨rfl, rfl⟩
  · rw [(hq.2 sp).1, (hq.2 sp).2, em sp, if_pos rfl]
    simp only [indivSum]
    ring

theorem extra_growth_loop (c : Ctx) (st : State) (k : Nat)
    (hge : getsExtraGrowth c.delta st.Env.wet_dry (st.group k)) :
    ∀ (l : List Nat), l.Nodup →
      (∀ x ∈ l, x < st.Species.length ∧ (st.species x).res_grp = k ∧
        (st.species x).sp_num = x) →
      ∀ s, growInv c.delta st
          (fun j => (st.species j).res_grp < k ∨ ((st.species j).res_grp = k ∧ j ∉ l)) s →
        growInv c.delta st
          (fun j => (st.species j).res_grp < k ∨ ((st.species j).res_grp = k ∧ j ∉ []))
          (l.foldl (extra_growth_species c k) s) := by
  intro l
  induction l with
  | nil => intro _ _ s hs; exact hs
  | cons a t ih =>
    intro hnd hmem s hs
    rw [List.foldl_cons]
    have hat : a ∉ t := (List.nodup_cons.mp hnd).1
    obtain ⟨ha1, ha2, ha3⟩ := hmem a (List.mem_cons_self _ _)
    apply ih (List.nodup_cons.mp hnd).2 (fun x hx => hmem x (List.mem_cons_of_mem _ hx))
    have hlen : a < s.Species.length := by rw [hs.1.1]; exact ha1
    have hnum : (s.species a).sp_num = a := by rw [(hs.1.2.2.2.2 a).1]; exact ha3
    obtain ⟨hf, hother, hself⟩ := extra_growth_species_effect c k s a hlen hnum
    have hx0 : (s.species a).extragrowth = 0 := by
      by_contra hne
      rcases ((hs.2 a).2 hne).1 with h | h
      · omega
      · exact h.2 (List.mem_cons_self _ _)
    refine ⟨growFrame_trans hs.1 hf, fun j => ?_⟩
    by_cases hj : j = a
    · subst hj
      refine ⟨?_, fun _ => ⟨Or.inr ⟨ha2, hat⟩, by rw [ha2]; exact hge⟩⟩
      rw [hself, (hs.2 j).1, hx0]
      ring
    · rw [(hother j hj).1, (hother j hj).2]
      refine ⟨(hs.2 j).1, fun hne => ⟨?_, ((hs.2 j).2 hne).2⟩⟩
      rcases ((hs.2 j).2 hne).1 with h | h
      · exact Or.inl h
      · exact Or.inr ⟨h.1, fun hm => h.2 (List.mem_cons_of_mem _ hm)⟩
theorem grow_species_fold_quiet (c : Ctx) (l : List Nat) (acc : State × ℚ) :
    quietStep acc.1 (l.foldl (grow_species c) acc).1 :=
  foldl_invariant (fun a : State × ℚ => quietStep acc.1 a.1) (grow_species c)
    (fun b a hb => quietStep_trans hb (grow_species_quiet c b a)) l acc (quietStep_refl _)

theorem ForEachEstSpp_frame {st s : State} (h : growFrame st s) (k : Nat) :
    ForEachEstSpp (s.group k) = ForEachEstSpp (st.group k) := by
  unfold ForEachEstSpp
  rw [(h.2.2.2.1 k).2.1, (h.2.2.2.1 k).2.2]

theorem extra_growth_inv (c : Ctx) (st : State) (k : Nat) (s : State)
    (hnd : (ForEachEstSpp (st.group k)).Nodup)
    (hmem : ∀ x ∈ ForEachEstSpp (st.group k), x < st.Species.length ∧
      (st.species x).res_grp = k ∧ (st.species x).sp_num = x)
    (hg : (st.group k).est_count ≠ 0 ∧
      ¬ ((st.group k).succulent = true ∧ st.Env.wet_dry = PPTClass.Ppt_Wet))
    (hs : growInv c.delta st (fun j => (st.species j).res_grp < k) s) :
    growInv c.delta st (fun j => (st.species j).res_grp < k + 1) (_extra_growth c s k) := by
  have hfields := sameButEst_growFields (hs.1.2.2.2.1 k).1
  have hskip : growInv c.delta st (fun j => (st.species j).res_grp < k + 1) s :=
    growInv_mono (fun j h => Nat.lt_succ_of_lt h) hs
  unfold _extra_growth
  split_ifs with h1 h2 h3
  · exact hskip
  · exact hskip
  · exact hskip
  · have hge : getsExtraGrowth c.delta st.Env.wet_dry (st.group k) := by
      refine ⟨?_, hg.1, hg.2, ?_, ?_⟩
      · rw [← hfields.1]; exact h1
      · rw [← hfields.2.2.1]; exact h2
      · rw [← hfields.2.2.2]; simpa using h3
    rw [ForEachEstSpp_frame hs.1 k]
    have h0 : growInv c.delta st
        (fun j => (st.species j).res_grp < k ∨
          ((st.species j).res_grp = k ∧ j ∉ ForEachEstSpp (st.group k))) s :=
      growInv_mono (fun j h => Or.inl h) hs
    have hend := extra_growth_loop c st k hge _ hnd hmem s h0
    refine growInv_mono (fun j h => ?_) hend
    rcases h with h | h
    · exact Nat.lt_succ_of_lt h
    · rw [h.1]; exact Nat.lt_succ_self k

theorem grow_group_inv (c : Ctx) (st : State) (k : Nat) (acc : State × ℚ)
    (hnd : (ForEachEstSpp (st.group k)).Nodup)
    (hmem : ∀ x ∈ ForEachEstSpp (st.group k), x < st.Species.length ∧
      (st.species x).res_grp = k ∧ (st.species x).sp_num = x)
    (hs : growInv c.delta st (fun j => (st.species j).res_grp < k) acc.1) :
    growInv c.delta st (fun j => (st.species j).res_grp < k + 1) (grow_group c acc k).1 := by
  have hfields := sameButEst_growFields (hs.1.2.2.2.1 k).1
  have hskip : growInv c.delta st (fun j => (st.species j).res_grp < k + 1) acc.1 :=
    growInv_mono (fun j h => Nat.lt_succ_of_lt h) hs
  unfold grow_group
  simp only
  split_ifs with h1 h2 h3
  · exact hskip
  · exact hskip
  · exact hskip
  · apply extra_growth_inv c st k _ hnd hmem
    · refine ⟨?_, ?_⟩
      · rw [← (hs.1.2.2.2.1 k).2.2]; exact h2
      · rw [← hfields.2.1, ← hs.1.2.2.1]; exact h3
    · exact growInv_quiet hs (grow_species_fold_quiet c _ acc)

/-- C21, refuted as stated. In `exGrow` the species' size 1 is the sum of its individuals'
sizes; after `rgroup_Grow` the individuals sum to 437/320 but the species' size is
2249/1600: the extra growth 1/25 of the group was added to the species and to no
individual. -/
theorem grow_reconciliation_counterexample :
    exGrow.Species.map (fun s => (s.max_age, s.relsize, indivSum s, s.extragrowth))
        = [(5, 1, 1, 0)] ∧
      (rgroup_Grow exCtx 1 exGrow).Species.map
          (fun s => (s.relsize, indivSum s, s.extragrowth))
        = [(2249 / 1600, 437 / 320, 1 / 25)] := by
  refine ⟨by decide!, by decide!⟩

/-- C21, amended. Let every species carry its index as `sp_num`, let the established
species of every group be distinct species of that group, and let every `extragrowth` be 0
before the call. Then a species whose size
equalled the sum of its individuals' sizes before `rgroup_Grow` has afterwards the size
sum of its individuals' sizes plus its `extragrowth`; and if its group does not get extra
growth (annual, nothing established, succulent in a wet year, `xgrow` zero or
`use_extra_res` off), its `extragrowth` is still 0 and its size is the sum of its
individuals' sizes. -/
theorem grow_reconciliation (c : Ctx) (tgmod0 : ℚ) (st : State)
    (hnum : ∀ sp, sp < st.Species.length → (st.species sp).sp_num = sp)
    (hest : ∀ rg, rg < st.RGroup.length → (ForEachEstSpp (st.group rg)).Nodup ∧
      ∀ sp ∈ ForEachEstSpp (st.group rg),
        sp < st.Species.length ∧ (st.species sp).res_grp = rg)
    (hx0 : ∀ s ∈ st.Species, s.extragrowth = 0) (sp : Nat)
    (hrec : (st.species sp).relsize = indivSum (st.species sp)) :
    ((rgroup_Grow c tgmod0 st).species sp).relsize
        = indivSum ((rgroup_Grow c tgmod0 st).species sp)
          + ((rgroup_Grow c tgmod0 st).species sp).extragrowth ∧
      (¬ getsExtraGrowth c.delta st.Env.wet_dry (st.group (st.species sp).res_grp) →
        ((rgroup_Grow c tgmod0 st).species sp).extragrowth = 0 ∧
        ((rgroup_Grow c tgmod0 st).species sp).relsize
          = indivSum ((rgroup_Grow c tgmod0 st).species sp)) := by
  have hx : ∀ j, (st.species j).extragrowth = 0 := by
    intro j
    by_cases hj : j < st.Species.length
    · apply hx0
      simp only [State.species, List.getD_eq_getElem?_getD, List.getElem?_eq_getElem hj,
        Option.getD_some]
      exact List.getElem_mem hj
    · rw [species_default_of_not_lt st j hj]; rfl
  have hinv : growInv c.delta st (fun j => (st.species j).res_grp < st.RGroup.length)
      (rgroup_Grow c tgmod0 st) := by
    unfold rgroup_Grow ForEachGroup
    refine foldl_range_invariant
      (fun k (a : State × ℚ) => growInv c.delta st (fun j => (st.species j).res_grp < k) a.1)
      (grow_group c) st.RGroup.length ?_ (st, tgmod0) ?_
    · intro k b hk hb
      exact grow_group_inv c st k b (hest k hk).1
        (fun x hx2 => ⟨((hest k hk).2 x hx2).1, ((hest k hk).2 x hx2).2,
          hnum x ((hest k hk).2 x hx2).1⟩) hb
    · refine ⟨growFrame_refl st, fun j => ⟨?_, fun h => absurd (hx j) h⟩⟩
      rw [hx j]; ring
  have h1 := (hinv.2 sp).1
  have h2 := (hinv.2 sp).2
  have hmain : ((rgroup_Grow c tgmod0 st).species sp).relsize
      = indivSum ((rgroup_Grow c tgmod0 st).species sp)
        + ((rgroup_Grow c tgmod0 st).species sp).extragrowth := by
    rw [hrec] at h1
    linarith
  refine ⟨hmain, fun hng => ?_⟩
  have h0 : ((rgroup_Grow c tgmod0 st).species sp).extragrowth = 0 := by
    by_contra hne
    exact hng (h2 hne).2
  refine ⟨h0, ?_⟩
  rw [hmain, h0, add_zero]

/-- Witness of `grow_reconciliation`: in `exGrow` the species' size after the call is the
sum of its individuals' sizes plus its `extragrowth`; in `exExtraAmple`, whose group has
`xgrow = 0`, it is the sum of its individuals' sizes. -/
theorem grow_reconciliation_witness :
    ((rgroup_Grow exCtx 1 exGrow).species 0).relsize
        = indivSum ((rgroup_Grow exCtx 1 exGrow).species 0)
          + ((rgroup_Grow exCtx 1 exGrow).species 0).extragrowth ∧
      ((rgroup_Grow exCtx 1 exExtraAmple).species 0).relsize
        = indivSum ((rgroup_Grow exCtx 1 exExtraAmple).species 0) :=
  ⟨(grow_reconciliation exCtx 1 exGrow (by decide!) (by decide!) (by decide!) 0
      (by decide!)).1,
    ((grow_reconciliation exCtx 1 exExtraAmple (by decide!) (by decide!) (by decide!) 0
      (by decide!)).2 (by decide!)).2⟩
/-! ### Establishment barred by disturbance or start year -/

/-- With the same establishment functions, `exThree` in year 1 on an undisturbed plot:
the species of the started group gains a seedling, the species of the groups that start
in year 5 do not, and the annual group's `regen_ok` is false. In year 6 the perennial
species of group 2 gains a seedling too and the annual group may regenerate. -/
theorem establish_open_example :
    exThree.Species.map (fun s => s.IndvHead.length) = [2, 0, 1] ∧
      (rgroup_Establish exOps exCtx 0 1 exThree).Species.map (fun s => s.IndvHead.length)
        = [3, 0, 1] ∧
      (rgroup_Establish exOps exCtx 0 1 exThree).RGroup.map (fun g => g.regen_ok)
        = [false, false, false] ∧
      (rgroup_Establish exOps exCtx 0 6 exThree).Species.map (fun s => s.IndvHead.length)
        = [3, 0, 2] ∧
      (rgroup_Establish exOps exCtx 0 6 exThree).RGroup.map (fun g => g.regen_ok)
        = [false, true, false] := by
  refine ⟨by decide!, by decide!, by decide!, by decide!, by decide!⟩
/-! ### What `rgroup_ResPartIndiv` stores in the state -/

theorem setIndiv_lengths (s : State) (r : IndivRef) (v : IndivType) :
    (s.setIndiv r v).Species.length = s.Species.length ∧
      ∀ j, ((s.setIndiv r v).species j).IndvHead.length = (s.species j).IndvHead.length :=
  ⟨modSpecies_length _ _ _, fun j => (setIndiv_species s r v j).1⟩

theorem indivAt_setIndiv_self (s : State) (r : IndivRef) (v : IndivType)
    (hsp : r.sp < s.Species.length) (hpos : r.pos < (s.species r.sp).IndvHead.length) :
    (s.setIndiv r v).indivAt r = v := by
  unfold State.indivAt State.setIndiv
  rw [modSpecies_species_self _ _ _ hsp]
  simp [List.getD_eq_getElem?_getD, List.getElem?_set, hpos]

theorem indivAt_setIndiv_ne (s : State) (r r2 : IndivRef) (v : IndivType) (h : r ≠ r2) :
    (s.setIndiv r v).indivAt r2 = s.indivAt r2 := by
  unfold State.indivAt State.setIndiv
  by_cases hsp : r.sp = r2.sp
  · have hpos : r.pos ≠ r2.pos := by
      intro hp
      apply h
      cases r; cases r2
      simp only at hsp hp
      subst hsp hp
      rfl
    rw [← hsp]
    by_cases hv : r.sp < s.Species.length
    · rw [modSpecies_species_self _ _ _ hv]
      simp [List.getD_eq_getElem?_getD, List.getElem?_set, hpos]
    · rw [species_default_of_not_lt s _ hv,
        species_default_of_not_lt _ _ (by rw [modSpecies_length]; exact hv)]
  · rw [modSpecies_species_ne _ _ _ _ hsp]

theorem foldl_setIndiv_keep (l : List (IndivRef × IndivType)) (r : IndivRef)
    (hr : r ∉ l.map Prod.fst) :
    ∀ s : State, (l.foldl (fun s2 p => s2.setIndiv p.1 p.2) s).indivAt r = s.indivAt r := by
  induction l with
  | nil => intro s; rfl
  | cons a t ih =>
    intro s
    rw [List.foldl_cons, ih (fun h => hr (by simp [h]))]
    apply indivAt_setIndiv_ne
    intro h
    apply hr
    simp [h]

theorem foldl_setIndiv_lengths (l : List (IndivRef × IndivType)) (s : State) :
    (l.foldl (fun s2 p => s2.setIndiv p.1 p.2) s).Species.length = s.Species.length ∧
      ∀ j, ((l.foldl (fun s2 p => s2.setIndiv p.1 p.2) s).species j).IndvHead.length
        = (s.species j).IndvHead.length :=
  foldl_invariant
    (fun t : State => t.Species.length = s.Species.length ∧
      ∀ j, (t.species j).IndvHead.length = (s.species j).IndvHead.length)
    (fun s2 p => s2.setIndiv p.1 p.2)
    (fun b a hb => ⟨(setIndiv_lengths b a.1 a.2).1.trans hb.1,
      fun j => ((setIndiv_lengths b a.1 a.2).2 j).trans (hb.2 j)⟩) l s ⟨rfl, fun _ => rfl⟩

theorem foldl_setIndiv_read (l : List (IndivRef × IndivType)) :
    (l.map Prod.fst).Nodup →
    ∀ s : State, (∀ p ∈ l, p.1.sp < s.Species.length ∧
        p.1.pos < (s.species p.1.sp).IndvHead.length) →
      l.map (fun p => (l.foldl (fun s2 p => s2.setIndiv p.1 p.2) s).indivAt p.1)
        = l.map Prod.snd := by
  induction l with
  | nil => intro _ s _; rfl
  | cons a t ih =>
    intro hnd s hv
    simp only [List.map_cons, List.nodup_cons] at hnd
    have ha := hv a (List.mem_cons_self _ _)
    simp only [List.map_cons, List.foldl_cons]
    have hl := setIndiv_lengths s a.1 a.2
    congr 1
    · rw [foldl_setIndiv_keep t a.1 hnd.1]
      exact indivAt_setIndiv_self s a.1 a.2 ha.1 ha.2
    · apply ih hnd.2
      intro p hp
      have := hv p (List.mem_cons_of_mem _ hp)
      rw [hl.1, hl.2]
      exact this

theorem RGroup_GetIndivs_valid (s : State) (rg : Nat) (sort : SortKind)
    (p : IndivRef × IndivType) (hp : p ∈ RGroup_GetIndivs s rg sort) :
    p.1.sp ∈ ForEachEstSpp (s.group rg) ∧ p.1.sp < s.Species.length ∧
      p.1.pos < (s.species p.1.sp).IndvHead.length ∧ s.indivAt p.1 = p.2 := by
  have hp0 := (RGroup_GetIndivs_perm s rg sort).mem_iff.mp hp
  have hsnap := RGroup_GetIndivs_snapshot s rg p hp0
  have hpos : p.1.pos < (s.species p.1.sp).IndvHead.length := by
    by_contra h
    rw [List.getElem?_eq_none (not_lt.mp h)] at hsnap
    exact Option.noConfusion hsnap
  have hsp : p.1.sp < s.Species.length := by
    by_contra h
    rw [species_default_of_not_lt s _ h] at hpos
    exact Nat.not_lt_zero _ hpos
  refine ⟨?_, hsp, hpos, ?_⟩
  · simp only [RGroup_GetIndivs, ne_eq, not_true_eq_false, and_false, if_false,
      List.mem_flatMap, List.mem_map] at hp0
    obtain ⟨sp, hsp2, x, _, rfl⟩ := hp0
    exact hsp2
  · simp [State.indivAt, List.getD_eq_getElem?_getD, hsnap]

theorem RGroup_GetIndivs_refs_nodup (s : State) (rg : Nat) (sort : SortKind)
    (hnd : (ForEachEstSpp (s.group rg)).Nodup) :
    ((RGroup_GetIndivs s rg sort).map Prod.fst).Nodup := by
  rw [((RGroup_GetIndivs_perm s rg sort).map Prod.fst).nodup_iff]
  simp only [RGroup_GetIndivs, ne_eq, not_true_eq_false, and_false, if_false]
  rw [List.map_flatMap]
  rw [List.nodup_flatMap]
  constructor
  · intro sp _
    rw [List.map_map]
    have e : (List.map (Prod.fst ∘ fun p : Nat × IndivType =>
          (({ sp := sp, pos := p.1 } : IndivRef), p.2)) (s.species sp).IndvHead.enum)
        = (List.range (s.species sp).IndvHead.length).map
            (fun i => ({ sp := sp, pos := i } : IndivRef)) := by
      rw [← List.enum_map_fst, List.map_map]
      rfl
    rw [e]
    apply List.Nodup.map _ (List.nodup_range _)
    intro a b hab
    exact congrArg IndivRef.pos hab
  · apply List.Nodup.pairwise_of_forall_ne hnd
    intro a _ b _ hab
    simp only [Function.onFun, List.disjoint_left, List.mem_map]
    rintro r ⟨x, ⟨i, _, rfl⟩, rfl⟩ ⟨y, ⟨j, _, rfl⟩, hy⟩
    apply hab
    have := congrArg IndivRef.sp hy
    simp only at this
    exact this.symm
theorem rgroup_ResPartIndiv_eq (c : Ctx) (s : State) :
    rgroup_ResPartIndiv c s = (ForEachGroup s).foldl (resPartIndiv_body c) s := rfl

theorem resPartIndiv_array_length (c : Ctx) (s : State) (rg : Nat) :
    (resPartIndiv_array c s rg).length = (RGroup_GetIndivs s rg SortKind.SORT_D).length := by
  simp [resPartIndiv_array, resPartIndiv_group, resPart_base_length]

theorem resPartIndiv_body_frame (c : Ctx) (st : State) (rg : Nat) :
    (resPartIndiv_body c st rg).RGroup = st.RGroup ∧
      ∀ j, j ∉ ForEachEstSpp (st.group rg) →
        (resPartIndiv_body c st rg).species j = st.species j := by
  unfold resPartIndiv_body
  simp only
  split_ifs
  · exact ⟨rfl, fun _ _ => rfl⟩
  · exact ⟨rfl, fun _ _ => rfl⟩
  · refine ⟨(foldl_setIndiv_RGroup _ _ _ st).1, fun j hj => ?_⟩
    refine foldl_mem_invariant (fun t : State => t.species j = st.species j)
      (fun st2 (p : IndivRef × IndivType) => st2.setIndiv p.1 p.2) _ ?_ st rfl
    intro b a ha hb
    have h1 : a.1 ∈ (RGroup_GetIndivs st rg SortKind.SORT_D).map Prod.fst :=
      (List.of_mem_zip ha).1
    obtain ⟨q, hq, hqa⟩ := List.mem_map.mp h1
    have hsp := (RGroup_GetIndivs_valid st rg _ q hq).1
    have hne : a.1.sp ≠ j := by
      intro h
      apply hj
      rw [← h, ← hqa]
      exact hsp
    show ((b.modSpecies a.1.sp _).species j) = _
    rw [modSpecies_species_ne _ _ _ _ hne]
    exact hb

theorem resPartIndiv_body_read (c : Ctx) (st : State) (rg : Nat)
    (hper : (st.group rg).max_age ≠ 1) (hnd : (ForEachEstSpp (st.group rg)).Nodup) :
    (RGroup_GetIndivs st rg SortKind.SORT_D).map
        (fun p => (resPartIndiv_body c st rg).indivAt p.1)
      = resPartIndiv_array c st rg := by
  by_cases he : (st.group rg).est_count = 0
  · have hL := RGroup_GetIndivs_nil st rg SortKind.SORT_D he
    have hA : resPartIndiv_array c st rg = [] := by
      apply List.eq_nil_of_length_eq_zero
      rw [resPartIndiv_array_length, hL]; rfl
    rw [hL, hA]; rfl
  · have e : resPartIndiv_body c st rg
        = (((RGroup_GetIndivs st rg SortKind.SORT_D).map Prod.fst).zip
            (resPartIndiv_array c st rg)).foldl (fun st2 p => st2.setIndiv p.1 p.2) st := by
      simp only [resPartIndiv_body, if_neg hper, if_neg he]
    have hlen : ((RGroup_GetIndivs st rg SortKind.SORT_D).map Prod.fst).length
        = (resPartIndiv_array c st rg).length := by
      rw [List.length_map, resPartIndiv_array_length]
    have hfst : (((RGroup_GetIndivs st rg SortKind.SORT_D).map Prod.fst).zip
        (resPartIndiv_array c st rg)).map Prod.fst
        = (RGroup_GetIndivs st rg SortKind.SORT_D).map Prod.fst :=
      List.map_fst_zip _ _ (le_of_eq hlen)
    have hsnd : (((RGroup_GetIndivs st rg SortKind.SORT_D).map Prod.fst).zip
        (resPartIndiv_array c st rg)).map Prod.snd = resPartIndiv_array c st rg :=
      List.map_snd_zip _ _ (le_of_eq hlen.symm)
    have hread := foldl_setIndiv_read
      (((RGroup_GetIndivs st rg SortKind.SORT_D).map Prod.fst).zip
        (resPartIndiv_array c st rg))
      (by rw [hfst]; exact RGroup_GetIndivs_refs_nodup st rg _ hnd) st
      (by
        intro p hp
        have h1 : p.1 ∈ (RGroup_GetIndivs st rg SortKind.SORT_D).map Prod.fst :=
          (List.of_mem_zip hp).1
        obtain ⟨q, hq, hqa⟩ := List.mem_map.mp h1
        have hv := RGroup_GetIndivs_valid st rg _ q hq
        rw [← hqa]
        exact ⟨hv.2.1, hv.2.2.1⟩)
    rw [← e, hsnd] at hread
    rw [← hread]
    have h2 : List.map (fun p : IndivRef × IndivType =>
          (resPartIndiv_body c st rg).indivAt p.1)
          (((RGroup_GetIndivs st rg SortKind.SORT_D).map Prod.fst).zip
            (resPartIndiv_array c st rg))
        = ((((RGroup_GetIndivs st rg SortKind.SORT_D).map Prod.fst).zip
            (resPartIndiv_array c st rg)).map Prod.fst).map
              (fun r => (resPartIndiv_body c st rg).indivAt r) := by
      rw [List.map_map]; rfl
    rw [h2, hfst, List.map_map]
    rfl

theorem flatMap_congr_mem {α β : Type} (f g : α → List β) :
    ∀ l : List α, (∀ a ∈ l, f a = g a) → l.flatMap f = l.flatMap g := by
  intro l
  induction l with
  | nil => intro _; rfl
  | cons a t ih =>
    intro h
    simp only [List.flatMap_cons]
    rw [h a (List.mem_cons_self _ _), ih (fun b hb => h b (List.mem_cons_of_mem _ hb))]

theorem RGroup_GetIndivs_congr (s st : State) (rg : Nat) (sort : SortKind)
    (hR : st.RGroup = s.RGroup)
    (hS : ∀ sp ∈ ForEachEstSpp (s.group rg), st.species sp = s.species sp) :
    RGroup_GetIndivs st rg sort = RGroup_GetIndivs s rg sort := by
  have hg : st.group rg = s.group rg := group_congr hR rg
  have e : (ForEachEstSpp (st.group rg)).flatMap (fun sp =>
        (st.species sp).IndvHead.enum.map
          (fun p => (({ sp := sp, pos := p.1 } : IndivRef), p.2)))
      = (ForEachEstSpp (s.group rg)).flatMap (fun sp =>
        (s.species sp).IndvHead.enum.map
          (fun p => (({ sp := sp, pos := p.1 } : IndivRef), p.2))) := by
    rw [hg]
    apply flatMap_congr_mem
    intro sp hsp
    rw [hS sp hsp]
  simp only [RGroup_GetIndivs, e]

theorem resPartIndiv_array_congr (c : Ctx) (s st : State) (rg : Nat)
    (hR : st.RGroup = s.RGroup)
    (hS : ∀ sp ∈ ForEachEstSpp (s.group rg), st.species sp = s.species sp) :
    resPartIndiv_array c st rg = resPartIndiv_array c s rg := by
  unfold resPartIndiv_array
  rw [RGroup_GetIndivs_congr s st rg _ hR hS, group_congr hR rg]

/-- The state that `rgroup_ResPartIndiv` returns holds, behind the pointers of the sorted
array of a perennial group, the individuals of `resPartIndiv_array`, provided the
established species of every group are distinct and belong to that group. -/
theorem rgroup_ResPartIndiv_stored (c : Ctx) (s : State)
    (hest : ∀ G, G < s.RGroup.length → (ForEachEstSpp (s.group G)).Nodup ∧
      ∀ sp ∈ ForEachEstSpp (s.group G), (s.species sp).res_grp = G)
    (rg : Nat) (hrg : rg < s.RGroup.length) (hper : (s.group rg).max_age ≠ 1) :
    resPartIndiv_result c s rg = resPartIndiv_array c s rg := by
  unfold resPartIndiv_result
  rw [rgroup_ResPartIndiv_eq, ForEachGroup]
  have hinv := foldl_range_invariant
    (fun k (st : State) => st.RGroup = s.RGroup ∧
      (∀ j, (∀ G, G < k → j ∉ ForEachEstSpp (s.group G)) → st.species j = s.species j) ∧
      (rg < k → (RGroup_GetIndivs s rg SortKind.SORT_D).map (fun p => st.indivAt p.1)
        = resPartIndiv_array c s rg))
    (resPartIndiv_body c) s.RGroup.length ?_ s ⟨rfl, fun _ _ => rfl, fun h => by omega⟩
  · exact hinv.2.2 hrg
  · intro k st hk hP
    obtain ⟨p1, p2, p3⟩ := hP
    obtain ⟨f1, f2⟩ := resPartIndiv_body_frame c st k
    have hgk : ∀ G, st.group G = s.group G := fun G => group_congr p1 G
    refine ⟨f1.trans p1, ?_, ?_⟩
    · intro j hj
      rw [f2 j (by rw [hgk]; exact hj k (Nat.lt_succ_self k))]
      exact p2 j (fun G hG => hj G (Nat.lt_succ_of_lt hG))
    · intro hlt
      by_cases hkr : k = rg
      · subst hkr
        have hS : ∀ sp ∈ ForEachEstSpp (s.group k), st.species sp = s.species sp := by
          intro sp hsp
          apply p2
          intro G hG hmem
          have h1 := (hest G (by omega)).2 sp hmem
          have h2 := (hest k hk).2 sp hsp
          omega
        rw [← RGroup_GetIndivs_congr s st k _ p1 hS, ← resPartIndiv_array_congr c s st k p1 hS]
        apply resPartIndiv_body_read
        · rw [hgk]; exact hper
        · rw [hgk]; exact (hest k hk).1
      · rw [← p3 (by omega)]
        apply List.map_congr_left
        intro p hp
        have hsp := (RGroup_GetIndivs_valid s rg _ p hp).1
        have hnot : p.1.sp ∉ ForEachEstSpp (st.group k) := by
          rw [hgk]
          intro hmem
          have h1 := (hest k hk).2 _ hmem
          have h2 := (hest rg hrg).2 _ hsp
          exact hkr (h1.symm.trans h2)
        unfold State.indivAt
        rw [f2 _ hnot]
/-! ### Apportionment to individuals, in the state that `rgroup_ResPartIndiv` returns -/

/-- C10, refuted as stated: in `exBand` the perennial group has PR 2000001/2000000 > 1,
`use_extra_res` false and `res_avail = 2000000/2000001 >= 0`. `rgroup_ResPartIndiv` takes
the proportional branch, because the PR is within the tolerance of 1: the individual of
size 3/4 requires 3/4 and receives 1500000/2000001, less than both its requirement and the
group's `res_avail`, and the smaller individual after it still receives 500000/2000001. -/
theorem cup_method_band_counterexample :
    exBand.RGroup.map (fun g => (g.max_age, g.use_extra_res, g.res_avail, g.pr))
        = [(5, false, 2000000 / 2000001, 2000001 / 2000000)] ∧
      (1 : ℚ) < 2000001 / 2000000 ∧
      (resPartIndiv_result exCtx exBand 0).map
          (fun x => (x.relsize, x.res_required, x.res_avail))
        = [(3 / 4, 3 / 4, 1500000 / 2000001), (1 / 4, 1 / 4, 500000 / 2000001)] ∧
      (rgroup_ResPartIndiv exCtx exBand).Species.map (fun s => s.IndvHead.map
          (fun x => (x.relsize, x.res_required, x.res_avail)))
        = [[(1 / 4, 1 / 4, 500000 / 2000001), (3 / 4, 3 / 4, 1500000 / 2000001)]] := by
  refine ⟨by decide!, by decide!, by decide!, by decide!⟩

/-- C10, amended. Cup method: let the established species of every group be distinct
species of that group, and let `rg` be a perennial group with a PR above 1 by more than
the tolerance (the test `GT(g->pr, 1.)`), `use_extra_res` false, `res_avail >= 0`,
positive `max_density` and `max_spp` and individuals of non-negative size. In the state
that `rgroup_ResPartIndiv` returns, the individuals of the group, taken in descending size
order, are all its individuals; each requires `(relsize / max_spp) / max_density` and has
received the minimum of that and what remains of the group's `res_avail` after the
individuals before it. Hence nobody has received more than it requires, the total handed
out is `min(res_avail, sum of requirements)`, and once an individual has received less
than it requires every later one has received zero. -/
theorem cup_method (c : Ctx) (s : State) (rg : Nat)
    (hest : ∀ G, G < s.RGroup.length → (ForEachEstSpp (s.group G)).Nodup ∧
      ∀ sp ∈ ForEachEstSpp (s.group G), (s.species sp).res_grp = G)
    (hrg : rg < s.RGroup.length) (hper : (s.group rg).max_age ≠ 1)
    (hpr : GT c.delta (s.group rg).pr 1) (hx : (s.group rg).use_extra_res = false)
    (hA : 0 ≤ (s.group rg).res_avail) (hden : 0 < (s.group rg).max_density)
    (hspp : 0 < (s.group rg).max_spp)
    (hsz : ∀ p ∈ RGroup_GetIndivs s rg SortKind.SORT_0, 0 ≤ p.2.relsize) :
    (resPartIndiv_result c s rg).Pairwise (fun a b => b.relsize ≤ a.relsize) ∧
      ((resPartIndiv_result c s rg).map (fun x => x.relsize)).Perm
        ((RGroup_GetIndivs s rg SortKind.SORT_0).map (fun p => p.2.relsize)) ∧
      (∀ i (h : i < (resPartIndiv_result c s rg).length),
        ((resPartIndiv_result c s rg)[i]).res_required =
          (((resPartIndiv_result c s rg)[i]).relsize / ((s.group rg).max_spp : ℚ))
            / (s.group rg).max_density ∧
        ((resPartIndiv_result c s rg)[i]).res_avail =
          min ((resPartIndiv_result c s rg)[i]).res_required
            ((s.group rg).res_avail -
              (((resPartIndiv_result c s rg).take i).map (fun x => x.res_avail)).sum)) ∧
      (∀ x ∈ resPartIndiv_result c s rg, 0 ≤ x.res_avail ∧ x.res_avail ≤ x.res_required) ∧
      ((resPartIndiv_result c s rg).map (fun x => x.res_avail)).sum =
        min (s.group rg).res_avail
          ((resPartIndiv_result c s rg).map (fun x => x.res_required)).sum ∧
      (∀ i j (_ : i < j) (hj : j < (resPartIndiv_result c s rg).length),
        ((resPartIndiv_result c s rg)[i]).res_avail
            < ((resPartIndiv_result c s rg)[i]).res_required →
          ((resPartIndiv_result c s rg)[j]).res_avail = 0) := by
  rw [rgroup_ResPartIndiv_stored c s hest rg hrg hper]
  exact cup_method_array c s rg hpr hx hA hden hspp hsz

/-- Witness of `cup_method`: in `exState` the group has 1/2 to hand out; after
`rgroup_ResPartIndiv` the total its individuals have received is 1/2, the minimum of that
and their requirements. -/
theorem cup_method_witness :
    ((resPartIndiv_result exCtx exState 0).map (fun x => x.res_avail)).sum =
      min (exState.group 0).res_avail
        ((resPartIndiv_result exCtx exState 0).map (fun x => x.res_required)).sum :=
  (cup_method exCtx exState 0 (by decide!) (by decide!) (by decide!) (by decide!)
    (by decide!) (by decide!) (by decide!) (by decide!) (by decide!)).2.2.2.2.1

/-- In `exState` (`res_avail = 1/2`, PR 2) the state after `rgroup_ResPartIndiv` holds the
individual of size 3/4 with 1/2 and the one of size 1/4 with nothing. -/
theorem cup_method_example :
    (rgroup_ResPartIndiv exCtx exState).Species.map (fun s => s.IndvHead.map
        (fun x => (x.relsize, x.res_required, x.res_avail, x.pr)))
      = [[(1 / 4, 1 / 4, 0, 100), (3 / 4, 3 / 4, 1 / 2, 3 / 2)]] := by
  decide!

/-- C11, amended: let the established species of every group be distinct species of that
group, and let the perennial group `rg` have a positive `res_avail`, a PR that is the
quotient `res_required / res_avail` and at most 1, a requirement that matches the sizes of
its individuals, no use of extra resource, and individuals of non-negative size whose
`grp_res_prop` is their share of the summed sizes. Then in the state that
`rgroup_ResPartIndiv` returns every individual of the group has received at least what it
requires; its PR is at most 1 when what it has received exceeds zero by more than the
tolerance, and 100 otherwise. -/
theorem ample_year_individuals (c : Ctx) (s : State) (rg : Nat)
    (hest : ∀ G, G < s.RGroup.length → (ForEachEstSpp (s.group G)).Nodup ∧
      ∀ sp ∈ ForEachEstSpp (s.group G), (s.species sp).res_grp = G)
    (hrg : rg < s.RGroup.length) (hper : (s.group rg).max_age ≠ 1)
    (hpr1 : (s.group rg).pr ≤ 1) (hA : 0 < (s.group rg).res_avail)
    (hprdef : (s.group rg).pr = (s.group rg).res_required / (s.group rg).res_avail)
    (hreq : (s.group rg).res_required =
      (((RGroup_GetIndivs s rg SortKind.SORT_0).map (fun p => p.2.relsize)).sum
        / ((s.group rg).max_spp : ℚ)) / (s.group rg).max_density)
    (hx : (s.group rg).use_extra_res = false)
    (hden : 0 < (s.group rg).max_density) (hspp : 0 < (s.group rg).max_spp)
    (hsum : 0 < ((RGroup_GetIndivs s rg SortKind.SORT_0).map (fun p => p.2.relsize)).sum)
    (hsz : ∀ p ∈ RGroup_GetIndivs s rg SortKind.SORT_0, 0 ≤ p.2.relsize ∧
      p.2.grp_res_prop = p.2.relsize /
        ((RGroup_GetIndivs s rg SortKind.SORT_0).map (fun p => p.2.relsize)).sum) :
    ((resPartIndiv_result c s rg).map (fun x => x.relsize)).Perm
        ((RGroup_GetIndivs s rg SortKind.SORT_0).map (fun p => p.2.relsize)) ∧
      ∀ x ∈ resPartIndiv_result c s rg,
        x.res_required ≤ x.res_avail ∧ (GT c.delta x.res_avail 0 → x.pr ≤ 1) ∧
          (¬ GT c.delta x.res_avail 0 → x.pr = 100) := by
  rw [rgroup_ResPartIndiv_stored c s hest rg hrg hper]
  refine ⟨?_, ample_year_array c s rg hpr1 hA hprdef hreq hx hden hspp hsum hsz⟩
  unfold resPartIndiv_array
  rw [resPartIndiv_group_relsize, List.map_map]
  exact (RGroup_GetIndivs_perm s rg SortKind.SORT_D).map _

/-- Witness of `ample_year_individuals` at `exAmple`. -/
theorem ample_year_individuals_witness :
    (resPartIndiv_result exCtx exAmple 0).all (fun x =>
      decide (x.res_required ≤ x.res_avail ∧ (GT exCtx.delta x.res_avail 0 → x.pr ≤ 1) ∧
        (¬ GT exCtx.delta x.res_avail 0 → x.pr = 100))) = true :=
  List.all_eq_true.mpr (fun x hx => decide_eq_true
    ((ample_year_individuals exCtx exAmple 0 (by decide!) (by decide!) (by decide!)
      (by decide!) (by decide!) (by decide!) (by decide!) (by decide!) (by decide!)
      (by decide!) (by decide!) (by decide!)).2 x hx))

end Steppe
